import Mathlib

/-! The page-flip loop of `ged::DRMModesetter` and `ged::EGLDRMGlue`.

A shallow embedding of `src/ged_lib/drm_modesetter.cpp` and
`src/ged_lib/egl_drm_glue.cpp`.

* The platform (libdrm, `select`, EGL/GL) is a parameter: `Platform` gives the
  return value of the n-th `drmModePageFlip` call and the outcome of the n-th
  `select` call, so a theorem quantified over `Platform` speaks about every
  behaviour of the platform.
* Every call that crosses a component boundary is recorded as an `Event`; the
  functions return the events they emit, in program order.
* `Run` may wait for ever, so the loops carry a fuel argument; the result
  `none` means that the fuel ran out while the loop was still running.
* Diagnostic output (`printf`, `std::cout`) is not recorded.

Further sections embed the discovery, mode-set and restore of the modesetter,
the creation and teardown of the ring, the mapping of a stream texture,
`src/matrix.cpp`, the C program `src/c/kmstriangle.c` and the test program
`src/drm/null_platform_test.c`.
-/

namespace ged

/-- The ring size, NUM_BUFFERS = 2 (egl_drm_glue.cpp:43). -/
def NUM_BUFFERS : Nat := 2

/-- Modelled from the spec: the constant `EGL_FOREVER_KHR` of the EGL headers,
which are not in the repository. The spec calls it an unbounded timeout; the
Khronos header `EGL/eglext.h` gives it this value. -/
def EGL_FOREVER_KHR : Nat := 0xFFFFFFFFFFFFFFFF

/-- Number of values of a 32-bit `unsigned int`. -/
def UINT_RANGE : Nat := 2 ^ 32

/-- The struct `Framebuffer` of `EGLDRMGlue::Impl` (egl_drm_glue.cpp:387-394);
handles and ids are numbers. -/
structure Framebuffer where
  bo : Nat
  fd : Int
  fb_id : Nat
  image : Nat
  gl_tex : Nat
  gl_fb : Nat
deriving DecidableEq, Repr, Inhabited

/-- The field of `struct EGLGlue` (egl_drm_glue.cpp:48-60) the page-flip loop
reads. -/
structure EGLGlue where
  egl_sync_supported : Bool
deriving DecidableEq, Repr, Inhabited

/-- What `select` leaves behind (drm_modesetter.cpp:152): its return value, the
two membership tests made on `fds` afterwards, and the flip-completion event
`(sec, usec)`, if any, that `drmHandleEvent` delivers to `page_flip_handler`
when it is called after this wait. -/
structure SelectResult where
  ret : Int
  stdin_set : Bool
  drm_set : Bool
  flip_event : Option (Nat × Nat)
deriving DecidableEq, Repr, Inhabited

/-- The calls recorded in a trace. `drmModePageFlip` also records the value
`page_flip_pending_` has when the call is made, and the value returned. -/
inductive Event where
  | GetFrameBuffer (front_buffer : Nat)
  | drmModePageFlip (fb_id : Nat) (page_flip_pending : Bool) (ret : Int)
  | select (r : SelectResult)
  | drmHandleEvent
  | DidPageFlip (front_buffer : Nat) (sec usec : Nat)
  | glBindFramebuffer (gl_fb : Nat)
  | callback (gl_framebuffer : Nat) (usec : Nat)
  | eglCreateSyncKHR
  | glFlush
  | eglClientWaitSyncKHR (timeout : Nat)
  | glFinish
deriving DecidableEq, Repr, Inhabited

/-- The platform: the value returned by the n-th call of `drmModePageFlip` and
the outcome of the n-th call of `select` (n = 0, 1, ...). -/
structure Platform where
  drmModePageFlip : Nat → Int
  select : Nat → SelectResult

namespace EGLDRMGlue

/-- The members of `EGLDRMGlue::Impl` (egl_drm_glue.cpp:482-488) the page-flip
loop reads. -/
structure Impl where
  egl_ : EGLGlue
  framebuffers_ : Fin NUM_BUFFERS → Framebuffer

/-- The array access `framebuffers_[i]`. An index outside the array, which the
C++ leaves undefined, reads a default slot here. -/
def Impl.framebufferAt (self : Impl) (i : Nat) : Framebuffer :=
  if h : i < NUM_BUFFERS then self.framebuffers_ ⟨i, h⟩ else default

/-- Method `EGLDRMGlue::Impl::EGLSyncFence` (egl_drm_glue.cpp:363-372). -/
def Impl.EGLSyncFence (self : Impl) : List Event :=
  if self.egl_.egl_sync_supported then
    [Event.eglCreateSyncKHR, Event.glFlush, Event.eglClientWaitSyncKHR EGL_FOREVER_KHR]
  else
    [Event.glFinish]

/-- The second argument of the callback, `sec * 1000000 + usec`
(egl_drm_glue.cpp:474): `sec` and `usec` are `unsigned int`, so the product and
the sum are taken modulo 2^32 before the value is widened to `unsigned long`. -/
def timestamp (sec usec : Nat) : Nat :=
  ((sec * 1000000) % UINT_RANGE + usec) % UINT_RANGE

/-- Method `EGLDRMGlue::Impl::DidPageFlip` (egl_drm_glue.cpp:468-476). -/
def Impl.DidPageFlip (self : Impl) (front_buffer sec usec : Nat) : List Event :=
  let back_fb := self.framebufferAt (front_buffer ^^^ 1)
  [Event.glBindFramebuffer back_fb.gl_fb,
   Event.callback back_fb.gl_fb (timestamp sec usec)] ++ self.EGLSyncFence

/-- Method `EGLDRMGlue::Impl::GetFrameBuffer` (egl_drm_glue.cpp:478-480). -/
def Impl.GetFrameBuffer (self : Impl) (front_buffer : Nat) : Nat :=
  (self.framebufferAt front_buffer).fb_id

end EGLDRMGlue

namespace DRMModesetter

/-- The members of `DRMModesetter::Impl` (drm_modesetter.cpp:405-414) the
page-flip loop reads and writes, with their initial values. -/
structure Impl where
  front_buffer_ : Nat := 0
  page_flip_pending_ : Bool := false
deriving DecidableEq, Repr, Inhabited

/-- The modesetter together with the locals of `Run`: `is_running`, and the
number of `drmModePageFlip` and of `select` calls made so far, which index the
platform. -/
structure RunState where
  self : Impl
  is_running : Bool
  flips : Nat
  selects : Nat
deriving DecidableEq, Repr, Inhabited

/-- How a piece of a function body ends: the loop condition failed, a `return`
was executed, or the fuel ran out. -/
inductive Flow where
  | fallthrough
  | returned (b : Bool)
  | blocked
deriving DecidableEq, Repr, Inhabited

/-- Method `DRMModesetter::Impl::PageFlip` (drm_modesetter.cpp:83-92); `calls`
is the number of earlier calls of `drmModePageFlip`. -/
def Impl.PageFlip (p : Platform) (self : Impl) (calls : Nat) (fb_id : Nat) :
    Bool × List Event :=
  let ret := p.drmModePageFlip calls
  (if ret ≠ 0 then false else true,
   [Event.drmModePageFlip fb_id self.page_flip_pending_ ret])

/-- Method `DRMModesetter::Impl::DidPageFlip` (drm_modesetter.cpp:379-382), reached
from `OnModesetPageFlipEvent`. -/
def Impl.DidPageFlip (client : EGLDRMGlue.Impl) (self : Impl) (sec usec : Nat) :
    Impl × List Event :=
  let self1 := { self with page_flip_pending_ := false }
  (self1, Event.DidPageFlip self1.front_buffer_ sec usec ::
            client.DidPageFlip self1.front_buffer_ sec usec)

/-- The static handler `OnModesetPageFlipEvent` (drm_modesetter.cpp:384-391),
registered as `page_flip_handler`; `data` is the modesetter itself. -/
def Impl.OnModesetPageFlipEvent (client : EGLDRMGlue.Impl) (self : Impl) (sec usec : Nat) :
    Impl × List Event :=
  Impl.DidPageFlip client self sec usec

/-- The call `drmHandleEvent(GetFD(), &evctx)` (drm_modesetter.cpp:165): the
registered `page_flip_handler` runs when the platform delivers a completion.
At most one flip is outstanding, so a call delivers at most one completion. -/
def handleEvent (client : EGLDRMGlue.Impl) (r : SelectResult) (s : RunState) :
    RunState × List Event :=
  match r.flip_event with
  | none => (s, [Event.drmHandleEvent])
  | some (sec, usec) =>
    let (self1, ev) := Impl.OnModesetPageFlipEvent client s.self sec usec
    ({ s with self := self1 }, Event.drmHandleEvent :: ev)

/-- One pass through the body of `while (page_flip_pending_)`
(drm_modesetter.cpp:149-166). The first component is `some b` when the body
executes `return b`. -/
def waitBody (p : Platform) (client : EGLDRMGlue.Impl) (s : RunState) :
    Option Bool × RunState × List Event :=
  let r := p.select s.selects
  let s1 := { s with selects := s.selects + 1 }
  if r.ret < 0 then (some false, s1, [Event.select r])
  else if r.ret = 0 then (some false, s1, [Event.select r])
  else
    let s2 := if r.stdin_set then { s1 with is_running := false } else s1
    let (s3, ev) := if r.drm_set then handleEvent client r s2 else (s2, [])
    (none, s3, Event.select r :: ev)

/-- The loop `while (page_flip_pending_)` (drm_modesetter.cpp:148-167). -/
def waitLoop (p : Platform) (client : EGLDRMGlue.Impl) :
    Nat → RunState → Flow × RunState × List Event
  | 0, s => if s.self.page_flip_pending_ then (Flow.blocked, s, []) else (Flow.fallthrough, s, [])
  | fuel + 1, s =>
    if s.self.page_flip_pending_ then
      match waitBody p client s with
      | (some b, s1, ev) => (Flow.returned b, s1, ev)
      | (none, s1, ev) =>
        let (f, s2, ev2) := waitLoop p client fuel s1
        (f, s2, ev ++ ev2)
    else (Flow.fallthrough, s, [])

/-- The head of the body of `while (is_running)` (drm_modesetter.cpp:141-147):
toggle the front index, submit the flip, and mark it pending when it was
accepted. The first component is `some b` when `return b` is executed. -/
def flipStep (p : Platform) (client : EGLDRMGlue.Impl) (s : RunState) :
    Option Bool × RunState × List Event :=
  let self1 := { s.self with front_buffer_ := s.self.front_buffer_ ^^^ 1 }
  let fb_id := client.GetFrameBuffer self1.front_buffer_
  let (ok, ev) := Impl.PageFlip p self1 s.flips fb_id
  let s1 := { s with self := self1, flips := s.flips + 1 }
  if ok = false then (some false, s1, Event.GetFrameBuffer self1.front_buffer_ :: ev)
  else (none, { s1 with self := { self1 with page_flip_pending_ := true } },
        Event.GetFrameBuffer self1.front_buffer_ :: ev)

/-- The loop `while (is_running)` and the final `return true`
(drm_modesetter.cpp:140-172). -/
def runLoop (p : Platform) (client : EGLDRMGlue.Impl) :
    Nat → RunState → Option Bool × RunState × List Event
  | 0, s => if s.is_running then (none, s, []) else (some true, s, [])
  | fuel + 1, s =>
    if s.is_running then
      match flipStep p client s with
      | (some b, s1, ev) => (some b, s1, ev)
      | (none, s1, ev) =>
        match waitLoop p client fuel s1 with
        | (Flow.returned b, s2, ev2) => (some b, s2, ev ++ ev2)
        | (Flow.blocked, s2, ev2) => (none, s2, ev ++ ev2)
        | (Flow.fallthrough, s2, ev2) =>
          let (r, s3, ev3) := runLoop p client fuel s2
          (r, s3, ev ++ ev2 ++ ev3)
    else (some true, s, [])

/-- Method `DRMModesetter::Impl::Run` (drm_modesetter.cpp:133-173): the value returned
(`none` when the fuel ran out), the modesetter afterwards, and the trace. -/
def Impl.Run (p : Platform) (client : EGLDRMGlue.Impl) (fuel : Nat) (self : Impl) :
    Option Bool × Impl × List Event :=
  let (r, s, ev) := runLoop p client fuel
    { self := self, is_running := true, flips := 0, selects := 0 }
  (r, s.self, ev)

end DRMModesetter

/-! ## Reading a trace -/

/-- The flip requests of a trace, in order: framebuffer id, the value of
`page_flip_pending_` at the call, and the value `drmModePageFlip` returned. -/
def flipRequests (t : List Event) : List (Nat × Bool × Int) :=
  t.filterMap fun e =>
    match e with
    | Event.drmModePageFlip fb_id pending ret => some (fb_id, pending, ret)
    | _ => none

/-- The slot indices passed to `GetFrameBuffer`, in order: the slot each flip
request names. -/
def flipSlots (t : List Event) : List Nat :=
  t.filterMap fun e =>
    match e with
    | Event.GetFrameBuffer front_buffer => some front_buffer
    | _ => none

/-- The flip completions of a trace, in order: the front index handed to the
client, and the `(sec, usec)` of the event. -/
def completions (t : List Event) : List (Nat × Nat × Nat) :=
  t.filterMap fun e =>
    match e with
    | Event.DidPageFlip front_buffer sec usec => some (front_buffer, sec, usec)
    | _ => none

/-- The render-callback invocations of a trace, in order: the render-target
handle and the timestamp. -/
def callbacks (t : List Event) : List (Nat × Nat) :=
  t.filterMap fun e =>
    match e with
    | Event.callback gl_framebuffer usec => some (gl_framebuffer, usec)
    | _ => none

/-- The outcomes of the `select` calls of a trace, in order. -/
def waits (t : List Event) : List SelectResult :=
  t.filterMap fun e =>
    match e with
    | Event.select r => some r
    | _ => none

/-- The flip requests of a trace that the platform accepted. -/
def acceptedFlips (t : List Event) : List (Nat × Bool × Int) :=
  (flipRequests t).filter fun x => x.2.2 = 0

/-- Around every callback invocation of the trace `t`: it is preceded
immediately by the client's `DidPageFlip f sec usec` and the binding of the
render target `fb` of slot `f ^^^ 1`, where `f < 2` is the slot named by the
latest flip request; its timestamp comes from `(sec, usec)`; and it is followed
immediately by the events of `EGLSyncFence`. -/
def CallbackContext (client : EGLDRMGlue.Impl) (t : List Event) : Prop :=
  ∀ pre fb ts post, t = pre ++ Event.callback fb ts :: post →
    ∃ pre0 f sec usec,
      pre = pre0 ++ [Event.DidPageFlip f sec usec, Event.glBindFramebuffer fb] ∧
      f < 2 ∧ (flipSlots pre0).getLast? = some f ∧
      fb = (client.framebufferAt (f ^^^ 1)).gl_fb ∧
      ts = EGLDRMGlue.timestamp sec usec ∧
      client.EGLSyncFence <+: post

/-- Whether the wait `r` ends with a flip completion: `select` succeeded, the
display descriptor is ready, and `drmHandleEvent` delivers an event. -/
def SelectResult.delivers (r : SelectResult) : Bool :=
  decide (0 < r.ret) && r.drm_set && r.flip_event.isSome

/-- The number of waits among the first `n` of the platform that end with a
flip completion. -/
def Platform.deliveredBefore (p : Platform) : Nat → Nat
  | 0 => 0
  | n + 1 => p.deliveredBefore n + (if (p.select n).delivers then 1 else 0)

/-! ## Concrete platforms and clients -/

/-- A ring of two slots: slot 0 has framebuffer id 40 and render target 1,
slot 1 has framebuffer id 41 and render target 2; fences are available. -/
def ringClient : EGLDRMGlue.Impl where
  egl_ := { egl_sync_supported := true }
  framebuffers_ := fun i =>
    if i.val = 0 then { bo := 10, fd := 20, fb_id := 40, image := 30, gl_tex := 3, gl_fb := 1 }
    else { bo := 11, fd := 21, fb_id := 41, image := 31, gl_tex := 4, gl_fb := 2 }

/-- A wait that reports the display descriptor ready and delivers the
completion `(sec, usec)`. -/
def flipDone (sec usec : Nat) : SelectResult :=
  { ret := 1, stdin_set := false, drm_set := true, flip_event := some (sec, usec) }

/-- A wait that reports only fd 0 ready. -/
def stdinReady : SelectResult :=
  { ret := 1, stdin_set := true, drm_set := false, flip_event := none }

/-- A wait that reports both descriptors ready and delivers the completion
`(sec, usec)`. -/
def stdinAndFlipDone (sec usec : Nat) : SelectResult :=
  { ret := 2, stdin_set := true, drm_set := true, flip_event := some (sec, usec) }

/-- Every flip is accepted; the first wait finds both fd 0 and the display
descriptor ready and delivers the completion (7, 5). -/
def exitDuringFirstFlip : Platform where
  drmModePageFlip := fun _ => 0
  select := fun _ => stdinAndFlipDone 7 5

/-- Every flip is accepted; the first wait delivers the completion (1, 0) of
the first flip, the second finds fd 0 ready as well and delivers the completion
(2, 0) of the second flip. -/
def exitDuringSecondFlip : Platform where
  drmModePageFlip := fun _ => 0
  select := fun n => if n = 0 then flipDone 1 0 else stdinAndFlipDone 2 0

/-- The first two flips are accepted and the third is rejected with -16
(busy); every wait delivers a completion. -/
def rejectThirdFlip : Platform where
  drmModePageFlip := fun n => if n < 2 then 0 else -16
  select := fun n => flipDone (n + 1) 0

/-- A wait that times out: `select` returns 0. -/
def waitTimeout : SelectResult :=
  { ret := 0, stdin_set := false, drm_set := false, flip_event := none }

/-- Every flip is accepted; the first wait delivers the completion (1, 0), the
second returns 0. -/
def timeoutDuringSecondFlip : Platform where
  drmModePageFlip := fun _ => 0
  select := fun n => if n = 0 then flipDone 1 0 else waitTimeout

/-- Every flip is accepted; the first wait finds both descriptors ready and
delivers a completion stamped 4295 s after the clock's origin. -/
def lateCompletion : Platform where
  drmModePageFlip := fun _ => 0
  select := fun _ => stdinAndFlipDone 4295 0

/-- Every flip is accepted; the waits 0 to 3 deliver the completions of the
first four flips; wait 4, made while the fifth flip is pending, reports only
fd 0 ready; wait 5 delivers the completion of the fifth flip. -/
def exitDuringFifthFlip : Platform where
  drmModePageFlip := fun _ => 0
  select := fun n => if n = 4 then stdinReady else flipDone (n + 1) 0

/-! ## Initialisation of EGL -/

/-- Modelled from the spec: the macro `assert` of `<cassert>`, which is not in
the repository. `assert(c)` lets execution continue when `c` holds, or when
the build defines `NDEBUG` (the macro then expands to nothing); otherwise it
stops the process. The value is whether execution continues. -/
def assertPasses (NDEBUG cond : Bool) : Bool :=
  NDEBUG || cond

/-- The answers of the EGL and GL libraries to `InitializeEGL`
(egl_drm_glue.cpp:271-361): for each entry point whether `eglGetProcAddress`
returned a non-null pointer, the results of the EGL calls, and the extension
strings (`none` for a null pointer). -/
structure EGLPlatform where
  eglCreateImageKHR : Bool
  eglDestroyImageKHR : Bool
  glEGLImageTargetTexture2DOES : Bool
  eglCreateSyncKHR : Bool
  eglClientWaitSyncKHR : Bool
  eglInitialize : Bool
  eglBindAPI : Bool
  eglChooseConfig : Bool
  num_config : Int
  eglCreateContext : Bool
  eglMakeCurrent : Bool
  egl_extensions : Option String
  gl_extensions : Option String
deriving DecidableEq, Repr, Inhabited

namespace EGLDRMGlue

/-- Method `EGLDRMGlue::Impl::ExtensionsContain` (egl_drm_glue.cpp:374-385);
`name` is not null. -/
def Impl.ExtensionsContain (name : String) (c_extensions : Option String) : Bool :=
  match c_extensions with
  | none => false
  | some c =>
    let extensions := c ++ " "
    let delimited_name := name ++ " "
    decide (delimited_name.toList <:+: extensions.toList)

/-- Method `EGLDRMGlue::Impl::InitializeEGL` (egl_drm_glue.cpp:271-361): the
value returned and the `egl_` it leaves behind. -/
def Impl.InitializeEGL (e : EGLPlatform) : Bool × EGLGlue :=
  let unset : EGLGlue := { egl_sync_supported := false }
  if !e.eglCreateImageKHR || !e.eglDestroyImageKHR || !e.glEGLImageTargetTexture2DOES then
    (false, unset)
  else
    let egl_ : EGLGlue :=
      if e.eglCreateSyncKHR && e.eglClientWaitSyncKHR then { egl_sync_supported := true }
      else { egl_sync_supported := false }
    if !e.eglInitialize then (false, egl_)
    else if !e.eglBindAPI then (false, egl_)
    else if !e.eglChooseConfig || e.num_config ≠ 1 then (false, egl_)
    else if !e.eglCreateContext then (false, egl_)
    else if !e.eglMakeCurrent then (false, egl_)
    else if !Impl.ExtensionsContain "EGL_KHR_image_base" e.egl_extensions then (false, egl_)
    else if !Impl.ExtensionsContain "EGL_EXT_image_dma_buf_import" e.egl_extensions then
      (false, egl_)
    else if !Impl.ExtensionsContain "GL_OES_EGL_image" e.gl_extensions then (false, egl_)
    else (true, egl_)

end EGLDRMGlue

/-- An EGL on which `InitializeEGL` succeeds and both fence entry points are
resolved. -/
def fenceEGL : EGLPlatform where
  eglCreateImageKHR := true
  eglDestroyImageKHR := true
  glEGLImageTargetTexture2DOES := true
  eglCreateSyncKHR := true
  eglClientWaitSyncKHR := true
  eglInitialize := true
  eglBindAPI := true
  eglChooseConfig := true
  num_config := 1
  eglCreateContext := true
  eglMakeCurrent := true
  egl_extensions := some "EGL_KHR_fence_sync EGL_KHR_image_base EGL_EXT_image_dma_buf_import"
  gl_extensions := some "GL_OES_EGL_image GL_OES_depth24"

/-- The same EGL without the entry point `eglCreateSyncKHR`. -/
def noFenceEGL : EGLPlatform :=
  { fenceEGL with eglCreateSyncKHR := false }

/-! ## Discovery of the display, mode-set and restore -/

/-- Modelled from the spec: the libdrm struct `drmModeModeInfo`, whose header
is not in the repository; the fields that the code reads, and the refresh rate
to tell modes of one size apart. -/
structure drmModeModeInfo where
  hdisplay : Nat
  vdisplay : Nat
  vrefresh : Nat
deriving DecidableEq, Repr, Inhabited

/-- Modelled from the spec: the libdrm struct `drmModeEncoder`, whose header is
not in the repository; the fields that the code reads. -/
structure drmModeEncoder where
  encoder_id : Nat
  crtc_id : Nat
  possible_crtcs : Nat
deriving DecidableEq, Repr, Inhabited

/-- Modelled from the spec: the libdrm struct `drmModeConnector`, whose header
is not in the repository; `count_modes` and `count_encoders` are the lengths
of the two lists. -/
structure drmModeConnector where
  connector_id : Nat
  encoder_id : Nat
  connection : Nat
  modes : List drmModeModeInfo
  encoders : List Nat
deriving DecidableEq, Repr, Inhabited

/-- Modelled from the spec: the libdrm struct `drmModeRes`, whose header is not
in the repository; `count_crtcs`, `count_connectors` and `count_encoders` are
the lengths of the lists. -/
structure drmModeRes where
  crtcs : List Nat
  connectors : List Nat
  encoders : List Nat := []
deriving DecidableEq, Repr, Inhabited

/-- Modelled from the spec: the libdrm struct `drmModeCrtc`, whose header is
not in the repository; the fields that the code reads. -/
structure drmModeCrtc where
  crtc_id : Nat
  buffer_id : Nat
  x : Nat
  y : Nat
  mode : drmModeModeInfo
deriving DecidableEq, Repr, Inhabited

/-- Modelled from the spec: the value of `DRM_MODE_CONNECTED` in libdrm's enum
`drmModeConnection`, whose header is not in the repository. -/
def DRM_MODE_CONNECTED : Nat := 1

/-- The answers of the kernel to the modesetter: the descriptor returned by
`open`, and the results of the libdrm queries (`none` for a null pointer) and
of `drmModeSetCrtc` when `ModeSetCrtc` programs the controller. -/
structure Kernel where
  openDevice : String → Int
  drmModeGetResources : Option drmModeRes
  drmModeGetConnector : Nat → Option drmModeConnector
  drmModeGetEncoder : Nat → Option drmModeEncoder
  drmModeGetCrtc : Nat → Option drmModeCrtc
  drmModeSetCrtc : Int

/-- The libdrm calls recorded while the controller is programmed and
restored. -/
inductive DrmCall where
  | drmModeGetCrtc (crtc_id : Nat)
  | drmModeSetCrtc (crtc_id buffer_id x y conn : Nat) (mode : drmModeModeInfo)
  | drmModeFreeCrtc (crtc : drmModeCrtc)
  | close (fd : Int)
deriving DecidableEq, Repr, Inhabited

/-- How a function ends: it ran to its end, an `assert` stopped the process,
or it read through a null pointer, which the C++ leaves undefined. -/
inductive Ending where
  | finished
  | assertionFailed
  | nullDereference
deriving DecidableEq, Repr, Inhabited

namespace DRMModesetter

/-- The struct `ModesetDev` (drm_modesetter.cpp:393-403). -/
structure ModesetDev where
  mode : drmModeModeInfo
  conn : Nat
  crtc : Nat := 0
  saved_crtc : Option drmModeCrtc := none
deriving DecidableEq, Repr, Inhabited

/-- All the members of `DRMModesetter::Impl` (drm_modesetter.cpp:405-414).
The pointer `modeset_dev_` is the position, in `modeset_dev_list_`, of the
device it points to; `core` holds `front_buffer_` and `page_flip_pending_`. -/
structure Modesetter where
  fd_ : Int := -1
  core : Impl := {}
  modeset_dev_list_ : List ModesetDev := []
  modeset_dev_ : Option Nat := none
deriving DecidableEq, Repr, Inhabited

/-- The loop `for (auto& dev : modeset_dev_list_) { if (dev->crtc == crtc)
break; }` of `FindCrtc` (drm_modesetter.cpp:321-325 and 356-360): it leaves
`crtc` as it found it. -/
def scanClaimed : List ModesetDev → Nat → Nat
  | [], crtc => crtc
  | dev :: rest, crtc => if dev.crtc = crtc then crtc else scanClaimed rest crtc

/-- The loop over `j` of `FindCrtc` (drm_modesetter.cpp:349-368), from
controller number `j` on; `crtcs` are the controllers `res->crtcs[j]`,
`res->crtcs[j + 1]`, ... . The test `crtc >= 0` is made on a `uint32_t`. -/
def crtcLoop (devs : List ModesetDev) (enc : drmModeEncoder) : Nat → List Nat → Option Nat
  | _, [] => none
  | j, c :: rest =>
    if enc.possible_crtcs &&& (1 <<< j) = 0 then crtcLoop devs enc (j + 1) rest
    else
      let crtc := scanClaimed devs c
      if crtc ≥ 0 then some crtc else crtcLoop devs enc (j + 1) rest

/-- The loop over `i` of `FindCrtc` (drm_modesetter.cpp:340-371) over the
encoder ids `conn->encoders[i]`. -/
def encoderLoop (k : Kernel) (devs : List ModesetDev) (res : drmModeRes) :
    List Nat → Option Nat
  | [] => none
  | id :: rest =>
    match k.drmModeGetEncoder id with
    | none => encoderLoop k devs res rest
    | some enc =>
      match crtcLoop devs enc 0 res.crtcs with
      | some crtc => some crtc
      | none => encoderLoop k devs res rest

/-- Method `DRMModesetter::Impl::FindCrtc` (drm_modesetter.cpp:312-376):
`some crtc` when it returns true with `*crtc_out = crtc`, `none` when it
returns false. -/
def Impl.FindCrtc (k : Kernel) (devs : List ModesetDev) (res : drmModeRes)
    (conn : drmModeConnector) : Option Nat :=
  let current : Option Nat :=
    if conn.encoder_id ≠ 0 then
      match k.drmModeGetEncoder conn.encoder_id with
      | some enc =>
        if enc.crtc_id ≠ 0 then
          let crtc := scanClaimed devs enc.crtc_id
          if crtc ≥ 0 then some crtc else none
        else none
      | none => none
    else none
  match current with
  | some crtc => some crtc
  | none => encoderLoop k devs res conn.encoders

/-- The loop over the connectors of `GetConnector` (drm_modesetter.cpp:239-
284), over the connector ids `res->connectors[i]`. -/
def connectorLoop (k : Kernel) (res : drmModeRes) (self : Modesetter) :
    List Nat → Modesetter
  | [] => self
  | id :: rest =>
    match k.drmModeGetConnector id with
    | none => connectorLoop k res self rest
    | some conn =>
      if conn.connection ≠ DRM_MODE_CONNECTED then connectorLoop k res self rest
      else
        match conn.modes with
        | [] => connectorLoop k res self rest
        | mode0 :: _ =>
          match Impl.FindCrtc k self.modeset_dev_list_ res conn with
          | none => connectorLoop k res self rest
          | some crtc =>
            { self with
              modeset_dev_ := some self.modeset_dev_list_.length,
              modeset_dev_list_ := self.modeset_dev_list_ ++
                [{ mode := mode0, conn := conn.connector_id, crtc := crtc }] }

/-- Method `DRMModesetter::Impl::GetConnector` (drm_modesetter.cpp:230-289). -/
def Impl.GetConnector (k : Kernel) (self : Modesetter) : Bool × Modesetter :=
  match k.drmModeGetResources with
  | none => (false, self)
  | some res => (true, connectorLoop k res self res.connectors)

/-- Method `DRMModesetter::Impl::DeviceOpen` (drm_modesetter.cpp:202-209). -/
def Impl.DeviceOpen (k : Kernel) (card : String) (self : Modesetter) : Bool × Modesetter :=
  let self1 := { self with fd_ := k.openDevice card }
  if self1.fd_ < 0 then (false, self1) else (true, self1)

/-- Method `DRMModesetter::Impl::Initialize` (drm_modesetter.cpp:119-131). -/
def Impl.Initialize (k : Kernel) (card : String) (self : Modesetter) : Bool × Modesetter :=
  match Impl.DeviceOpen k card self with
  | (false, self1) => (false, self1)
  | (true, self1) =>
    match Impl.GetConnector k self1 with
    | (false, self2) => (false, self2)
    | (true, self2) => (true, self2)

/-- The factory `DRMModesetter::Create` (drm_modesetter.cpp:418-424): `none`
for the null pointer. The argument `atomic` is not used. -/
def Create (k : Kernel) (card : String) (_atomic : Bool) : Option Modesetter :=
  match Impl.Initialize k card {} with
  | (true, drm) => some drm
  | (false, _) => none

/-- The device `modeset_dev_` points to, `none` when it is null. -/
def Modesetter.dev (self : Modesetter) : Option ModesetDev :=
  match self.modeset_dev_ with
  | none => none
  | some i => self.modeset_dev_list_[i]?

/-- Method `DRMModesetter::Impl::GetDisplaySize` (drm_modesetter.cpp:63-65):
`none` when `modeset_dev_` is null, which the C++ dereferences. -/
def Impl.GetDisplaySize (self : Modesetter) : Option (Nat × Nat) :=
  match self.dev with
  | none => none
  | some dev => some (dev.mode.hdisplay, dev.mode.vdisplay)

/-- The test a connector id has to pass for `GetConnector` to select it: the
connector can be retrieved, is connected, advertises at least one mode, and
`FindCrtc` finds a controller for it. -/
def Selectable (k : Kernel) (res : drmModeRes) (devs : List ModesetDev) (id : Nat) : Prop :=
  ∃ conn, k.drmModeGetConnector id = some conn ∧ conn.connection = DRM_MODE_CONNECTED ∧
    conn.modes ≠ [] ∧ (Impl.FindCrtc k devs res conn).isSome = true

/-- The controller that the spec describes for `FindCrtc` when no device was
configured before: the controller bound to the connector's active encoder when
there is one with a non-zero controller id; otherwise `crtcs[j]` for the first
pair (i, j), in encoder-then-controller order over the encoders that can be
retrieved, such that bit `j` of the mask `possible_crtcs` of encoder `i` is
set; none when there is no such pair. -/
def specFindCrtc (k : Kernel) (res : drmModeRes) (conn : drmModeConnector) : Option Nat :=
  let active : Option Nat :=
    if conn.encoder_id = 0 then none
    else (k.drmModeGetEncoder conn.encoder_id).bind fun enc =>
      if enc.crtc_id = 0 then none else some enc.crtc_id
  let pairs : List Nat :=
    (conn.encoders.filterMap k.drmModeGetEncoder).flatMap fun enc =>
      (res.crtcs.enum.filter fun jc => enc.possible_crtcs.testBit jc.1).map fun jc => jc.2
  match active with
  | some crtc => some crtc
  | none => pairs.head?

/-- Method `DRMModesetter::Impl::ModeSetCrtc` (drm_modesetter.cpp:67-81): how
it ends, the value returned, the modesetter afterwards and the libdrm calls
made. -/
def Impl.ModeSetCrtc (NDEBUG : Bool) (k : Kernel) (client : EGLDRMGlue.Impl)
    (self : Modesetter) : Ending × Bool × Modesetter × List DrmCall :=
  if !assertPasses NDEBUG self.modeset_dev_.isSome then
    (Ending.assertionFailed, false, self, [])
  else
    let fb_id := client.GetFrameBuffer self.core.front_buffer_
    match self.modeset_dev_, self.dev with
    | some i, some dev =>
      let saved_crtc := k.drmModeGetCrtc dev.crtc
      let self1 := { self with
        modeset_dev_list_ := self.modeset_dev_list_.set i { dev with saved_crtc := saved_crtc } }
      let calls := [DrmCall.drmModeGetCrtc dev.crtc,
                    DrmCall.drmModeSetCrtc dev.crtc fb_id 0 0 dev.conn dev.mode]
      if k.drmModeSetCrtc ≠ 0 then (Ending.finished, false, self1, calls)
      else (Ending.finished, true, self1, calls)
    | _, _ => (Ending.nullDereference, false, self, [])

/-- The loop of the destructor over `modeset_dev_list_`
(drm_modesetter.cpp:49-55): each device's saved configuration is read through
`dev->saved_crtc`, restored and freed. -/
def restoreLoop : List ModesetDev → Ending × List DrmCall
  | [] => (Ending.finished, [])
  | dev :: rest =>
    match dev.saved_crtc with
    | none => (Ending.nullDereference, [])
    | some saved =>
      let (e, calls) := restoreLoop rest
      (e, DrmCall.drmModeSetCrtc saved.crtc_id saved.buffer_id saved.x saved.y dev.conn
            saved.mode :: DrmCall.drmModeFreeCrtc saved :: calls)

/-- The destructor `DRMModesetter::Impl::~Impl` (drm_modesetter.cpp:47-58): how
it ends and the libdrm calls made. -/
def Impl.destructor (NDEBUG : Bool) (self : Modesetter) : Ending × List DrmCall :=
  if !assertPasses NDEBUG (!self.core.page_flip_pending_) then (Ending.assertionFailed, [])
  else
    match restoreLoop self.modeset_dev_list_ with
    | (Ending.finished, calls) => (Ending.finished, calls ++ [DrmCall.close self.fd_])
    | (e, calls) => (e, calls)

/-- The restore mode-sets among the calls of a destructor: every call of
`drmModeSetCrtc`. -/
def restores (calls : List DrmCall) : List DrmCall :=
  calls.filter fun c =>
    match c with
    | DrmCall.drmModeSetCrtc _ _ _ _ _ _ => true
    | _ => false

end DRMModesetter

/-! ## Concrete kernels -/

/-- The mode 640x480 at 60 Hz. -/
def mode640x480 : drmModeModeInfo := { hdisplay := 640, vdisplay := 480, vrefresh := 60 }

/-- The mode 1920x1080 at 60 Hz. -/
def mode1920x1080 : drmModeModeInfo := { hdisplay := 1920, vdisplay := 1080, vrefresh := 60 }

/-- The mode 800x600 at 60 Hz. -/
def mode800x600 : drmModeModeInfo := { hdisplay := 800, vdisplay := 600, vrefresh := 60 }

/-- A card with one controller (id 50) and one connector (id 7), connected,
advertising 640x480, 1920x1080 and 800x600 in that order, whose active encoder
(id 30) is bound to the controller; before the program starts the controller
shows buffer 99 in 800x600. -/
def oneOutputKernel : Kernel where
  openDevice := fun _ => 3
  drmModeGetResources := some { crtcs := [50], connectors := [7] }
  drmModeGetConnector := fun id =>
    if id = 7 then
      some { connector_id := 7, encoder_id := 30, connection := DRM_MODE_CONNECTED,
             modes := [mode640x480, mode1920x1080, mode800x600], encoders := [30] }
    else none
  drmModeGetEncoder := fun id =>
    if id = 30 then some { encoder_id := 30, crtc_id := 50, possible_crtcs := 1 } else none
  drmModeGetCrtc := fun id =>
    if id = 50 then some { crtc_id := 50, buffer_id := 99, x := 0, y := 0, mode := mode800x600 }
    else none
  drmModeSetCrtc := 0

/-- A card whose resources list no connector at all. -/
def noOutputKernel : Kernel where
  openDevice := fun _ => 3
  drmModeGetResources := some { crtcs := [50], connectors := [] }
  drmModeGetConnector := fun _ => none
  drmModeGetEncoder := fun _ => none
  drmModeGetCrtc := fun _ => none
  drmModeSetCrtc := 0

/-- A card with two connected connectors: connector 7 comes first and
advertises no mode, connector 8 advertises 800x600. -/
def modelessFirstKernel : Kernel where
  openDevice := fun _ => 3
  drmModeGetResources := some { crtcs := [50], connectors := [7, 8] }
  drmModeGetConnector := fun id =>
    if id = 7 then
      some { connector_id := 7, encoder_id := 0, connection := DRM_MODE_CONNECTED,
             modes := [], encoders := [30] }
    else if id = 8 then
      some { connector_id := 8, encoder_id := 30, connection := DRM_MODE_CONNECTED,
             modes := [mode800x600], encoders := [30] }
    else none
  drmModeGetEncoder := fun id =>
    if id = 30 then some { encoder_id := 30, crtc_id := 50, possible_crtcs := 1 } else none
  drmModeGetCrtc := fun id =>
    if id = 50 then some { crtc_id := 50, buffer_id := 99, x := 0, y := 0, mode := mode800x600 }
    else none
  drmModeSetCrtc := 0

/-- The card of `oneOutputKernel`, except that reading the controller's
configuration fails: `drmModeGetCrtc` returns a null pointer. -/
def unreadableCrtcKernel : Kernel :=
  { oneOutputKernel with drmModeGetCrtc := fun _ => none }

/-- A card with two controllers (ids 50 and 51) and one connector (id 9)
without an active encoder; of its encoders, 31 cannot be retrieved and 32 works
with the second controller only. -/
def scanKernel : Kernel where
  openDevice := fun _ => 3
  drmModeGetResources := some { crtcs := [50, 51], connectors := [9] }
  drmModeGetConnector := fun id =>
    if id = 9 then
      some { connector_id := 9, encoder_id := 0, connection := DRM_MODE_CONNECTED,
             modes := [mode800x600], encoders := [31, 32] }
    else none
  drmModeGetEncoder := fun id =>
    if id = 32 then some { encoder_id := 32, crtc_id := 0, possible_crtcs := 2 } else none
  drmModeGetCrtc := fun _ => none
  drmModeSetCrtc := 0

namespace DRMModesetter

/-- The life of a modesetter as `EGLDRMGlue` drives it: `Create`, then
`ModeSetCrtc`, then `Run` when the mode-set was applied, then the destructor.
The result is what `ModeSetCrtc` returned, what `Run` returned (`none` when it
was not called or ran out of fuel), how the destructor ended and the calls it
made; it is `none` when `Create` fails or `ModeSetCrtc` does not run to its
end. -/
def lifeCycle (NDEBUG : Bool) (k : Kernel) (p : Platform) (client : EGLDRMGlue.Impl)
    (fuel : Nat) : Option (Bool × Option Bool × Ending × List DrmCall) :=
  match Create k "/dev/dri/card0" false with
  | none => none
  | some drm =>
    match Impl.ModeSetCrtc NDEBUG k client drm with
    | (Ending.finished, true, drm1, _) =>
      let (result, core, _) := Impl.Run p client fuel drm1.core
      let (ending, calls) := Impl.destructor NDEBUG { drm1 with core := core }
      some (true, result, ending, calls)
    | (Ending.finished, false, drm1, _) =>
      let (ending, calls) := Impl.destructor NDEBUG drm1
      some (false, none, ending, calls)
    | _ => none

end DRMModesetter

/-! ## Creation and teardown of the ring -/

/-- The calls of `EGLDRMGlue` that acquire and release platform resources,
with the handle returned or passed. `drmModeAddFB2` records the id written to
`fb_id`, if any. -/
inductive GlueCall where
  | gbm_create_device (fd : Int) (gbm : Nat)
  | gbm_bo_create (width height : Nat) (bo : Nat)
  | gbm_bo_get_fd (bo : Nat) (fd : Int)
  | drmModeAddFB2 (width height : Nat) (fb_id : Option Nat)
  | eglCreateImageKHR (fd : Int) (image : Nat)
  | glGenTextures (gl_tex : Nat)
  | glGenFramebuffers (gl_fb : Nat)
  | glDeleteFramebuffers (gl_fb : Nat)
  | glDeleteTextures (gl_tex : Nat)
  | eglDestroyImageKHR (image : Nat)
  | drmModeRmFB (fb_id : Nat)
  | close (fd : Int)
  | gbm_bo_destroy (bo : Nat)
  | eglDestroyContext
  | eglTerminate
  | gbm_device_destroy (gbm : Nat)
deriving DecidableEq, Repr, Inhabited

/-- The answers of the platform while one slot of the ring is created
(egl_drm_glue.cpp:396-465): the buffer (0 for null), its descriptor, the id
that `drmModeAddFB2` writes (`none` when it writes nothing), the image (0 for
`EGL_NO_IMAGE_KHR`), the texture and framebuffer names, and whether
`glCheckFramebufferStatus` reports `GL_FRAMEBUFFER_COMPLETE`. -/
structure SlotAnswers where
  gbm_bo_create : Nat
  gbm_bo_get_fd : Int
  drmModeAddFB2 : Option Nat
  eglCreateImageKHR : Nat
  glGenTextures : Nat
  glGenFramebuffers : Nat
  complete : Bool
deriving DecidableEq, Repr, Inhabited

/-- The answers of the platform to `EGLDRMGlue::Impl::Initialize`: the gbm
device (0 for null), the EGL, and the answers for each slot. -/
structure GluePlatform where
  gbm_create_device : Nat
  egl : EGLPlatform
  slot : Fin NUM_BUFFERS → SlotAnswers

/-- A platform resource of a ring slot. -/
inductive Resource where
  | bo (handle : Nat)
  | fd (fd : Int)
  | fb (fb_id : Nat)
  | image (handle : Nat)
  | texture (name : Nat)
  | renderTarget (name : Nat)
deriving DecidableEq, Repr, Inhabited

/-- The ring resources that the calls of a trace acquired, in order. -/
def acquired (calls : List GlueCall) : List Resource :=
  calls.flatMap fun c =>
    match c with
    | GlueCall.gbm_bo_create _ _ bo => if bo = 0 then [] else [Resource.bo bo]
    | GlueCall.gbm_bo_get_fd _ fd => if fd < 0 then [] else [Resource.fd fd]
    | GlueCall.drmModeAddFB2 _ _ (some fb_id) => [Resource.fb fb_id]
    | GlueCall.eglCreateImageKHR _ image => if image = 0 then [] else [Resource.image image]
    | GlueCall.glGenTextures gl_tex => [Resource.texture gl_tex]
    | GlueCall.glGenFramebuffers gl_fb => [Resource.renderTarget gl_fb]
    | _ => []

/-- The ring resources for which the calls of a trace issued a release, in
order. -/
def released (calls : List GlueCall) : List Resource :=
  calls.flatMap fun c =>
    match c with
    | GlueCall.glDeleteFramebuffers gl_fb => [Resource.renderTarget gl_fb]
    | GlueCall.glDeleteTextures gl_tex => [Resource.texture gl_tex]
    | GlueCall.eglDestroyImageKHR image => [Resource.image image]
    | GlueCall.drmModeRmFB fb_id => [Resource.fb fb_id]
    | GlueCall.close fd => [Resource.fd fd]
    | GlueCall.gbm_bo_destroy bo => [Resource.bo bo]
    | _ => []

namespace EGLDRMGlue

/-- All the members of `EGLDRMGlue::Impl` (egl_drm_glue.cpp:482-488):
`core` holds `egl_.egl_sync_supported` and `framebuffers_`, and
`DestroyImageKHR` tells whether the entry point `egl_.DestroyImageKHR` is a
non-null pointer. -/
structure Glue where
  drm_ : DRMModesetter.Modesetter
  gbm_ : Nat := 0
  DestroyImageKHR : Bool := false
  core : Impl

/-- The constructor of `EGLDRMGlue::Impl` (egl_drm_glue.cpp:206-209): `egl_`
is zeroed and `gbm_` is null; of each slot only `bo` has an initialiser, the
other fields start with whatever the memory holds (`junk`). -/
def Impl.constructor (junk : Fin NUM_BUFFERS → Framebuffer)
    (drm : DRMModesetter.Modesetter) : Glue where
  drm_ := drm
  gbm_ := 0
  DestroyImageKHR := false
  core := { egl_ := { egl_sync_supported := false },
            framebuffers_ := fun i => { junk i with bo := 0 } }

/-- Method `EGLDRMGlue::Impl::CreateFramebuffer` (egl_drm_glue.cpp:396-465):
the value returned, the slot afterwards and the calls made. -/
def Impl.CreateFramebuffer (a : SlotAnswers) (width height : Nat) (framebuffer : Framebuffer) :
    Bool × Framebuffer × List GlueCall :=
  let fb1 := { framebuffer with bo := a.gbm_bo_create }
  let calls1 := [GlueCall.gbm_bo_create width height fb1.bo]
  if fb1.bo = 0 then (false, fb1, calls1)
  else
    let fb2 := { fb1 with fd := a.gbm_bo_get_fd }
    let calls2 := calls1 ++ [GlueCall.gbm_bo_get_fd fb2.bo fb2.fd]
    if fb2.fd < 0 then (false, fb2, calls2)
    else
      let fb3 :=
        match a.drmModeAddFB2 with
        | some fb_id => { fb2 with fb_id := fb_id }
        | none => fb2
      let calls3 := calls2 ++ [GlueCall.drmModeAddFB2 width height a.drmModeAddFB2]
      if fb3.fb_id = 0 then (false, fb3, calls3)
      else
        let fb4 := { fb3 with image := a.eglCreateImageKHR }
        let calls4 := calls3 ++ [GlueCall.eglCreateImageKHR fb4.fd fb4.image]
        if fb4.image = 0 then (false, fb4, calls4)
        else
          let fb5 := { fb4 with gl_tex := a.glGenTextures, gl_fb := a.glGenFramebuffers }
          let calls5 := calls4 ++
            [GlueCall.glGenTextures fb5.gl_tex, GlueCall.glGenFramebuffers fb5.gl_fb]
          if !a.complete then
            (false, fb5, calls5 ++
              [GlueCall.glDeleteFramebuffers fb5.gl_fb, GlueCall.glDeleteTextures fb5.gl_tex])
          else (true, fb5, calls5)

/-- The loop `for (auto& framebuffer : framebuffers_)` of `Initialize`
(egl_drm_glue.cpp:243-249) over the slots still to create. -/
def createLoop (answers : Fin NUM_BUFFERS → SlotAnswers) (width height : Nat) :
    List (Fin NUM_BUFFERS) → (Fin NUM_BUFFERS → Framebuffer) →
      Bool × (Fin NUM_BUFFERS → Framebuffer) × List GlueCall
  | [], fbs => (true, fbs, [])
  | i :: rest, fbs =>
    match Impl.CreateFramebuffer (answers i) width height (fbs i) with
    | (false, fb, calls) => (false, Function.update fbs i fb, calls)
    | (true, fb, calls) =>
      let (ok, fbs2, calls2) := createLoop answers width height rest (Function.update fbs i fb)
      (ok, fbs2, calls ++ calls2)

/-- Method `EGLDRMGlue::Impl::Initialize` (egl_drm_glue.cpp:230-256): how it
ends, the value returned, the object afterwards, and the calls made on the
ring and on the display controller. -/
def Impl.Initialize (NDEBUG : Bool) (g : GluePlatform) (k : Kernel) (self : Glue) :
    Ending × Bool × Glue × List GlueCall × List DrmCall :=
  let self1 := { self with gbm_ := g.gbm_create_device }
  let calls0 := [GlueCall.gbm_create_device self.drm_.fd_ self1.gbm_]
  if self1.gbm_ = 0 then (Ending.finished, false, self1, calls0, [])
  else
    let (ok_egl, egl_) := Impl.InitializeEGL g.egl
    let self2 := { self1 with
      core := { self1.core with egl_ := egl_ },
      DestroyImageKHR := g.egl.eglDestroyImageKHR }
    if !ok_egl then (Ending.finished, false, self2, calls0, [])
    else
      match DRMModesetter.Impl.GetDisplaySize self2.drm_ with
      | none => (Ending.nullDereference, false, self2, calls0, [])
      | some (width, height) =>
        let (ok, fbs, calls) :=
          createLoop g.slot width height (List.finRange NUM_BUFFERS) self2.core.framebuffers_
        let self3 := { self2 with core := { self2.core with framebuffers_ := fbs } }
        if !ok then (Ending.finished, false, self3, calls0 ++ calls, [])
        else
          match DRMModesetter.Impl.ModeSetCrtc NDEBUG k self3.core self3.drm_ with
          | (ending, ok_modeset, drm1, drm_calls) =>
            (ending, ok_modeset, { self3 with drm_ := drm1 }, calls0 ++ calls, drm_calls)

/-- The body of the destructor's loop (egl_drm_glue.cpp:216-221) for one
slot. -/
def releaseSlot (framebuffer : Framebuffer) : List GlueCall :=
  [GlueCall.glDeleteFramebuffers framebuffer.gl_fb,
   GlueCall.glDeleteTextures framebuffer.gl_tex,
   GlueCall.eglDestroyImageKHR framebuffer.image,
   GlueCall.drmModeRmFB framebuffer.fb_id,
   GlueCall.close framebuffer.fd,
   GlueCall.gbm_bo_destroy framebuffer.bo]

/-- The destructor's loop `for (auto& framebuffer : framebuffers_)`
(egl_drm_glue.cpp:215-222) over the slots still to release. The call through
`egl_.DestroyImageKHR` is undefined when that pointer is null. -/
def releaseLoop (self : Glue) : List (Fin NUM_BUFFERS) → Ending × List GlueCall
  | [] => (Ending.finished, [])
  | i :: rest =>
    if !self.DestroyImageKHR then
      (Ending.nullDereference,
       [GlueCall.glDeleteFramebuffers (self.core.framebuffers_ i).gl_fb,
        GlueCall.glDeleteTextures (self.core.framebuffers_ i).gl_tex])
    else
      let (ending, calls) := releaseLoop self rest
      (ending, releaseSlot (self.core.framebuffers_ i) ++ calls)

/-- The destructor `EGLDRMGlue::Impl::~Impl` (egl_drm_glue.cpp:213-228),
followed by the destruction of the member `drm_`: how it ends, the calls made
on the ring and the calls made on the display controller. -/
def Impl.destructor (NDEBUG : Bool) (self : Glue) : Ending × List GlueCall × List DrmCall :=
  match releaseLoop self (List.finRange NUM_BUFFERS) with
  | (Ending.finished, calls) =>
    let calls1 := calls ++
      [GlueCall.eglDestroyContext, GlueCall.eglTerminate, GlueCall.gbm_device_destroy self.gbm_]
    let (ending, drm_calls) := DRMModesetter.Impl.destructor NDEBUG self.drm_
    (ending, calls1, drm_calls)
  | (ending, calls) => (ending, calls, [])

/-- The factory `EGLDRMGlue::Create` (egl_drm_glue.cpp:492-499), which
destroys the object when `Initialize` fails: the object returned (`none` for
null), how the call ends, and all the calls made on the ring, creation and
teardown. -/
def Create (NDEBUG : Bool) (g : GluePlatform) (k : Kernel)
    (junk : Fin NUM_BUFFERS → Framebuffer) (drm : DRMModesetter.Modesetter) :
    Option Glue × Ending × List GlueCall :=
  match Impl.Initialize NDEBUG g k (Impl.constructor junk drm) with
  | (Ending.finished, true, self1, calls, _) => (some self1, Ending.finished, calls)
  | (Ending.finished, false, self1, calls, _) =>
    let (ending, calls2, _) := Impl.destructor NDEBUG self1
    (none, ending, calls ++ calls2)
  | (ending, _, _, calls, _) => (none, ending, calls)

end EGLDRMGlue

/-- The contents of a fresh ring's memory in the examples: the same arbitrary
values in both slots. -/
def junkRing : Fin NUM_BUFFERS → Framebuffer :=
  fun _ => { bo := 70, fd := 71, fb_id := 72, image := 73, gl_tex := 74, gl_fb := 75 }

/-- The answers that make the ring of `ringClient`. -/
def ringAnswers : Fin NUM_BUFFERS → SlotAnswers :=
  fun i =>
    if i.val = 0 then
      { gbm_bo_create := 10, gbm_bo_get_fd := 20, drmModeAddFB2 := some 40,
        eglCreateImageKHR := 30, glGenTextures := 3, glGenFramebuffers := 1, complete := true }
    else
      { gbm_bo_create := 11, gbm_bo_get_fd := 21, drmModeAddFB2 := some 41,
        eglCreateImageKHR := 31, glGenTextures := 4, glGenFramebuffers := 2, complete := true }

/-- A platform on which the whole ring is created. -/
def ringPlatform : GluePlatform where
  gbm_create_device := 5
  egl := fenceEGL
  slot := ringAnswers

/-- The platform `ringPlatform`, except that the render target of slot 1 is
found incomplete. -/
def incompleteSecondSlot : GluePlatform :=
  { ringPlatform with
    slot := fun i => if i.val = 0 then ringAnswers i else { ringAnswers i with complete := false } }

/-- The platform `ringPlatform`, except that the buffer of slot 1 cannot be
allocated. -/
def noSecondBuffer : GluePlatform :=
  { ringPlatform with
    slot := fun i => if i.val = 0 then ringAnswers i else { ringAnswers i with gbm_bo_create := 0 } }

/-- The modesetter that `DRMModesetter::Create` makes on `oneOutputKernel`. -/
def oneOutputModesetter : DRMModesetter.Modesetter :=
  { fd_ := 3, modeset_dev_list_ := [{ mode := mode640x480, conn := 7, crtc := 50 }],
    modeset_dev_ := some 0 }

/-- The glue object that `EGLDRMGlue::Create` makes on `ringPlatform`, with
the ring of `ringClient`. -/
def ringGlue : EGLDRMGlue.Glue where
  drm_ := oneOutputModesetter
  gbm_ := 5
  DestroyImageKHR := true
  core := ringClient

/-! ## Mapping a stream texture -/

/-- Number of values of `size_t`, taken as 64 bits wide. -/
def SIZE_RANGE : Nat := 2 ^ 64

/-- The struct `StreamTexture::Dimension` (egl_drm_glue.h:43-47). -/
structure Dimension where
  width : Nat := 0
  height : Nat := 0
  stride : Nat := 0
deriving DecidableEq, Repr, Inhabited

/-- The members of `StreamTextureImpl` that `Map` and `Unmap` use
(egl_drm_glue.cpp:190-196); `addr_` is an address, 0 for `nullptr`. -/
structure StreamTextureImpl where
  fd_ : Int := -1
  dimension_ : Dimension := {}
  addr_ : Nat := 0
deriving DecidableEq, Repr, Inhabited

/-- The memory-mapping calls of a stream texture: `mmap` with its length, its
descriptor and the address returned, and `munmap` with its address and
length. -/
inductive MemCall where
  | mmap (size : Nat) (fd : Int) (addr : Nat)
  | munmap (addr size : Nat)
deriving DecidableEq, Repr, Inhabited

namespace StreamTextureImpl

/-- The local `size` of `Map` and of `Unmap` (egl_drm_glue.cpp:121,130):
`dimension_.stride * dimension_.height` in `size_t`. -/
def size (self : StreamTextureImpl) : Nat :=
  (self.dimension_.stride * self.dimension_.height) % SIZE_RANGE

/-- Method `StreamTextureImpl::Map` (egl_drm_glue.cpp:119-126): how it ends,
the pointer returned (0 for `nullptr`), the object afterwards and the calls
made. `MAP_FAILED` is the value of that constant of `sys/mman.h` and
`mmap_result` is what `mmap` returns. -/
def Map (MAP_FAILED : Nat) (NDEBUG : Bool) (mmap_result : Nat) (self : StreamTextureImpl) :
    Ending × Nat × StreamTextureImpl × List MemCall :=
  if !assertPasses NDEBUG (self.addr_ == 0) then (Ending.assertionFailed, 0, self, [])
  else
    let size := self.size
    let self1 := { self with addr_ := mmap_result }
    let calls := [MemCall.mmap size self.fd_ mmap_result]
    if self1.addr_ = MAP_FAILED then (Ending.finished, 0, self1, calls)
    else (Ending.finished, self1.addr_, self1, calls)

/-- Method `StreamTextureImpl::Unmap` (egl_drm_glue.cpp:128-133): how it ends,
the object afterwards and the calls made. -/
def Unmap (NDEBUG : Bool) (self : StreamTextureImpl) :
    Ending × StreamTextureImpl × List MemCall :=
  if !assertPasses NDEBUG (self.addr_ != 0) then (Ending.assertionFailed, self, [])
  else
    let size := self.size
    (Ending.finished, { self with addr_ := 0 }, [MemCall.munmap self.addr_ size])

/-- A call that a payload makes on its stream texture; `Map` carries what
`mmap` returns during it. -/
inductive Op where
  | Map (mmap_result : Nat)
  | Unmap
deriving DecidableEq, Repr, Inhabited

/-- A sequence of calls on one stream texture, stopping at the first that does
not run to its end: how it ends, the object afterwards and the calls made. -/
def runOps (MAP_FAILED : Nat) (NDEBUG : Bool) :
    List Op → StreamTextureImpl → Ending × StreamTextureImpl × List MemCall
  | [], self => (Ending.finished, self, [])
  | Op.Map mmap_result :: rest, self =>
    match Map MAP_FAILED NDEBUG mmap_result self with
    | (Ending.finished, _, self1, calls) =>
      let (ending, self2, calls2) := runOps MAP_FAILED NDEBUG rest self1
      (ending, self2, calls ++ calls2)
    | (ending, _, self1, calls) => (ending, self1, calls)
  | Op.Unmap :: rest, self =>
    match Unmap NDEBUG self with
    | (Ending.finished, self1, calls) =>
      let (ending, self2, calls2) := runOps MAP_FAILED NDEBUG rest self1
      (ending, self2, calls ++ calls2)
    | (ending, self1, calls) => (ending, self1, calls)

/-- The mappings that are live after one more call: a successful `mmap` adds
its address, `munmap` removes its address. -/
def liveAfter (MAP_FAILED : Nat) (live : List Nat) : MemCall → List Nat
  | MemCall.mmap _ _ addr => if addr = MAP_FAILED then live else addr :: live
  | MemCall.munmap addr _ => live.erase addr

/-- Whether at most one mapping is live before, between and after the calls of
a trace, starting from the live mappings `live`. -/
def atMostOneLive (MAP_FAILED : Nat) : List Nat → List MemCall → Bool
  | live, [] => decide (live.length ≤ 1)
  | live, c :: calls =>
    decide (live.length ≤ 1) && atMostOneLive MAP_FAILED (liveAfter MAP_FAILED live c) calls

end StreamTextureImpl

/-- A stream texture of 256 by 64 pixels with 1024 bytes per row, unmapped. -/
def texture256x64 : StreamTextureImpl :=
  { fd_ := 9, dimension_ := { width := 256, height := 64, stride := 1024 }, addr_ := 0 }

/-- The platform `ringPlatform`, except that `eglInitialize` fails. -/
def noDisplayPlatform : GluePlatform :=
  { ringPlatform with egl := { fenceEGL with eglInitialize := false } }

/-- The space-separated tokens of an extension string, as the spec of
`ExtensionsContain` and of `has_extension` reads it. -/
def specTokens (extensions : String) : List (List Char) :=
  extensions.toList.splitOn ' '

namespace DRMModesetter

end DRMModesetter

/-- The class `Matrix` (matrix.h:28-75): its member `float m_[4][4]`, with
entries in `α`, which stands for `float` taken as exact numbers. -/
structure Matrix (α : Type) where
  m_ : Fin 4 → Fin 4 → α

namespace Matrix

variable {α : Type}

/-- The assignment `m[i][j] = v` to an array `m[4][4]`. -/
def assign (m : Fin 4 → Fin 4 → α) (i j : Fin 4) (v : α) : Fin 4 → Fin 4 → α :=
  Function.update m i (Function.update (m i) j v)

/-- Method `Matrix::InitIdentity` (matrix.cpp:74-80): `memset` to zero, then
the four diagonal entries are set to 1. -/
def InitIdentity [Zero α] [One α] (_self : Matrix α) : Matrix α :=
  let m0 : Fin 4 → Fin 4 → α := fun _ _ => 0
  let m1 := assign m0 0 0 1
  let m2 := assign m1 1 1 1
  let m3 := assign m2 2 2 1
  let m4 := assign m3 3 3 1
  { m_ := m4 }

/-- The constructor `Matrix::Matrix()` (matrix.cpp:47-49), which calls
`InitIdentity` on the uninitialised member (`junk`). -/
def constructor [Zero α] [One α] (junk : Fin 4 → Fin 4 → α) : Matrix α :=
  InitIdentity { m_ := junk }

/-- The body of the loop of `MatrixMultiply` (matrix.cpp:85-96) for row `i`:
the four entries of row `i` of `tmp` are assigned. -/
def multiplyRow [Add α] [Mul α] (self op tmp : Matrix α) (i : Fin 4) : Matrix α :=
  let t0 := assign tmp.m_ i 0
    ((self.m_ i 0 * op.m_ 0 0) + (self.m_ i 1 * op.m_ 1 0) +
     (self.m_ i 2 * op.m_ 2 0) + (self.m_ i 3 * op.m_ 3 0))
  let t1 := assign t0 i 1
    ((self.m_ i 0 * op.m_ 0 1) + (self.m_ i 1 * op.m_ 1 1) +
     (self.m_ i 2 * op.m_ 2 1) + (self.m_ i 3 * op.m_ 3 1))
  let t2 := assign t1 i 2
    ((self.m_ i 0 * op.m_ 0 2) + (self.m_ i 1 * op.m_ 1 2) +
     (self.m_ i 2 * op.m_ 2 2) + (self.m_ i 3 * op.m_ 3 2))
  let t3 := assign t2 i 3
    ((self.m_ i 0 * op.m_ 0 3) + (self.m_ i 1 * op.m_ 1 3) +
     (self.m_ i 2 * op.m_ 2 3) + (self.m_ i 3 * op.m_ 3 3))
  { m_ := t3 }

/-- Method `Matrix::MatrixMultiply` (matrix.cpp:82-98): the matrix afterwards.
The local `tmp` is default-constructed (what its memory held before does not
matter, `InitIdentity` overwrites it), filled row by row for `i = 0..3`, and
copied over `m_`. -/
def MatrixMultiply [Zero α] [One α] [Add α] [Mul α] (self op : Matrix α) : Matrix α :=
  let tmp : Matrix α := constructor (fun _ _ => 0)
  let tmp1 := multiplyRow self op tmp 0
  let tmp2 := multiplyRow self op tmp1 1
  let tmp3 := multiplyRow self op tmp2 2
  let tmp4 := multiplyRow self op tmp3 3
  { m_ := tmp4.m_ }

end Matrix
end ged

/-! ## The C program `src/c/kmstriangle.c` -/

namespace kmstriangle

open ged

/-- The macro `NUM_BUFFERS` (kmstriangle.c:46), the ring size of the C
program. -/
def NUM_BUFFERS : Nat := 2

/-- The struct `framebuffer` (kmstriangle.c:74-81); handles and ids are
numbers. -/
structure framebuffer where
  bo : Nat
  fd : Int
  fb_id : Nat
  image : Nat
  gl_tex : Nat
  gl_fb : Nat
deriving DecidableEq, Repr, Inhabited

/-- The static struct `drm` (kmstriangle.c:84-89), zero at program start;
`mode` points into the mode list of a connector, `none` is the null
pointer. -/
structure Drm where
  fd : Int := 0
  mode : Option drmModeModeInfo := none
  crtc_id : Nat := 0
  connector_id : Nat := 0
deriving DecidableEq, Repr, Inhabited

/-- The value of a C `int` expression whose mathematical value is `n`: wrapped
to 32 bits, two's complement. -/
def toInt (n : Int) : Int :=
  (n + 2 ^ 31) % 2 ^ 32 - 2 ^ 31

/-- The C library function `strstr(haystack, needle)` on strings without their
terminating NUL: the offset of the first occurrence of `needle` in
`haystack`, `none` for a null result. -/
def strstr : List Char → List Char → Option Nat
  | [], needle => if needle = [] then some 0 else none
  | c :: cs, needle =>
    if needle.isPrefixOf (c :: cs) then some 0
    else (strstr cs needle).map fun off => off + 1

/-- The loop `for (;;)` of `has_extension` (kmstriangle.c:153-162); pointers
into `extensions` are offsets, the offset `extensions.length` being that of the
terminating NUL. `none` means that the fuel ran out. -/
def has_extension_loop (extension extensions : List Char) : Nat → Nat → Option Int
  | 0, _ => none
  | fuel + 1, start =>
    match strstr (extensions.drop start) extension with
    | none => some (-1)
    | some off =>
      let where_ := start + off
      let terminator := where_ + extension.length
      if (where_ = start ∨ extensions.get? (where_ - 1) = some ' ') ∧
          (extensions.get? terminator = some ' ' ∨ terminator = extensions.length) then
        some 0
      else has_extension_loop extension extensions fuel terminator

/-- Function `has_extension` (kmstriangle.c:150-164) on strings without their
terminating NUL. -/
def has_extension (fuel : Nat) (extension extensions : String) : Option Int :=
  has_extension_loop extension.toList extensions.toList fuel 0

/-- The loop "find a connected connector" of `init_drm`
(kmstriangle.c:186-194) over the connector ids still to try: the connector it
leaves in `connector` (`none` for null). `connector->connection` is read
without a test of `connector`. -/
def findConnector (k : Kernel) : List Nat → Ending × Option drmModeConnector
  | [] => (Ending.finished, none)
  | id :: rest =>
    match k.drmModeGetConnector id with
    | none => (Ending.nullDereference, none)
    | some connector =>
      if connector.connection = DRM_MODE_CONNECTED then (Ending.finished, some connector)
      else findConnector k rest

/-- The area `current_mode->hdisplay * current_mode->vdisplay` of a mode, an
`int` (kmstriangle.c:207). -/
def current_area (current_mode : drmModeModeInfo) : Int :=
  toInt ((current_mode.hdisplay : Int) * (current_mode.vdisplay : Int))

/-- The loop "find highest resolution mode" of `init_drm`
(kmstriangle.c:205-212) over the modes still to visit; the state is `drm.mode`
and `area`. -/
def modeLoop : List drmModeModeInfo → Option drmModeModeInfo × Int →
    Option drmModeModeInfo × Int
  | [], s => s
  | current_mode :: rest, (mode, area) =>
    if current_area current_mode > area then
      modeLoop rest (some current_mode, current_area current_mode)
    else modeLoop rest (mode, area)

/-- The loop "find encoder" of `init_drm` (kmstriangle.c:220-226) over the
encoder ids still to try; `encoder->encoder_id` is read without a test of
`encoder`. -/
def findEncoder (k : Kernel) (connector : drmModeConnector) :
    List Nat → Ending × Option drmModeEncoder
  | [] => (Ending.finished, none)
  | id :: rest =>
    match k.drmModeGetEncoder id with
    | none => (Ending.nullDereference, none)
    | some encoder =>
      if encoder.encoder_id = connector.encoder_id then (Ending.finished, some encoder)
      else findEncoder k connector rest

/-- Function `init_drm` (kmstriangle.c:166-238): how it ends, the value
returned and the static `drm` afterwards. -/
def init_drm (k : Kernel) (node : String) (drm : Drm) : Ending × Int × Drm :=
  let drm1 := { drm with fd := k.openDevice node }
  if drm1.fd < 0 then (Ending.finished, -1, drm1)
  else
    match k.drmModeGetResources with
    | none => (Ending.finished, -1, drm1)
    | some resources =>
      match findConnector k resources.connectors with
      | (Ending.finished, none) => (Ending.finished, -1, drm1)
      | (Ending.finished, some connector) =>
        let drm2 := { drm1 with mode := (modeLoop connector.modes (drm1.mode, 0)).1 }
        if drm2.mode.isNone then (Ending.finished, -1, drm2)
        else
          match findEncoder k connector resources.encoders with
          | (Ending.finished, none) => (Ending.finished, -1, drm2)
          | (Ending.finished, some encoder) =>
            (Ending.finished, 0,
             { drm2 with crtc_id := encoder.crtc_id, connector_id := connector.connector_id })
          | (ending, _) => (ending, -1, drm2)
      | (ending, _) => (ending, -1, drm1)

end kmstriangle

namespace kmstriangle

open ged

/-- The calls of `main` recorded in a trace. `select` records `nfds`, the
descriptor set passed in, the value returned and the set left behind. -/
inductive Call where
  | egl_sync_fence
  | drmModeSetCrtc (crtc_id fb_id connector_id : Nat)
  | glBindFramebuffer (gl_fb : Nat)
  | draw (i : Nat)
  | drmModePageFlip (crtc_id fb_id : Nat) (ret : Int)
  | select (nfds : Int) (fds : List Int) (ret : Int) (fds_after : List Int)
  | drmHandleEvent
  | glDeleteFramebuffers (gl_fb : Nat)
  | glDeleteTextures (gl_tex : Nat)
  | DestroyImageKHR (image : Nat)
  | drmModeRmFB (fb_id : Nat)
  | close (fd : Int)
  | gbm_bo_destroy (bo : Nat)
  | eglDestroyContext
  | eglTerminate
deriving DecidableEq, Repr, Inhabited

/-- What `main` gets from its initialisation: the kernel that `init_drm`
queries, the values returned by `init_egl`, `init_gbm`, `create_framebuffers`,
`init_gl` and `create_gl_framebuffers` (each returns 0 or -1), the array `fbs`
they leave behind, and the value returned by `drmModeSetCrtc`. -/
structure Setup where
  kernel : Kernel
  init_egl : Int
  init_gbm : Int
  create_framebuffers : Int
  init_gl : Int
  create_gl_framebuffers : Int
  fbs : Fin NUM_BUFFERS → framebuffer
  drmModeSetCrtc : Int

/-- The array access `fbs[i]`; an index outside the array, which C leaves
undefined, reads a default slot here. -/
def Setup.fbAt (setup : Setup) (i : Nat) : framebuffer :=
  if h : i < NUM_BUFFERS then setup.fbs ⟨i, h⟩ else default

/-- The macro `FD_SET(fd, &fds)` on a descriptor set kept as a list. -/
def FD_SET (fd : Int) (fds : List Int) : List Int :=
  if fd ∈ fds then fds else fds ++ [fd]

/-- The macro `FD_ISSET(fd, &fds)`. -/
def FD_ISSET (fd : Int) (fds : List Int) : Bool :=
  decide (fd ∈ fds)

/-- The descriptor set that `select` leaves in `fds`: on success it keeps, of
the descriptors passed in, those that are ready (fd 0 when the platform
reports `stdin_set`, `drm.fd` when it reports `drm_set`); on a timeout it
empties the set and on an error it leaves it as it was. -/
def selectSets (r : SelectResult) (drm_fd : Int) (fds : List Int) : List Int :=
  if r.ret > 0 then
    fds.filter fun fd => (fd == 0 && r.stdin_set) || (fd == drm_fd && r.drm_set)
  else if r.ret = 0 then []
  else fds

/-- The variables of `main` that its loops read and write: `gbm.front_buffer`,
the frame counter `i`, the descriptor set `fds`, `ret`, and the number of
`drmModePageFlip` and of `select` calls made so far, which index the
platform. -/
structure State where
  front_buffer : Nat
  i : Nat
  fds : List Int
  ret : Int
  flips : Nat
  selects : Nat
deriving DecidableEq, Repr, Inhabited

/-- How the loop `while (waiting_for_flip)` ends: the handler cleared
`waiting_for_flip`, the loop was left by `break` with `got_user_input` set,
`main` returned a value, or the fuel ran out. -/
inductive Wait where
  | flipped
  | user_input
  | returned (code : Int)
  | blocked
deriving DecidableEq, Repr, Inhabited

/-- The loop `while (waiting_for_flip)` of `main` (kmstriangle.c:634-649),
entered with `waiting_for_flip = 1`. The descriptor set `fds` is the one that
the previous `select` left behind. -/
def waitLoop (drm : Drm) (p : Platform) : Nat → State → Wait × State × List Call
  | 0, s => (Wait.blocked, s, [])
  | fuel + 1, s =>
    let r := p.select s.selects
    let fds1 := selectSets r drm.fd s.fds
    let s1 := { s with selects := s.selects + 1, fds := fds1, ret := r.ret }
    let ev := Call.select (drm.fd + 1) s.fds r.ret fds1
    if r.ret < 0 then (Wait.returned r.ret, s1, [ev])
    else if r.ret = 0 then (Wait.returned (-1), s1, [ev])
    else if FD_ISSET 0 fds1 then (Wait.user_input, s1, [ev])
    else if FD_ISSET drm.fd fds1 then
      match r.flip_event with
      | some _ => (Wait.flipped, s1, [ev, Call.drmHandleEvent])
      | none =>
        let (w, s2, evs) := waitLoop drm p fuel s1
        (w, s2, ev :: Call.drmHandleEvent :: evs)
    else
      let (w, s2, evs) := waitLoop drm p fuel s1
      (w, s2, ev :: evs)

/-- How the loop `while (1)` ends: by `break`, by a `return`, or the fuel ran
out. -/
inductive Present where
  | broke
  | returned (code : Int)
  | blocked
deriving DecidableEq, Repr, Inhabited

/-- The loop `while (1)` of `main` (kmstriangle.c:614-666). The frame-rate
report is not recorded. -/
def presentLoop (setup : Setup) (drm : Drm) (p : Platform) :
    Nat → State → Present × State × List Call
  | 0, s => (Present.blocked, s, [])
  | fuel + 1, s =>
    let back_fb := setup.fbAt (s.front_buffer ^^^ 1)
    let ret := p.drmModePageFlip s.flips
    let s1 := { s with i := (s.i + 1) % UINT_RANGE, flips := s.flips + 1, ret := ret }
    let evs := [Call.glBindFramebuffer back_fb.gl_fb, Call.draw s.i, Call.egl_sync_fence,
                Call.drmModePageFlip drm.crtc_id back_fb.fb_id ret]
    if ret ≠ 0 then (Present.returned (-1), s1, evs)
    else
      match waitLoop drm p fuel s1 with
      | (Wait.returned code, s2, evs2) => (Present.returned code, s2, evs ++ evs2)
      | (Wait.blocked, s2, evs2) => (Present.blocked, s2, evs ++ evs2)
      | (Wait.user_input, s2, evs2) => (Present.broke, s2, evs ++ evs2)
      | (Wait.flipped, s2, evs2) =>
        let s3 := { s2 with front_buffer := s2.front_buffer ^^^ 1 }
        let (pr, s4, evs3) := presentLoop setup drm p fuel s3
        (pr, s4, evs ++ evs2 ++ evs3)

/-- The teardown loop of `main` over `fbs` (kmstriangle.c:668-678) and the two
calls after it. -/
def teardown (setup : Setup) : List Call :=
  ((List.range NUM_BUFFERS).flatMap fun i =>
    [Call.glDeleteFramebuffers (setup.fbAt i).gl_fb,
     Call.glDeleteTextures (setup.fbAt i).gl_tex,
     Call.DestroyImageKHR (setup.fbAt i).image,
     Call.drmModeRmFB (setup.fbAt i).fb_id,
     Call.close (setup.fbAt i).fd,
     Call.gbm_bo_destroy (setup.fbAt i).bo]) ++
  [Call.eglDestroyContext, Call.eglTerminate]

/-- Function `main` (kmstriangle.c:534-681) with the arguments `argv`: how it
ends, the value returned and the calls made from the first mode-set on;
`none` when the fuel runs out while a loop is still running. -/
def main (argv : List String) (setup : Setup) (p : Platform) (fuel : Nat) :
    Option (Ending × Int × List Call) :=
  let card := if argv.length > 1 then argv.getD 1 "" else "/dev/dri/card0"
  match init_drm setup.kernel card {} with
  | (Ending.finished, ret, drm) =>
    if ret ≠ 0 then some (Ending.finished, ret, [])
    else
      let fds := FD_SET drm.fd (FD_SET 0 [])
      if setup.init_egl ≠ 0 then some (Ending.finished, setup.init_egl, [])
      else if setup.init_gbm ≠ 0 then some (Ending.finished, setup.init_gbm, [])
      else if setup.create_framebuffers ≠ 0 then
        some (Ending.finished, setup.create_framebuffers, [])
      else if setup.init_gl ≠ 0 then some (Ending.finished, setup.init_gl, [])
      else if setup.create_gl_framebuffers ≠ 0 then
        some (Ending.finished, setup.create_gl_framebuffers, [])
      else
        let front_buffer := 0
        let back_fb := setup.fbAt (front_buffer ^^^ 1)
        let ret := setup.drmModeSetCrtc
        let evs := [Call.egl_sync_fence,
                    Call.drmModeSetCrtc drm.crtc_id back_fb.fb_id drm.connector_id]
        if ret ≠ 0 then some (Ending.finished, ret, evs)
        else
          let s : State :=
            { front_buffer := front_buffer ^^^ 1, i := 0, fds := fds, ret := ret,
              flips := 0, selects := 0 }
          match presentLoop setup drm p fuel s with
          | (Present.blocked, _, _) => none
          | (Present.returned code, _, evs2) => some (Ending.finished, code, evs ++ evs2)
          | (Present.broke, s1, evs2) =>
            some (Ending.finished, s1.ret, evs ++ evs2 ++ teardown setup)
  | (ending, ret, _) => some (ending, ret, [])

/-- The `select` calls of a trace: for each the descriptor set passed in. -/
def watched (calls : List Call) : List (List Int) :=
  calls.filterMap fun c =>
    match c with
    | Call.select _ fds _ _ => some fds
    | _ => none

end kmstriangle

namespace kmstriangle

open ged

/-- The card of `oneOutputKernel`, with its encoder 30 listed in the
resources. -/
def triangleKernel : Kernel :=
  { oneOutputKernel with
    drmModeGetResources := some { crtcs := [50], connectors := [7], encoders := [30] } }

/-- A set-up in which every initialisation step succeeds on `triangleKernel`
and leaves a ring of two slots: slot 0 has framebuffer id 40 and render target
1, slot 1 has framebuffer id 41 and render target 2. -/
def triangleSetup : Setup where
  kernel := triangleKernel
  init_egl := 0
  init_gbm := 0
  create_framebuffers := 0
  init_gl := 0
  create_gl_framebuffers := 0
  fbs := fun i =>
    if i.val = 0 then { bo := 10, fd := 20, fb_id := 40, image := 30, gl_tex := 3, gl_fb := 1 }
    else { bo := 11, fd := 21, fb_id := 41, image := 31, gl_tex := 4, gl_fb := 2 }
  drmModeSetCrtc := 0

/-- Every flip is accepted; the first wait finds only fd 0 ready. -/
def enterAtFirstWait : Platform where
  drmModePageFlip := fun _ => 0
  select := fun _ => stdinReady

end kmstriangle

/-! ## The test program `src/drm/null_platform_test.c` -/

namespace null_platform_test

open ged

/-- The macro `NUM_BUFFERS` of the test (null_platform_test.c:11). -/
def NUM_BUFFERS : Nat := 2

/-- The answers of the platform while one ring slot is created
(null_platform_test.c:144-175): the buffer (0 for null), the framebuffer id
(0 for failure), the image (0 for `EGL_NO_IMAGE_KHR`) and the EGL framebuffer
(0 for null). -/
structure SlotAnswers where
  gbm_bo_create : Nat
  bs_drm_fb_create_gbm : Nat
  bs_egl_image_create_gbm : Nat
  bs_egl_fb_new : Nat
deriving DecidableEq, Repr, Inhabited

/-- The answers of the platform to `main`: the descriptor of the card, the gbm
device (0 for null), the results of the set-up calls, the answers for each
slot, and, for the flip loop, the result of `bs_egl_image_flush_external` and
of `drmModePageFlip` in iteration `i`, the value returned by the n-th
`select`, and the value returned by the n-th `drmHandleEvent` together with
whether it ran `page_flip_handler`. -/
structure Answers where
  fd : Int
  gbm_create_device : Nat
  bs_drm_pipe_make : Bool
  connector_id : Nat
  crtc_id : Nat
  drmModeGetConnector : Option drmModeConnector
  bs_egl_setup : Bool
  slot : Nat → SlotAnswers
  drmModeSetCrtc : Int
  solid_shader_create : Nat
  bs_egl_image_flush_external : Nat → Bool
  drmModePageFlip : Nat → Int
  select : Nat → Int
  drmHandleEvent : Nat → Int × Bool

/-- The calls of `main` recorded in a trace. -/
inductive Call where
  | gbm_bo_create (bo : Nat)
  | bs_drm_fb_create_gbm (bo id : Nat)
  | bs_egl_image_create_gbm (bo image : Nat)
  | bs_egl_fb_new (image egl_fb : Nat)
  | drmModeSetCrtc (crtc_id fb_id connector_id : Nat)
  | drmModePageFlip (crtc_id fb_id : Nat) (ret : Int)
  | select (ret : Int)
  | drmHandleEvent (ret : Int)
  | bs_egl_fb_destroy (egl_fb : Nat)
  | bs_egl_image_destroy (image : Nat)
  | drmModeRmFB (fb_id : Nat)
  | gbm_bo_destroy (bo : Nat)
  | bs_egl_destroy
  | gbm_device_destroy (gbm : Nat)
  | close (fd : Int)
deriving DecidableEq, Repr, Inhabited

/-- The local arrays `bos`, `ids`, `egl_fbs` and `egl_images` of `main`
(null_platform_test.c:140-143), as lists filled slot by slot. -/
structure Ring where
  bos : List Nat := []
  ids : List Nat := []
  egl_fbs : List Nat := []
  egl_images : List Nat := []
deriving DecidableEq, Repr, Inhabited

/-- The loop over `fb_index` that creates the ring
(null_platform_test.c:144-175), from slot `fb_index` on for `n` more slots:
whether every slot was created (otherwise `main` returns 1), the arrays and
the calls made. -/
def createLoop (a : Answers) : Nat → Nat → Ring → Bool × Ring × List Call
  | 0, _, ring => (true, ring, [])
  | n + 1, fb_index, ring =>
    let s := a.slot fb_index
    let bo := s.gbm_bo_create
    let ring1 := { ring with bos := ring.bos ++ [bo] }
    let c1 := [Call.gbm_bo_create bo]
    if bo = 0 then (false, ring1, c1)
    else
      let id := s.bs_drm_fb_create_gbm
      let ring2 := { ring1 with ids := ring1.ids ++ [id] }
      let c2 := c1 ++ [Call.bs_drm_fb_create_gbm bo id]
      if id = 0 then (false, ring2, c2)
      else
        let egl_image := s.bs_egl_image_create_gbm
        let c3 := c2 ++ [Call.bs_egl_image_create_gbm bo egl_image]
        if egl_image = 0 then (false, ring2, c3)
        else
          let egl_fb := s.bs_egl_fb_new
          let ring3 := { ring2 with egl_fbs := ring2.egl_fbs ++ [egl_fb] }
          let c4 := c3 ++ [Call.bs_egl_fb_new egl_image egl_fb]
          if egl_fb = 0 then (false, ring3, c4)
          else
            let ring4 := { ring3 with egl_images := ring3.egl_images ++ [egl_image] }
            let (ok, ring5, c5) := createLoop a n (fb_index + 1) ring4
            (ok, ring5, c4 ++ c5)

/-- The loop `while (waiting_for_flip)` (null_platform_test.c:234-257),
entered with `waiting_for_flip = 1`; `selects` and `handles` count the earlier
calls of `select` and of `drmHandleEvent`. The result is `some true` when the
handler cleared `waiting_for_flip`, `some false` when `main` returns 1, and
`none` when the fuel ran out. -/
def waitLoop (a : Answers) : Nat → Nat → Nat → Option Bool × Nat × Nat × List Call
  | 0, selects, handles => (none, selects, handles, [])
  | fuel + 1, selects, handles =>
    let ret := a.select selects
    if ret < 0 then (some false, selects + 1, handles, [Call.select ret])
    else if ret = 0 then (some false, selects + 1, handles, [Call.select ret])
    else
      let (ret2, fired) := a.drmHandleEvent handles
      if ret2 ≠ 0 then
        (some false, selects + 1, handles + 1, [Call.select ret, Call.drmHandleEvent ret2])
      else if fired then
        (some true, selects + 1, handles + 1, [Call.select ret, Call.drmHandleEvent ret2])
      else
        let (r, selects1, handles1, evs) := waitLoop a fuel (selects + 1) (handles + 1)
        (r, selects1, handles1, Call.select ret :: Call.drmHandleEvent ret2 :: evs)

/-- The loop `for (int i = 0; i <= 500; i++)` (null_platform_test.c:191-259),
from iteration `i` on for `n` more iterations: `some fb_idx` with the value of
`fb_idx` when the loop ends, `none` when `main` returns 1 from inside it; the
outer `Option` is `none` when the fuel of a wait ran out. Rendering calls are
not recorded. -/
def flipLoop (a : Answers) (ring : Ring) (fuel : Nat) :
    Nat → Nat → Nat → Nat → Nat → Option (Option Nat × List Call)
  | 0, _, fb_idx, _, _ => some (some fb_idx, [])
  | n + 1, i, fb_idx, selects, handles =>
    if !a.bs_egl_image_flush_external i then some (none, [])
    else
      let ret := a.drmModePageFlip i
      let ev := Call.drmModePageFlip a.crtc_id (ring.ids.getD fb_idx 0) ret
      if ret ≠ 0 then some (none, [ev])
      else
        match waitLoop a fuel selects handles with
        | (none, _, _, _) => none
        | (some false, _, _, evs) => some (none, ev :: evs)
        | (some true, selects1, handles1, evs) =>
          match flipLoop a ring fuel n (i + 1) (fb_idx ^^^ 1) selects1 handles1 with
          | none => none
          | some (r, evs2) => some (r, ev :: evs ++ evs2)

/-- The teardown loop over `fb_index` (null_platform_test.c:261-266), from
slot `fb_index` on for `n` more slots, with the value `fb_idx` that the flip
loop left. -/
def teardownLoop (ring : Ring) (fb_idx : Nat) : Nat → Nat → List Call
  | 0, _ => []
  | n + 1, fb_index =>
    [Call.bs_egl_fb_destroy (ring.egl_fbs.getD fb_index 0),
     Call.bs_egl_image_destroy (ring.egl_images.getD fb_index 0),
     Call.drmModeRmFB (ring.ids.getD fb_idx 0),
     Call.gbm_bo_destroy (ring.bos.getD fb_index 0)] ++
    teardownLoop ring fb_idx n (fb_index + 1)

/-- Function `main` (null_platform_test.c:82-272) once the card is open
(command-line parsing is not modelled): how it ends, the value returned and
the calls made; `none` when the fuel of a wait runs out. The statement
`mode = &connector->modes[0]` only forms an address; the mode is first read
by the `gbm_bo_create` call of slot 0, after `bs_egl_setup`, through
`connector` and, for a connector without modes, outside the mode array. -/
def main (NDEBUG : Bool) (a : Answers) (fuel : Nat) : Option (Ending × Int × List Call) :=
  if a.fd < 0 then some (Ending.finished, 1, [])
  else if a.gbm_create_device = 0 then some (Ending.finished, 1, [])
  else if !a.bs_drm_pipe_make then some (Ending.finished, 1, [])
  else if !assertPasses NDEBUG a.drmModeGetConnector.isSome then
    some (Ending.assertionFailed, 1, [])
  else if !a.bs_egl_setup then some (Ending.finished, 1, [])
  else
    match a.drmModeGetConnector.bind fun connector => connector.modes.head? with
    | none => some (Ending.nullDereference, 1, [])
    | some _ =>
      match createLoop a NUM_BUFFERS 0 {} with
      | (false, _, c1) => some (Ending.finished, 1, c1)
      | (true, ring, c1) =>
        let ret := a.drmModeSetCrtc
        let c2 := c1 ++ [Call.drmModeSetCrtc a.crtc_id (ring.ids.getD 0 0) a.connector_id]
        if ret ≠ 0 then some (Ending.finished, 1, c2)
        else if a.solid_shader_create = 0 then some (Ending.finished, 1, c2)
        else
          match flipLoop a ring fuel 501 0 1 0 0 with
          | none => none
          | some (none, c3) => some (Ending.finished, 1, c2 ++ c3)
          | some (some fb_idx, c3) =>
            some (Ending.finished, 0,
              c2 ++ c3 ++ teardownLoop ring fb_idx NUM_BUFFERS 0 ++
                [Call.bs_egl_destroy, Call.gbm_device_destroy a.gbm_create_device,
                 Call.close a.fd])

/-- The framebuffer ids registered by the calls of a trace, in order. -/
def registered (calls : List Call) : List Nat :=
  calls.filterMap fun c =>
    match c with
    | Call.bs_drm_fb_create_gbm _ id => some id
    | _ => none

/-- The framebuffer ids unregistered by the calls of a trace, in order. -/
def unregistered (calls : List Call) : List Nat :=
  calls.filterMap fun c =>
    match c with
    | Call.drmModeRmFB fb_id => some fb_id
    | _ => none

/-- A platform on which everything succeeds: slot 0 gets framebuffer id 40 and
slot 1 framebuffer id 41, every flip is accepted, and every wait is followed
by a `drmHandleEvent` that runs the flip handler. -/
def smooth : Answers where
  fd := 3
  gbm_create_device := 5
  bs_drm_pipe_make := true
  connector_id := 7
  crtc_id := 50
  drmModeGetConnector :=
    some { connector_id := 7, encoder_id := 30, connection := DRM_MODE_CONNECTED,
           modes := [mode640x480], encoders := [30] }
  bs_egl_setup := true
  slot := fun fb_index =>
    { gbm_bo_create := 10 + fb_index, bs_drm_fb_create_gbm := 40 + fb_index,
      bs_egl_image_create_gbm := 30 + fb_index, bs_egl_fb_new := 60 + fb_index }
  drmModeSetCrtc := 0
  solid_shader_create := 1
  bs_egl_image_flush_external := fun _ => true
  drmModePageFlip := fun _ => 0
  select := fun _ => 1
  drmHandleEvent := fun _ => (0, true)

end null_platform_test

/-! # Theorems -/

namespace ged
namespace DRMModesetter

/-! ## A proof rule for the two loops

The pair of predicates `IW` (at the head of `while (page_flip_pending_)`) and
`IH` (at the head of `while (is_running)`) relate the state to the trace
emitted so far; `Fin` is what holds when `Run` stops. -/

theorem waitLoop_rule (p : Platform) (client : EGLDRMGlue.Impl)
    (IW : RunState → List Event → Prop) (Q : Flow → RunState → List Event → Prop)
    (hret : ∀ s t b s1 ev, IW s t → s.self.page_flip_pending_ = true →
      waitBody p client s = (some b, s1, ev) → Q (Flow.returned b) s1 (t ++ ev))
    (hcont : ∀ s t s1 ev, IW s t → s.self.page_flip_pending_ = true →
      waitBody p client s = (none, s1, ev) → IW s1 (t ++ ev))
    (hexit : ∀ s t, IW s t → s.self.page_flip_pending_ = false → Q Flow.fallthrough s t)
    (hblock : ∀ s t, IW s t → s.self.page_flip_pending_ = true → Q Flow.blocked s t) :
    ∀ fuel s t, IW s t →
      Q (waitLoop p client fuel s).1 (waitLoop p client fuel s).2.1
        (t ++ (waitLoop p client fuel s).2.2) := by
  intro fuel
  induction fuel with
  | zero =>
    intro s t h
    by_cases hp : s.self.page_flip_pending_ = true
    · simpa [waitLoop, hp] using hblock s t h hp
    · simp only [Bool.not_eq_true] at hp
      simpa [waitLoop, hp] using hexit s t h hp
  | succ n ih =>
    intro s t h
    by_cases hp : s.self.page_flip_pending_ = true
    · rcases hb : waitBody p client s with ⟨_ | b, s1, ev⟩
      · have h1 := hcont s t s1 ev h hp hb
        have h2 := ih s1 (t ++ ev) h1
        simpa [waitLoop, hp, hb, List.append_assoc] using h2
      · simpa [waitLoop, hp, hb] using hret s t b s1 ev h hp hb
    · simp only [Bool.not_eq_true] at hp
      simpa [waitLoop, hp] using hexit s t h hp

theorem runLoop_rule (p : Platform) (client : EGLDRMGlue.Impl)
    (IH IW : RunState → List Event → Prop)
    (Fin : Option Bool → RunState → List Event → Prop)
    (hflipret : ∀ s t b s1 ev, IH s t → s.is_running = true →
      flipStep p client s = (some b, s1, ev) → Fin (some b) s1 (t ++ ev))
    (hflip : ∀ s t s1 ev, IH s t → s.is_running = true →
      flipStep p client s = (none, s1, ev) → IW s1 (t ++ ev))
    (hret : ∀ s t b s1 ev, IW s t → s.self.page_flip_pending_ = true →
      waitBody p client s = (some b, s1, ev) → Fin (some b) s1 (t ++ ev))
    (hcont : ∀ s t s1 ev, IW s t → s.self.page_flip_pending_ = true →
      waitBody p client s = (none, s1, ev) → IW s1 (t ++ ev))
    (hexit : ∀ s t, IW s t → s.self.page_flip_pending_ = false → IH s t)
    (hdone : ∀ s t, IH s t → s.is_running = false → Fin (some true) s t)
    (hblockW : ∀ s t, IW s t → s.self.page_flip_pending_ = true → Fin none s t)
    (hblockH : ∀ s t, IH s t → s.is_running = true → Fin none s t) :
    ∀ fuel s t, IH s t →
      Fin (runLoop p client fuel s).1 (runLoop p client fuel s).2.1
        (t ++ (runLoop p client fuel s).2.2) := by
  intro fuel
  induction fuel with
  | zero =>
    intro s t h
    by_cases hr : s.is_running = true
    · simpa [runLoop, hr] using hblockH s t h hr
    · simp only [Bool.not_eq_true] at hr
      simpa [runLoop, hr] using hdone s t h hr
  | succ n ih =>
    intro s t h
    by_cases hr : s.is_running = true
    · rcases hf : flipStep p client s with ⟨_ | b, s1, ev⟩
      · have h1 := hflip s t s1 ev h hr hf
        have h2 := waitLoop_rule p client IW
          (fun f s t => match f with
            | Flow.returned b => Fin (some b) s t
            | Flow.blocked => Fin none s t
            | Flow.fallthrough => IH s t)
          hret hcont hexit hblockW n s1 (t ++ ev) h1
        rcases hw : waitLoop p client n s1 with ⟨f, s2, ev2⟩
        rw [hw] at h2
        cases f with
        | fallthrough =>
          have h3 := ih s2 (t ++ ev ++ ev2) h2
          simpa [runLoop, hr, hf, hw, List.append_assoc] using h3
        | returned b => simpa [runLoop, hr, hf, hw, List.append_assoc] using h2
        | blocked => simpa [runLoop, hr, hf, hw, List.append_assoc] using h2
      · simpa [runLoop, hr, hf] using hflipret s t b s1 ev h hr hf
    · simp only [Bool.not_eq_true] at hr
      simpa [runLoop, hr] using hdone s t h hr

theorem flipStep_cases (p : Platform) (client : EGLDRMGlue.Impl) (s : RunState) :
    (p.drmModePageFlip s.flips ≠ 0 ∧
      flipStep p client s =
        (some false,
         { s with self := { s.self with front_buffer_ := s.self.front_buffer_ ^^^ 1 },
                  flips := s.flips + 1 },
         [Event.GetFrameBuffer (s.self.front_buffer_ ^^^ 1),
          Event.drmModePageFlip (client.GetFrameBuffer (s.self.front_buffer_ ^^^ 1))
            s.self.page_flip_pending_ (p.drmModePageFlip s.flips)])) ∨
    (p.drmModePageFlip s.flips = 0 ∧
      flipStep p client s =
        (none,
         { s with self := { front_buffer_ := s.self.front_buffer_ ^^^ 1,
                            page_flip_pending_ := true },
                  flips := s.flips + 1 },
         [Event.GetFrameBuffer (s.self.front_buffer_ ^^^ 1),
          Event.drmModePageFlip (client.GetFrameBuffer (s.self.front_buffer_ ^^^ 1))
            s.self.page_flip_pending_ 0])) := by
  by_cases h : p.drmModePageFlip s.flips = 0
  · right
    simp [flipStep, Impl.PageFlip, h]
  · left
    simp [flipStep, Impl.PageFlip, h]

theorem waitBody_cases (p : Platform) (client : EGLDRMGlue.Impl) (s : RunState) :
    ((p.select s.selects).ret ≤ 0 ∧
      waitBody p client s =
        (some false, { s with selects := s.selects + 1 }, [Event.select (p.select s.selects)])) ∨
    (0 < (p.select s.selects).ret ∧ (p.select s.selects).drm_set = false ∧
      waitBody p client s =
        (none,
         { s with selects := s.selects + 1,
                  is_running := if (p.select s.selects).stdin_set then false else s.is_running },
         [Event.select (p.select s.selects)])) ∨
    (0 < (p.select s.selects).ret ∧ (p.select s.selects).drm_set = true ∧
      (p.select s.selects).flip_event = none ∧
      waitBody p client s =
        (none,
         { s with selects := s.selects + 1,
                  is_running := if (p.select s.selects).stdin_set then false else s.is_running },
         [Event.select (p.select s.selects), Event.drmHandleEvent])) ∨
    (∃ sec usec, 0 < (p.select s.selects).ret ∧ (p.select s.selects).drm_set = true ∧
      (p.select s.selects).flip_event = some (sec, usec) ∧
      waitBody p client s =
        (none,
         { s with selects := s.selects + 1,
                  is_running := if (p.select s.selects).stdin_set then false else s.is_running,
                  self := { s.self with page_flip_pending_ := false } },
         Event.select (p.select s.selects) :: Event.drmHandleEvent ::
           Event.DidPageFlip s.self.front_buffer_ sec usec ::
           client.DidPageFlip s.self.front_buffer_ sec usec)) := by
  rcases lt_trichotomy (p.select s.selects).ret 0 with h | h | h
  · left
    exact ⟨le_of_lt h, by simp [waitBody, h]⟩
  · left
    exact ⟨le_of_eq h, by simp [waitBody, h]⟩
  · have h1 : ¬ (p.select s.selects).ret < 0 := not_lt.mpr (le_of_lt h)
    have h2 : ¬ (p.select s.selects).ret = 0 := ne_of_gt h
    right
    by_cases hd : (p.select s.selects).drm_set = true
    · right
      rcases he : (p.select s.selects).flip_event with _ | ⟨sec, usec⟩
      · left
        refine ⟨h, hd, rfl, ?_⟩
        by_cases hs : (p.select s.selects).stdin_set = true <;>
          simp [waitBody, h1, h2, hd, hs, handleEvent, he]
      · right
        refine ⟨sec, usec, h, hd, rfl, ?_⟩
        by_cases hs : (p.select s.selects).stdin_set = true <;>
          simp [waitBody, h1, h2, hd, hs, handleEvent, he, Impl.OnModesetPageFlipEvent,
            Impl.DidPageFlip]
    · left
      simp only [Bool.not_eq_true] at hd
      refine ⟨h, hd, ?_⟩
      by_cases hs : (p.select s.selects).stdin_set = true <;>
        simp [waitBody, h1, h2, hd, hs]

/-- The proof rule of `runLoop`, with one premise for each way through the
bodies of the two loops. -/
theorem loop_invariant (p : Platform) (client : EGLDRMGlue.Impl)
    (IH IW : RunState → List Event → Prop)
    (Fin : Option Bool → RunState → List Event → Prop)
    (flip_rejected : ∀ s t, IH s t → s.is_running = true → p.drmModePageFlip s.flips ≠ 0 →
      Fin (some false)
        { s with self := { s.self with front_buffer_ := s.self.front_buffer_ ^^^ 1 },
                 flips := s.flips + 1 }
        (t ++ [Event.GetFrameBuffer (s.self.front_buffer_ ^^^ 1),
               Event.drmModePageFlip (client.GetFrameBuffer (s.self.front_buffer_ ^^^ 1))
                 s.self.page_flip_pending_ (p.drmModePageFlip s.flips)]))
    (flip_accepted : ∀ s t, IH s t → s.is_running = true → p.drmModePageFlip s.flips = 0 →
      IW
        { s with self := { front_buffer_ := s.self.front_buffer_ ^^^ 1,
                           page_flip_pending_ := true },
                 flips := s.flips + 1 }
        (t ++ [Event.GetFrameBuffer (s.self.front_buffer_ ^^^ 1),
               Event.drmModePageFlip (client.GetFrameBuffer (s.self.front_buffer_ ^^^ 1))
                 s.self.page_flip_pending_ 0]))
    (wait_failed : ∀ s t, IW s t → s.self.page_flip_pending_ = true →
      (p.select s.selects).ret ≤ 0 →
      Fin (some false) { s with selects := s.selects + 1 }
        (t ++ [Event.select (p.select s.selects)]))
    (wait_idle : ∀ s t, IW s t → s.self.page_flip_pending_ = true →
      0 < (p.select s.selects).ret → (p.select s.selects).drm_set = false →
      IW { s with selects := s.selects + 1,
                  is_running := if (p.select s.selects).stdin_set then false else s.is_running }
        (t ++ [Event.select (p.select s.selects)]))
    (wait_no_event : ∀ s t, IW s t → s.self.page_flip_pending_ = true →
      0 < (p.select s.selects).ret → (p.select s.selects).drm_set = true →
      (p.select s.selects).flip_event = none →
      IW { s with selects := s.selects + 1,
                  is_running := if (p.select s.selects).stdin_set then false else s.is_running }
        (t ++ [Event.select (p.select s.selects), Event.drmHandleEvent]))
    (wait_complete : ∀ s t sec usec, IW s t → s.self.page_flip_pending_ = true →
      0 < (p.select s.selects).ret → (p.select s.selects).drm_set = true →
      (p.select s.selects).flip_event = some (sec, usec) →
      IW { s with selects := s.selects + 1,
                  is_running := if (p.select s.selects).stdin_set then false else s.is_running,
                  self := { s.self with page_flip_pending_ := false } }
        (t ++ Event.select (p.select s.selects) :: Event.drmHandleEvent ::
           Event.DidPageFlip s.self.front_buffer_ sec usec ::
           client.DidPageFlip s.self.front_buffer_ sec usec))
    (wait_exit : ∀ s t, IW s t → s.self.page_flip_pending_ = false → IH s t)
    (run_exit : ∀ s t, IH s t → s.is_running = false → Fin (some true) s t)
    (wait_blocked : ∀ s t, IW s t → s.self.page_flip_pending_ = true → Fin none s t)
    (run_blocked : ∀ s t, IH s t → s.is_running = true → Fin none s t) :
    ∀ fuel s t, IH s t →
      Fin (runLoop p client fuel s).1 (runLoop p client fuel s).2.1
        (t ++ (runLoop p client fuel s).2.2) := by
  apply runLoop_rule p client IH IW Fin
  · intro s t b s1 ev h hr hf
    rcases flipStep_cases p client s with ⟨hne, he⟩ | ⟨_, he⟩
    · rw [he] at hf
      simp only [Prod.mk.injEq, Option.some.injEq] at hf
      obtain ⟨rfl, rfl, rfl⟩ := hf
      exact flip_rejected s t h hr hne
    · rw [he] at hf
      simp at hf
  · intro s t s1 ev h hr hf
    rcases flipStep_cases p client s with ⟨_, he⟩ | ⟨h0, he⟩
    · rw [he] at hf
      simp at hf
    · rw [he] at hf
      simp only [Prod.mk.injEq, true_and] at hf
      obtain ⟨rfl, rfl⟩ := hf
      exact flip_accepted s t h hr h0
  · intro s t b s1 ev h hp hb
    rcases waitBody_cases p client s with ⟨h1, he⟩ | ⟨_, _, he⟩ | ⟨_, _, _, he⟩ |
      ⟨sec, usec, _, _, _, he⟩
    · rw [he] at hb
      simp only [Prod.mk.injEq, Option.some.injEq] at hb
      obtain ⟨rfl, rfl, rfl⟩ := hb
      exact wait_failed s t h hp h1
    · rw [he] at hb
      simp at hb
    · rw [he] at hb
      simp at hb
    · rw [he] at hb
      simp at hb
  · intro s t s1 ev h hp hb
    rcases waitBody_cases p client s with ⟨_, he⟩ | ⟨h1, h2, he⟩ | ⟨h1, h2, h3, he⟩ |
      ⟨sec, usec, h1, h2, h3, he⟩
    · rw [he] at hb
      simp at hb
    · rw [he] at hb
      simp only [Prod.mk.injEq, true_and] at hb
      obtain ⟨rfl, rfl⟩ := hb
      exact wait_idle s t h hp h1 h2
    · rw [he] at hb
      simp only [Prod.mk.injEq, true_and] at hb
      obtain ⟨rfl, rfl⟩ := hb
      exact wait_no_event s t h hp h1 h2 h3
    · rw [he] at hb
      simp only [Prod.mk.injEq, true_and] at hb
      obtain ⟨rfl, rfl⟩ := hb
      exact wait_complete s t sec usec h hp h1 h2 h3
  · exact wait_exit
  · exact run_exit
  · exact wait_blocked
  · exact run_blocked

theorem Run_fst (p : Platform) (client : EGLDRMGlue.Impl) (fuel : Nat) (self : Impl) :
    (Impl.Run p client fuel self).1 =
      (runLoop p client fuel
        { self := self, is_running := true, flips := 0, selects := 0 }).1 := rfl

theorem Run_state (p : Platform) (client : EGLDRMGlue.Impl) (fuel : Nat) (self : Impl) :
    (Impl.Run p client fuel self).2.1 =
      (runLoop p client fuel
        { self := self, is_running := true, flips := 0, selects := 0 }).2.1.self := rfl

theorem Run_trace (p : Platform) (client : EGLDRMGlue.Impl) (fuel : Nat) (self : Impl) :
    (Impl.Run p client fuel self).2.2 =
      (runLoop p client fuel
        { self := self, is_running := true, flips := 0, selects := 0 }).2.2 := rfl

end DRMModesetter
section projections

variable (a b : List Event)

@[simp] theorem flipRequests_append : flipRequests (a ++ b) = flipRequests a ++ flipRequests b := by
  simp [flipRequests]

@[simp] theorem flipSlots_append : flipSlots (a ++ b) = flipSlots a ++ flipSlots b := by
  simp [flipSlots]

@[simp] theorem completions_append : completions (a ++ b) = completions a ++ completions b := by
  simp [completions]

@[simp] theorem callbacks_append : callbacks (a ++ b) = callbacks a ++ callbacks b := by
  simp [callbacks]

@[simp] theorem waits_append : waits (a ++ b) = waits a ++ waits b := by
  simp [waits]

@[simp] theorem acceptedFlips_append :
    acceptedFlips (a ++ b) = acceptedFlips a ++ acceptedFlips b := by
  simp [acceptedFlips]

end projections

@[simp] theorem flipRequests_EGLSyncFence (client : EGLDRMGlue.Impl) :
    flipRequests client.EGLSyncFence = [] := by
  unfold EGLDRMGlue.Impl.EGLSyncFence
  split <;> simp [flipRequests]

@[simp] theorem flipSlots_EGLSyncFence (client : EGLDRMGlue.Impl) :
    flipSlots client.EGLSyncFence = [] := by
  unfold EGLDRMGlue.Impl.EGLSyncFence
  split <;> simp [flipSlots]

@[simp] theorem completions_EGLSyncFence (client : EGLDRMGlue.Impl) :
    completions client.EGLSyncFence = [] := by
  unfold EGLDRMGlue.Impl.EGLSyncFence
  split <;> simp [completions]

@[simp] theorem callbacks_EGLSyncFence (client : EGLDRMGlue.Impl) :
    callbacks client.EGLSyncFence = [] := by
  unfold EGLDRMGlue.Impl.EGLSyncFence
  split <;> simp [callbacks]

@[simp] theorem waits_EGLSyncFence (client : EGLDRMGlue.Impl) :
    waits client.EGLSyncFence = [] := by
  unfold EGLDRMGlue.Impl.EGLSyncFence
  split <;> simp [waits]

theorem DidPageFlip_eq (client : EGLDRMGlue.Impl) (f sec usec : Nat) :
    client.DidPageFlip f sec usec =
      [Event.glBindFramebuffer (client.framebufferAt (f ^^^ 1)).gl_fb,
       Event.callback (client.framebufferAt (f ^^^ 1)).gl_fb (EGLDRMGlue.timestamp sec usec)] ++
        client.EGLSyncFence := rfl

@[simp] theorem flipRequests_DidPageFlip (client : EGLDRMGlue.Impl) (f sec usec : Nat) :
    flipRequests (client.DidPageFlip f sec usec) = [] := by
  rw [DidPageFlip_eq, flipRequests_append, flipRequests_EGLSyncFence]
  simp [flipRequests]

@[simp] theorem flipSlots_DidPageFlip (client : EGLDRMGlue.Impl) (f sec usec : Nat) :
    flipSlots (client.DidPageFlip f sec usec) = [] := by
  rw [DidPageFlip_eq, flipSlots_append, flipSlots_EGLSyncFence]
  simp [flipSlots]

@[simp] theorem completions_DidPageFlip (client : EGLDRMGlue.Impl) (f sec usec : Nat) :
    completions (client.DidPageFlip f sec usec) = [] := by
  rw [DidPageFlip_eq, completions_append, completions_EGLSyncFence]
  simp [completions]

@[simp] theorem waits_DidPageFlip (client : EGLDRMGlue.Impl) (f sec usec : Nat) :
    waits (client.DidPageFlip f sec usec) = [] := by
  rw [DidPageFlip_eq, waits_append, waits_EGLSyncFence]
  simp [waits]

@[simp] theorem callbacks_DidPageFlip (client : EGLDRMGlue.Impl) (f sec usec : Nat) :
    callbacks (client.DidPageFlip f sec usec) =
      [((client.framebufferAt (f ^^^ 1)).gl_fb, EGLDRMGlue.timestamp sec usec)] := by
  rw [DidPageFlip_eq, callbacks_append, callbacks_EGLSyncFence]
  simp [callbacks]

@[simp] theorem flipRequests_nil : flipRequests [] = [] := rfl

@[simp] theorem flipSlots_nil : flipSlots [] = [] := rfl

@[simp] theorem completions_nil : completions [] = [] := rfl

@[simp] theorem callbacks_nil : callbacks [] = [] := rfl

@[simp] theorem waits_nil : waits [] = [] := rfl

@[simp] theorem acceptedFlips_nil : acceptedFlips [] = [] := rfl

@[simp] theorem flipRequests_cons (e : Event) (t : List Event) :
    flipRequests (e :: t) =
      (match e with
        | Event.drmModePageFlip fb_id pending ret => [(fb_id, pending, ret)]
        | _ => []) ++ flipRequests t := by
  cases e <;> simp [flipRequests]

@[simp] theorem flipSlots_cons (e : Event) (t : List Event) :
    flipSlots (e :: t) =
      (match e with
        | Event.GetFrameBuffer front_buffer => [front_buffer]
        | _ => []) ++ flipSlots t := by
  cases e <;> simp [flipSlots]

@[simp] theorem completions_cons (e : Event) (t : List Event) :
    completions (e :: t) =
      (match e with
        | Event.DidPageFlip front_buffer sec usec => [(front_buffer, sec, usec)]
        | _ => []) ++ completions t := by
  cases e <;> simp [completions]

@[simp] theorem callbacks_cons (e : Event) (t : List Event) :
    callbacks (e :: t) =
      (match e with
        | Event.callback gl_framebuffer usec => [(gl_framebuffer, usec)]
        | _ => []) ++ callbacks t := by
  cases e <;> simp [callbacks]

@[simp] theorem waits_cons (e : Event) (t : List Event) :
    waits (e :: t) =
      (match e with
        | Event.select r => [r]
        | _ => []) ++ waits t := by
  cases e <;> simp [waits]

@[simp] theorem acceptedFlips_cons (e : Event) (t : List Event) :
    acceptedFlips (e :: t) =
      (match e with
        | Event.drmModePageFlip fb_id pending ret =>
          if ret = 0 then [(fb_id, pending, ret)] else []
        | _ => []) ++ acceptedFlips t := by
  cases e <;> simp [acceptedFlips, List.filter_cons]
  split <;> simp

@[simp] theorem acceptedFlips_EGLSyncFence (client : EGLDRMGlue.Impl) :
    acceptedFlips client.EGLSyncFence = [] := by
  simp [acceptedFlips]

@[simp] theorem acceptedFlips_DidPageFlip (client : EGLDRMGlue.Impl) (f sec usec : Nat) :
    acceptedFlips (client.DidPageFlip f sec usec) = [] := by
  simp [acceptedFlips]

theorem length_flipRequests_take_le (t : List Event) (n : Nat) :
    (flipRequests (t.take n)).length ≤ (flipRequests t).length :=
  ((List.take_sublist n t).filterMap _).length_le

theorem length_acceptedFlips_take_le (t : List Event) (n : Nat) :
    (acceptedFlips (t.take n)).length ≤ (acceptedFlips t).length :=
  (((List.take_sublist n t).filterMap _).filter _).length_le

theorem inFlight_bound_append (t ev : List Event)
    (ht : ∀ n, (acceptedFlips (t.take n)).length ≤ (completions (t.take n)).length + 1)
    (hev : (acceptedFlips t).length + (acceptedFlips ev).length ≤ (completions t).length + 1) :
    ∀ n, (acceptedFlips ((t ++ ev).take n)).length ≤
      (completions ((t ++ ev).take n)).length + 1 := by
  intro n
  rw [List.take_append_eq_append_take]
  by_cases hn : n ≤ t.length
  · have h0 : n - t.length = 0 := Nat.sub_eq_zero_of_le hn
    simpa [h0] using ht n
  · have h1 : t.take n = t := List.take_of_length_le (by omega)
    have h2 := length_acceptedFlips_take_le ev (n - t.length)
    simp only [h1, acceptedFlips_append, completions_append, List.length_append]
    omega

end ged

namespace ged
namespace DRMModesetter

/-- C1. `DRMModesetter::Impl::Run`, entered with no flip pending, never calls
`drmModePageFlip` while `page_flip_pending_` is true, whatever the platform
does; and at every instant (after every prefix of the trace) the flips that
were accepted exceed the flips that completed by at most one. -/
theorem C1_no_flip_while_pending (p : Platform) (client : EGLDRMGlue.Impl) (fuel front : Nat) :
    (∀ x ∈ flipRequests
        (Impl.Run p client fuel { front_buffer_ := front, page_flip_pending_ := false }).2.2,
      x.2.1 = false) ∧
    (∀ n, (acceptedFlips
        ((Impl.Run p client fuel
          { front_buffer_ := front, page_flip_pending_ := false }).2.2.take n)).length ≤
      (completions
        ((Impl.Run p client fuel
          { front_buffer_ := front, page_flip_pending_ := false }).2.2.take n)).length + 1) := by
  have key := loop_invariant p client
    (fun s t => s.self.page_flip_pending_ = false ∧
      (∀ x ∈ flipRequests t, x.2.1 = false) ∧
      (∀ n, (acceptedFlips (t.take n)).length ≤ (completions (t.take n)).length + 1) ∧
      (acceptedFlips t).length = (completions t).length)
    (fun s t =>
      (∀ x ∈ flipRequests t, x.2.1 = false) ∧
      (∀ n, (acceptedFlips (t.take n)).length ≤ (completions (t.take n)).length + 1) ∧
      (acceptedFlips t).length =
        (completions t).length + (if s.self.page_flip_pending_ then 1 else 0))
    (fun _ _ t =>
      (∀ x ∈ flipRequests t, x.2.1 = false) ∧
      (∀ n, (acceptedFlips (t.take n)).length ≤ (completions (t.take n)).length + 1))
    ?_ ?_ ?_ ?_ ?_ ?_ ?_ ?_ ?_ ?_ fuel
    { self := { front_buffer_ := front, page_flip_pending_ := false },
      is_running := true, flips := 0, selects := 0 } []
    (by simp)
  · simpa [Run_trace] using key
  · rintro s t ⟨hp, hg, hpre, hcnt⟩ - hne
    refine ⟨?_, inFlight_bound_append _ _ hpre ?_⟩
    · simpa [hp] using hg
    · simp [hne, hcnt]
  · rintro s t ⟨hp, hg, hpre, hcnt⟩ - h0
    refine ⟨?_, inFlight_bound_append _ _ hpre ?_, ?_⟩
    · simpa [hp] using hg
    · simp [hcnt]
    · simp [hcnt]
  · rintro s t ⟨hg, hpre, hcnt⟩ hp -
    refine ⟨?_, inFlight_bound_append _ _ hpre ?_⟩
    · simpa using hg
    · simp [hcnt, hp]
  · rintro s t ⟨hg, hpre, hcnt⟩ hp - -
    refine ⟨?_, inFlight_bound_append _ _ hpre ?_, ?_⟩
    · simpa using hg
    · simp [hcnt, hp]
    · simp [hcnt, hp]
  · rintro s t ⟨hg, hpre, hcnt⟩ hp - - -
    refine ⟨?_, inFlight_bound_append _ _ hpre ?_, ?_⟩
    · simpa using hg
    · simp [hcnt, hp]
    · simp [hcnt, hp]
  · rintro s t sec usec ⟨hg, hpre, hcnt⟩ hp - - -
    refine ⟨?_, inFlight_bound_append _ _ hpre ?_, ?_⟩
    · simpa using hg
    · simp [hcnt, hp]
    · simp [hcnt, hp]
  · rintro s t ⟨hg, hpre, hcnt⟩ hp
    exact ⟨hp, hg, hpre, by simpa [hp] using hcnt⟩
  · rintro s t ⟨_, hg, hpre, _⟩ -
    exact ⟨hg, hpre⟩
  · rintro s t ⟨hg, hpre, _⟩ -
    exact ⟨hg, hpre⟩
  · rintro s t ⟨_, hg, hpre, _⟩ -
    exact ⟨hg, hpre⟩

/-- C1, witness: the two flip requests of the run on `exitDuringSecondFlip` are
both made with `page_flip_pending_` false. -/
theorem C1_no_flip_while_pending_witness :
    flipRequests (Impl.Run exitDuringSecondFlip ringClient 4
      { front_buffer_ := 0, page_flip_pending_ := false }).2.2 =
      [(41, false, 0), (40, false, 0)] ∧
    ∀ x ∈ flipRequests (Impl.Run exitDuringSecondFlip ringClient 4
      { front_buffer_ := 0, page_flip_pending_ := false }).2.2, x.2.1 = false :=
  ⟨by decide, (C1_no_flip_while_pending exitDuringSecondFlip ringClient 4 0).1⟩

/-- C2, as the code has it. In every run of `Run` that returns true, the
render callback was invoked once for each completed flip, no more: the number
of invocations equals the number of completed flips, which is also the number
of flip requests submitted. -/
theorem C2_callbacks_equal_completed_flips (p : Platform) (client : EGLDRMGlue.Impl)
    (fuel front : Nat)
    (h : (Impl.Run p client fuel
      { front_buffer_ := front, page_flip_pending_ := false }).1 = some true) :
    (callbacks (Impl.Run p client fuel
      { front_buffer_ := front, page_flip_pending_ := false }).2.2).length =
      (completions (Impl.Run p client fuel
        { front_buffer_ := front, page_flip_pending_ := false }).2.2).length ∧
    (completions (Impl.Run p client fuel
      { front_buffer_ := front, page_flip_pending_ := false }).2.2).length =
      (flipRequests (Impl.Run p client fuel
        { front_buffer_ := front, page_flip_pending_ := false }).2.2).length := by
  have key := loop_invariant p client
    (fun s t => s.self.page_flip_pending_ = false ∧
      (callbacks t).length = (completions t).length ∧
      (completions t).length = (flipRequests t).length)
    (fun s t =>
      (callbacks t).length = (completions t).length ∧
      (completions t).length + (if s.self.page_flip_pending_ then 1 else 0) =
        (flipRequests t).length)
    (fun r _ t =>
      (callbacks t).length = (completions t).length ∧
      (r = some true → (completions t).length = (flipRequests t).length))
    ?_ ?_ ?_ ?_ ?_ ?_ ?_ ?_ ?_ ?_ fuel
    { self := { front_buffer_ := front, page_flip_pending_ := false },
      is_running := true, flips := 0, selects := 0 } []
    (by simp)
  · simp only [List.nil_append] at key
    exact ⟨key.1, key.2 h⟩
  · rintro s t ⟨-, h1, -⟩ - -
    simpa using h1
  · rintro s t ⟨-, h1, h2⟩ - -
    simpa using ⟨h1, h2⟩
  · rintro s t ⟨h1, -⟩ - -
    simpa using h1
  · rintro s t ⟨h1, h2⟩ hp - -
    simp only [hp, if_true] at h2
    simp [h1, h2, hp]
  · rintro s t ⟨h1, h2⟩ hp - - -
    simp only [hp, if_true] at h2
    simp [h1, h2, hp]
  · rintro s t sec usec ⟨h1, h2⟩ hp - - -
    simp only [hp, if_true] at h2
    simp [h1, h2]
  · rintro s t ⟨h1, h2⟩ hp
    exact ⟨hp, h1, by simpa [hp] using h2⟩
  · rintro s t ⟨-, h1, h2⟩ -
    exact ⟨h1, fun _ => h2⟩
  · rintro s t ⟨h1, -⟩ -
    exact ⟨h1, by simp⟩
  · rintro s t ⟨-, h1, -⟩ -
    exact ⟨h1, by simp⟩

/-- C2, witness: on `exitDuringFirstFlip` the run returns true after one flip,
one completion and one callback invocation. -/
theorem C2_callbacks_equal_completed_flips_witness :
    (Impl.Run exitDuringFirstFlip ringClient 3
      { front_buffer_ := 0, page_flip_pending_ := false }).1 = some true ∧
    ((callbacks (Impl.Run exitDuringFirstFlip ringClient 3
      { front_buffer_ := 0, page_flip_pending_ := false }).2.2).length =
      (completions (Impl.Run exitDuringFirstFlip ringClient 3
        { front_buffer_ := 0, page_flip_pending_ := false }).2.2).length ∧
    (completions (Impl.Run exitDuringFirstFlip ringClient 3
      { front_buffer_ := 0, page_flip_pending_ := false }).2.2).length =
      (flipRequests (Impl.Run exitDuringFirstFlip ringClient 3
        { front_buffer_ := 0, page_flip_pending_ := false }).2.2).length) :=
  ⟨by decide, C2_callbacks_equal_completed_flips exitDuringFirstFlip ringClient 3 0 (by decide)⟩

/-- C2, as the spec states it, fails: on `exitDuringFirstFlip` the run returns
true with one completed flip and one callback invocation, not two. -/
theorem C2_counterexample :
    (Impl.Run exitDuringFirstFlip ringClient 3 {}).1 = some true ∧
    (completions (Impl.Run exitDuringFirstFlip ringClient 3 {}).2.2).length = 1 ∧
    (callbacks (Impl.Run exitDuringFirstFlip ringClient 3 {}).2.2).length = 1 ∧
    (callbacks (Impl.Run exitDuringFirstFlip ringClient 3 {}).2.2).length ≠
      (completions (Impl.Run exitDuringFirstFlip ringClient 3 {}).2.2).length + 1 := by
  decide

theorem mod_two_xor_one (n : Nat) : (n % 2) ^^^ 1 = (n + 1) % 2 := by
  rcases Nat.mod_two_eq_zero_or_one n with h | h
  · have h1 : (n + 1) % 2 = 1 := by omega
    rw [h, h1]
    rfl
  · have h1 : (n + 1) % 2 = 0 := by omega
    rw [h, h1]
    rfl

theorem alternating_snoc (k : Nat) :
    List.map (fun n => (n + 1) % 2) (List.range (k + 1)) =
      List.map (fun n => (n + 1) % 2) (List.range k) ++ [(k + 1) % 2] := by
  simp [List.range_succ]

theorem alternating_chain (k : Nat) :
    List.Chain' (fun a b => a ≠ b) (List.map (fun n => (n + 1) % 2) (List.range k)) := by
  induction k with
  | zero => simp
  | succ k ih =>
    rw [alternating_snoc]
    refine List.Chain'.append ih (by simp) ?_
    intro x hx y hy
    cases k with
    | zero => simp at hx
    | succ j =>
      rw [alternating_snoc, List.getLast?_append_of_ne_nil _ (by simp)] at hx
      simp only [List.getLast?_singleton, Option.mem_def, Option.some.injEq] at hx
      simp only [List.head?_cons, Option.mem_def, Option.some.injEq] at hy
      omega

/-- C3. Entered with `front_buffer_ = 0` (the value at mode-set), `Run` names
slot `n mod 2` in its n-th flip request (n = 1, 2, ...), passing that slot's
framebuffer id to `drmModePageFlip`; two consecutive requests never name the
same slot; the k-th completed flip is reported with front index `k mod 2`; and
the front index left behind is the number of flips submitted, mod 2. -/
theorem C3_front_index_alternates (p : Platform) (client : EGLDRMGlue.Impl) (fuel : Nat) :
    flipSlots (Impl.Run p client fuel {}).2.2 =
      List.map (fun n => (n + 1) % 2)
        (List.range (flipSlots (Impl.Run p client fuel {}).2.2).length) ∧
    List.map (fun x => x.1) (flipRequests (Impl.Run p client fuel {}).2.2) =
      List.map (fun i => (client.framebufferAt i).fb_id)
        (flipSlots (Impl.Run p client fuel {}).2.2) ∧
    List.Chain' (fun a b => a ≠ b) (flipSlots (Impl.Run p client fuel {}).2.2) ∧
    List.map (fun x => x.1) (completions (Impl.Run p client fuel {}).2.2) =
      List.map (fun k => (k + 1) % 2)
        (List.range (completions (Impl.Run p client fuel {}).2.2).length) ∧
    (Impl.Run p client fuel {}).2.1.front_buffer_ =
      (flipSlots (Impl.Run p client fuel {}).2.2).length % 2 := by
  have key := loop_invariant p client
    (fun s t => s.self.page_flip_pending_ = false ∧
      flipSlots t = List.map (fun n => (n + 1) % 2) (List.range (flipSlots t).length) ∧
      List.map (fun x => x.1) (flipRequests t) =
        List.map (fun i => (client.framebufferAt i).fb_id) (flipSlots t) ∧
      List.map (fun x => x.1) (completions t) =
        List.map (fun k => (k + 1) % 2) (List.range (completions t).length) ∧
      s.self.front_buffer_ = (flipSlots t).length % 2 ∧
      (completions t).length = (flipSlots t).length)
    (fun s t =>
      flipSlots t = List.map (fun n => (n + 1) % 2) (List.range (flipSlots t).length) ∧
      List.map (fun x => x.1) (flipRequests t) =
        List.map (fun i => (client.framebufferAt i).fb_id) (flipSlots t) ∧
      List.map (fun x => x.1) (completions t) =
        List.map (fun k => (k + 1) % 2) (List.range (completions t).length) ∧
      s.self.front_buffer_ = (flipSlots t).length % 2 ∧
      (completions t).length + (if s.self.page_flip_pending_ then 1 else 0) =
        (flipSlots t).length)
    (fun _ s t =>
      flipSlots t = List.map (fun n => (n + 1) % 2) (List.range (flipSlots t).length) ∧
      List.map (fun x => x.1) (flipRequests t) =
        List.map (fun i => (client.framebufferAt i).fb_id) (flipSlots t) ∧
      List.map (fun x => x.1) (completions t) =
        List.map (fun k => (k + 1) % 2) (List.range (completions t).length) ∧
      s.self.front_buffer_ = (flipSlots t).length % 2)
    ?_ ?_ ?_ ?_ ?_ ?_ ?_ ?_ ?_ ?_ fuel
    { self := {}, is_running := true, flips := 0, selects := 0 } []
    (by simp)
  · simp only [List.nil_append] at key
    obtain ⟨h1, h2, h3, h4⟩ := key
    simp only [Run_trace, Run_state]
    refine ⟨h1, h2, ?_, h3, h4⟩
    rw [h1]
    exact alternating_chain _
  · rintro s t ⟨-, h1, h2, h3, h4, -⟩ - -
    simp only [flipSlots_append, flipSlots_cons, flipSlots_nil, flipRequests_append,
      flipRequests_cons, flipRequests_nil, completions_append, completions_cons,
      completions_nil, List.append_nil, List.nil_append, List.length_append,
      List.length_singleton, List.map_append, List.map_cons, List.map_nil,
      EGLDRMGlue.Impl.GetFrameBuffer]
    rw [alternating_snoc, ← h1, h2, h4, mod_two_xor_one]
    exact ⟨rfl, rfl, h3, rfl⟩
  · rintro s t ⟨-, h1, h2, h3, h4, h5⟩ - -
    simp only [flipSlots_append, flipSlots_cons, flipSlots_nil, flipRequests_append,
      flipRequests_cons, flipRequests_nil, completions_append, completions_cons,
      completions_nil, List.append_nil, List.nil_append, List.length_append,
      List.length_singleton, List.map_append, List.map_cons, List.map_nil,
      EGLDRMGlue.Impl.GetFrameBuffer]
    rw [alternating_snoc, ← h1, h2, h4, mod_two_xor_one]
    exact ⟨rfl, rfl, h3, rfl, by simp [h5]⟩
  · rintro s t ⟨h1, h2, h3, h4, -⟩ - -
    simpa using ⟨h1, h2, h3, h4⟩
  · rintro s t ⟨h1, h2, h3, h4, h5⟩ hp - -
    simpa [hp] using ⟨h1, h2, h3, h4, by simpa [hp] using h5⟩
  · rintro s t ⟨h1, h2, h3, h4, h5⟩ hp - - -
    simpa [hp] using ⟨h1, h2, h3, h4, by simpa [hp] using h5⟩
  · rintro s t sec usec ⟨h1, h2, h3, h4, h5⟩ hp - - -
    simp only [hp, if_true] at h5
    simp only [flipSlots_append, flipSlots_cons, flipSlots_nil, flipRequests_append,
      flipRequests_cons, flipRequests_nil, completions_append, completions_cons,
      completions_nil, List.append_nil, List.nil_append, List.length_append,
      List.length_singleton, List.map_append, List.map_cons, List.map_nil,
      flipSlots_DidPageFlip, flipRequests_DidPageFlip, completions_DidPageFlip,
      List.singleton_append, List.length_cons, List.length_nil]
    refine ⟨h1, h2, ?_, h4, by simp [h5]⟩
    rw [alternating_snoc, ← h3, h5, ← h4]
  · rintro s t ⟨h1, h2, h3, h4, h5⟩ hp
    exact ⟨hp, h1, h2, h3, h4, by simpa [hp] using h5⟩
  · rintro s t ⟨-, h1, h2, h3, h4, -⟩ -
    exact ⟨h1, h2, h3, h4⟩
  · rintro s t ⟨h1, h2, h3, h4, -⟩ -
    exact ⟨h1, h2, h3, h4⟩
  · rintro s t ⟨-, h1, h2, h3, h4, -⟩ -
    exact ⟨h1, h2, h3, h4⟩

end DRMModesetter
theorem occ_append {α : Type} {a b pre post : List α} {e : α}
    (h : a ++ b = pre ++ e :: post) :
    (∃ post', a = pre ++ e :: post' ∧ post = post' ++ b) ∨
    (∃ pre', b = pre' ++ e :: post ∧ pre = a ++ pre') := by
  rcases List.append_eq_append_iff.mp h with ⟨a', h1, h2⟩ | ⟨c', h1, h2⟩
  · right
    exact ⟨a', h2, h1⟩
  · cases c' with
    | nil =>
      right
      refine ⟨[], ?_, ?_⟩
      · simpa using h2.symm
      · simpa using h1.symm
    | cons x c'' =>
      simp only [List.cons_append, List.cons.injEq] at h2
      obtain ⟨rfl, rfl⟩ := h2
      left
      exact ⟨c'', h1, rfl⟩

theorem callback_mem_callbacks {t : List Event} {fb ts : Nat}
    (h : Event.callback fb ts ∈ t) : (fb, ts) ∈ callbacks t := by
  unfold callbacks
  exact List.mem_filterMap.mpr ⟨_, h, rfl⟩

theorem not_occ_of_callbacks_nil {t pre post : List Event} {fb ts : Nat}
    (h : callbacks t = []) : t ≠ pre ++ Event.callback fb ts :: post := by
  intro he
  have hm : Event.callback fb ts ∈ t := by
    rw [he]
    simp
  have := callback_mem_callbacks hm
  rw [h] at this
  simp at this

theorem CallbackContext.nil (client : EGLDRMGlue.Impl) : CallbackContext client [] := by
  intro pre fb ts post h
  simp at h

theorem CallbackContext.append_quiet {client : EGLDRMGlue.Impl} {t ev : List Event}
    (ht : CallbackContext client t) (hev : callbacks ev = []) :
    CallbackContext client (t ++ ev) := by
  intro pre fb ts post h
  rcases occ_append h with ⟨post', h1, h2⟩ | ⟨pre', h1, -⟩
  · obtain ⟨pre0, f, sec, usec, e1, e2, e3, e4, e5, e6⟩ := ht pre fb ts post' h1
    refine ⟨pre0, f, sec, usec, e1, e2, e3, e4, e5, ?_⟩
    rw [h2]
    exact e6.trans (List.prefix_append _ _)
  · exact absurd h1 (not_occ_of_callbacks_nil hev)

theorem CallbackContext.append_render {client : EGLDRMGlue.Impl} {t : List Event}
    (ht : CallbackContext client t) (r : SelectResult) (f sec usec : Nat)
    (hf : f < 2) (hlast : (flipSlots t).getLast? = some f) :
    CallbackContext client
      (t ++ Event.select r :: Event.drmHandleEvent :: Event.DidPageFlip f sec usec ::
        client.DidPageFlip f sec usec) := by
  intro pre fb ts post h
  rcases occ_append h with ⟨post', h1, h2⟩ | ⟨pre', h1, h2⟩
  · obtain ⟨pre0, f', sec', usec', e1, e2, e3, e4, e5, e6⟩ := ht pre fb ts post' h1
    refine ⟨pre0, f', sec', usec', e1, e2, e3, e4, e5, ?_⟩
    rw [h2]
    exact e6.trans (List.prefix_append _ _)
  · rw [DidPageFlip_eq] at h1
    have h3 : [Event.select r, Event.drmHandleEvent, Event.DidPageFlip f sec usec,
        Event.glBindFramebuffer (client.framebufferAt (f ^^^ 1)).gl_fb] ++
        (Event.callback (client.framebufferAt (f ^^^ 1)).gl_fb (EGLDRMGlue.timestamp sec usec) ::
          client.EGLSyncFence) = pre' ++ Event.callback fb ts :: post := by
      simpa using h1
    rcases occ_append h3 with ⟨post', h4, -⟩ | ⟨pre'', h4, h5⟩
    · exact absurd h4 (not_occ_of_callbacks_nil (by simp))
    · cases pre'' with
      | nil =>
        simp only [List.nil_append, List.cons.injEq, Event.callback.injEq] at h4
        obtain ⟨⟨rfl, rfl⟩, rfl⟩ := h4
        refine ⟨t ++ [Event.select r, Event.drmHandleEvent], f, sec, usec, ?_, hf, ?_, rfl, rfl,
          List.prefix_refl _⟩
        · rw [h2, h5]
          simp
        · simpa using hlast
      | cons x pre3 =>
        simp only [List.cons_append, List.cons.injEq] at h4
        exact absurd h4.2 (not_occ_of_callbacks_nil (by simp))

end ged

namespace ged
namespace DRMModesetter

theorem xor_one_lt_two {f : Nat} (h : f < 2) : f ^^^ 1 < 2 := by
  interval_cases f <;> decide

theorem xor_one_eq_sub {f : Nat} (h : f < 2) : f ^^^ 1 = 1 - f := by
  interval_cases f <;> decide

theorem Run_callbackContext (p : Platform) (client : EGLDRMGlue.Impl) (fuel front : Nat)
    (hfront : front < 2) :
    CallbackContext client
      (Impl.Run p client fuel { front_buffer_ := front, page_flip_pending_ := false }).2.2 := by
  have key := loop_invariant p client
    (fun s t => CallbackContext client t ∧ s.self.front_buffer_ < 2)
    (fun s t => CallbackContext client t ∧ s.self.front_buffer_ < 2 ∧
      (s.self.page_flip_pending_ = true → (flipSlots t).getLast? = some s.self.front_buffer_))
    (fun _ _ t => CallbackContext client t)
    ?_ ?_ ?_ ?_ ?_ ?_ ?_ ?_ ?_ ?_ fuel
    { self := { front_buffer_ := front, page_flip_pending_ := false },
      is_running := true, flips := 0, selects := 0 } []
    ⟨CallbackContext.nil client, hfront⟩
  · simpa [Run_trace] using key
  · rintro s t ⟨h1, -⟩ - -
    exact h1.append_quiet (by simp)
  · rintro s t ⟨h1, h2⟩ - -
    exact ⟨h1.append_quiet (by simp), xor_one_lt_two h2, fun _ => by simp⟩
  · rintro s t ⟨h1, -, -⟩ - -
    exact h1.append_quiet (by simp)
  · rintro s t ⟨h1, h2, h3⟩ hp - -
    exact ⟨h1.append_quiet (by simp), h2, fun _ => by simpa using h3 hp⟩
  · rintro s t ⟨h1, h2, h3⟩ hp - - -
    exact ⟨h1.append_quiet (by simp), h2, fun _ => by simpa using h3 hp⟩
  · rintro s t sec usec ⟨h1, h2, h3⟩ hp - - -
    exact ⟨h1.append_render _ _ _ _ h2 (h3 hp), h2, fun h => by simp at h⟩
  · rintro s t ⟨h1, h2, -⟩ -
    exact ⟨h1, h2⟩
  · rintro s t ⟨h1, -⟩ -
    exact h1
  · rintro s t ⟨h1, -, -⟩ -
    exact h1
  · rintro s t ⟨h1, -⟩ -
    exact h1

theorem initial_segment_of_append_cons {α : Type} {x : α} :
    ∀ {l a b : List α}, l <+: a ++ x :: b → x ∉ l → l <+: a
  | [], _, _, _, _ => List.nil_prefix
  | y :: l, [], b, h, hx => by
    simp only [List.nil_append, List.cons_prefix_cons] at h
    exact absurd (by simp [h.1]) hx
  | y :: l, z :: a, b, h, hx => by
    simp only [List.cons_append, List.cons_prefix_cons] at h
    simp only [List.cons_prefix_cons]
    refine ⟨h.1, initial_segment_of_append_cons h.2 ?_⟩
    intro hm
    exact hx (List.mem_cons_of_mem _ hm)

theorem drmModePageFlip_not_mem_EGLSyncFence (client : EGLDRMGlue.Impl) (fb : Nat)
    (pend : Bool) (ret : Int) : Event.drmModePageFlip fb pend ret ∉ client.EGLSyncFence := by
  unfold EGLDRMGlue.Impl.EGLSyncFence
  split <;> simp

theorem sync_wait_mem_EGLSyncFence (client : EGLDRMGlue.Impl) :
    ∃ e ∈ client.EGLSyncFence,
      e = Event.eglClientWaitSyncKHR EGL_FOREVER_KHR ∨ e = Event.glFinish := by
  unfold EGLDRMGlue.Impl.EGLSyncFence
  split <;> simp

/-- C4. At every invocation of the render callback in a run of `Run`: the
client was just told `DidPageFlip f` with `f` (0 or 1) the slot named by the
latest flip request, the one that has completed and is on screen; the slot
rendered into is the back slot `f ^ 1 = 1 - f`, a valid index different from
`f`; its render target was bound by the call just before the callback and is
the callback's first argument. -/
theorem C4_callback_renders_back_slot (p : Platform) (client : EGLDRMGlue.Impl)
    (fuel front : Nat) (hfront : front < 2) (pre post : List Event) (fb ts : Nat)
    (h : (Impl.Run p client fuel { front_buffer_ := front, page_flip_pending_ := false }).2.2 =
      pre ++ Event.callback fb ts :: post) :
    ∃ pre0 f sec usec,
      pre = pre0 ++ [Event.DidPageFlip f sec usec, Event.glBindFramebuffer fb] ∧
      (flipSlots pre0).getLast? = some f ∧
      f < 2 ∧ f ^^^ 1 = 1 - f ∧ 1 - f < NUM_BUFFERS ∧ 1 - f ≠ f ∧
      fb = (client.framebufferAt (1 - f)).gl_fb := by
  obtain ⟨pre0, f, sec, usec, e1, e2, e3, e4, -, -⟩ :=
    Run_callbackContext p client fuel front hfront pre fb ts post h
  refine ⟨pre0, f, sec, usec, e1, e3, e2, xor_one_eq_sub e2, ?_, ?_, ?_⟩
  · unfold NUM_BUFFERS
    omega
  · omega
  · rw [← xor_one_eq_sub e2]
    exact e4

/-- C4, witness: the callback invocation of the run on `exitDuringFirstFlip`. -/
theorem C4_callback_renders_back_slot_witness :
    ∃ pre0 f sec usec,
      [Event.GetFrameBuffer 1, Event.drmModePageFlip 41 false 0,
        Event.select (stdinAndFlipDone 7 5), Event.drmHandleEvent,
        Event.DidPageFlip 1 7 5, Event.glBindFramebuffer 1] =
        pre0 ++ [Event.DidPageFlip f sec usec, Event.glBindFramebuffer 1] ∧
      (flipSlots pre0).getLast? = some f ∧
      f < 2 ∧ f ^^^ 1 = 1 - f ∧ 1 - f < NUM_BUFFERS ∧ 1 - f ≠ f ∧
      1 = (ringClient.framebufferAt (1 - f)).gl_fb :=
  C4_callback_renders_back_slot exitDuringFirstFlip ringClient 3 0 (by decide)
    [Event.GetFrameBuffer 1, Event.drmModePageFlip 41 false 0,
      Event.select (stdinAndFlipDone 7 5), Event.drmHandleEvent,
      Event.DidPageFlip 1 7 5, Event.glBindFramebuffer 1]
    [Event.eglCreateSyncKHR, Event.glFlush, Event.eglClientWaitSyncKHR EGL_FOREVER_KHR]
    1 7000005 (by decide)

/-- C9, as the code has it. Every invocation of the render callback, the very
first included, receives the timestamp computed from the `(sec, usec)` of the
flip-completion event that fired most recently, the one being dispatched. -/
theorem C9_callback_timestamp_of_latest_completion (p : Platform) (client : EGLDRMGlue.Impl)
    (fuel front : Nat) (hfront : front < 2) (pre post : List Event) (fb ts : Nat)
    (h : (Impl.Run p client fuel { front_buffer_ := front, page_flip_pending_ := false }).2.2 =
      pre ++ Event.callback fb ts :: post) :
    ∃ f sec usec, (completions pre).getLast? = some (f, sec, usec) ∧
      ts = EGLDRMGlue.timestamp sec usec := by
  obtain ⟨pre0, f, sec, usec, e1, -, -, -, e5, -⟩ :=
    Run_callbackContext p client fuel front hfront pre fb ts post h
  refine ⟨f, sec, usec, ?_, e5⟩
  rw [e1]
  simp

/-- C9, witness: the first (and only) callback invocation of the run on
`exitDuringFirstFlip` receives the timestamp of the completion (7, 5). -/
theorem C9_callback_timestamp_of_latest_completion_witness :
    ∃ f sec usec,
      (completions [Event.GetFrameBuffer 1, Event.drmModePageFlip 41 false 0,
        Event.select (stdinAndFlipDone 7 5), Event.drmHandleEvent,
        Event.DidPageFlip 1 7 5, Event.glBindFramebuffer 1]).getLast? = some (f, sec, usec) ∧
      7000005 = EGLDRMGlue.timestamp sec usec :=
  C9_callback_timestamp_of_latest_completion exitDuringFirstFlip ringClient 3 0 (by decide)
    [Event.GetFrameBuffer 1, Event.drmModePageFlip 41 false 0,
      Event.select (stdinAndFlipDone 7 5), Event.drmHandleEvent,
      Event.DidPageFlip 1 7 5, Event.glBindFramebuffer 1]
    [Event.eglCreateSyncKHR, Event.glFlush, Event.eglClientWaitSyncKHR EGL_FOREVER_KHR]
    1 7000005 (by decide)

/-- C9, as the spec states it, fails: on `exitDuringFirstFlip` the very first
callback invocation of the run receives 7000005, not 0. -/
theorem C9_counterexample :
    (callbacks (Impl.Run exitDuringFirstFlip ringClient 3 {}).2.2).head? = some (1, 7000005) ∧
    (List.map (fun c => c.2)
      (callbacks (Impl.Run exitDuringFirstFlip ringClient 3 {}).2.2)).head? ≠ some 0 := by
  decide

/-- C10. In every trace of `Run`, whenever a flip request follows a callback
invocation, the events of `EGLSyncFence` come right after the callback and
before the flip request, so a completed wait (`eglClientWaitSyncKHR` with no
timeout, or `glFinish`) lies between the two. -/
theorem C10_sync_between_callback_and_flip (p : Platform) (client : EGLDRMGlue.Impl)
    (fuel front : Nat) (hfront : front < 2) (pre mid post : List Event) (fb ts fb_id : Nat)
    (pend : Bool) (ret : Int)
    (h : (Impl.Run p client fuel { front_buffer_ := front, page_flip_pending_ := false }).2.2 =
      pre ++ Event.callback fb ts :: (mid ++ Event.drmModePageFlip fb_id pend ret :: post)) :
    client.EGLSyncFence <+: mid ∧
    ∃ e ∈ mid, e = Event.eglClientWaitSyncKHR EGL_FOREVER_KHR ∨ e = Event.glFinish := by
  obtain ⟨-, -, -, -, -, -, -, -, -, e6⟩ :=
    Run_callbackContext p client fuel front hfront pre fb ts _ h
  have hpre : client.EGLSyncFence <+: mid :=
    initial_segment_of_append_cons e6 (drmModePageFlip_not_mem_EGLSyncFence client fb_id pend ret)
  obtain ⟨e, he, hor⟩ := sync_wait_mem_EGLSyncFence client
  exact ⟨hpre, e, hpre.subset he, hor⟩

/-- C10, witness: in the run on `exitDuringSecondFlip` the fence events lie
between the first callback invocation and the second flip request. -/
theorem C10_sync_between_callback_and_flip_witness :
    ringClient.EGLSyncFence <+:
      [Event.eglCreateSyncKHR, Event.glFlush, Event.eglClientWaitSyncKHR EGL_FOREVER_KHR,
        Event.GetFrameBuffer 0] ∧
    ∃ e ∈ [Event.eglCreateSyncKHR, Event.glFlush, Event.eglClientWaitSyncKHR EGL_FOREVER_KHR,
        Event.GetFrameBuffer 0],
      e = Event.eglClientWaitSyncKHR EGL_FOREVER_KHR ∨ e = Event.glFinish :=
  C10_sync_between_callback_and_flip exitDuringSecondFlip ringClient 4 0 (by decide)
    [Event.GetFrameBuffer 1, Event.drmModePageFlip 41 false 0,
      Event.select (flipDone 1 0), Event.drmHandleEvent,
      Event.DidPageFlip 1 1 0, Event.glBindFramebuffer 1]
    [Event.eglCreateSyncKHR, Event.glFlush, Event.eglClientWaitSyncKHR EGL_FOREVER_KHR,
      Event.GetFrameBuffer 0]
    [Event.select (stdinAndFlipDone 2 0), Event.drmHandleEvent,
      Event.DidPageFlip 0 2 0, Event.glBindFramebuffer 2, Event.callback 2 2000000,
      Event.eglCreateSyncKHR, Event.glFlush, Event.eglClientWaitSyncKHR EGL_FOREVER_KHR]
    1 1000000 40 false 0 (by decide)

theorem rejected_flip_last {l : List (Nat × Bool × Int)} {y x : Nat × Bool × Int} {k : Nat}
    (hl : ∀ z ∈ l, z.2.2 = 0) (h : (l ++ [y])[k]? = some x) (hx : x.2.2 ≠ 0) :
    k = l.length ∧ x = y := by
  by_cases hk : k < l.length
  · rw [List.getElem?_append_left hk] at h
    exact absurd (hl x (List.getElem?_mem h)) hx
  · have hk2 : l.length ≤ k := not_lt.mp hk
    rw [List.getElem?_append_right hk2] at h
    have hlt : k - l.length < 1 := by
      by_contra hc
      rw [List.getElem?_eq_none (by simp only [List.length_singleton]; omega)] at h
      simp at h
    have h0 : k - l.length = 0 := by omega
    rw [h0] at h
    simp only [List.getElem?_cons_zero, Option.some.injEq] at h
    exact ⟨by omega, h.symm⟩

/-- C5, as the code has it. If the k-th flip request of a run (k = 1, 2, ...)
is rejected by the platform, then `Run` returns false, that request is the last
call of the run (no further flip is submitted), the first k-1 flips have
completed, and the render callback has been invoked exactly k-1 times. -/
theorem C5_rejected_flip_stops_run (p : Platform) (client : EGLDRMGlue.Impl)
    (fuel front k : Nat) (fb_id : Nat) (pend : Bool) (ret : Int) (hk : 1 ≤ k)
    (h : (flipRequests (Impl.Run p client fuel
      { front_buffer_ := front, page_flip_pending_ := false }).2.2)[k - 1]? =
        some (fb_id, pend, ret))
    (hret : ret ≠ 0) :
    (Impl.Run p client fuel { front_buffer_ := front, page_flip_pending_ := false }).1 =
      some false ∧
    (Impl.Run p client fuel { front_buffer_ := front, page_flip_pending_ := false }).2.2.getLast? =
      some (Event.drmModePageFlip fb_id pend ret) ∧
    (flipRequests (Impl.Run p client fuel
      { front_buffer_ := front, page_flip_pending_ := false }).2.2).length = k ∧
    (completions (Impl.Run p client fuel
      { front_buffer_ := front, page_flip_pending_ := false }).2.2).length = k - 1 ∧
    (callbacks (Impl.Run p client fuel
      { front_buffer_ := front, page_flip_pending_ := false }).2.2).length = k - 1 := by
  have key := loop_invariant p client
    (fun s t => s.self.page_flip_pending_ = false ∧
      (∀ x ∈ flipRequests t, x.2.2 = 0) ∧
      (callbacks t).length = (completions t).length ∧
      (completions t).length = (flipRequests t).length)
    (fun s t =>
      (∀ x ∈ flipRequests t, x.2.2 = 0) ∧
      (callbacks t).length = (completions t).length ∧
      (completions t).length + (if s.self.page_flip_pending_ then 1 else 0) =
        (flipRequests t).length)
    (fun r _ t => ∀ j x, (flipRequests t)[j]? = some x → x.2.2 ≠ 0 →
      r = some false ∧ t.getLast? = some (Event.drmModePageFlip x.1 x.2.1 x.2.2) ∧
      (flipRequests t).length = j + 1 ∧ (completions t).length = j ∧
      (callbacks t).length = j)
    ?_ ?_ ?_ ?_ ?_ ?_ ?_ ?_ ?_ ?_ fuel
    { self := { front_buffer_ := front, page_flip_pending_ := false },
      is_running := true, flips := 0, selects := 0 } []
    (by simp)
  · simp only [List.nil_append] at key
    have h2 := key (k - 1) (fb_id, pend, ret) h hret
    have hk2 : k - 1 + 1 = k := by omega
    rw [hk2] at h2
    exact h2
  · rintro s t ⟨-, h1, h2, h3⟩ - hne j x hj hx
    simp only [flipRequests_append, flipRequests_cons, flipRequests_nil, List.append_nil,
      List.nil_append] at hj
    obtain ⟨rfl, rfl⟩ := rejected_flip_last h1 hj hx
    refine ⟨rfl, ?_, ?_, ?_, ?_⟩
    · rw [List.getLast?_append_of_ne_nil _ (by simp)]
      simp
    · simp
    · simpa using h3
    · simpa [h2] using h3
  · rintro s t ⟨-, h1, h2, h3⟩ - h0
    refine ⟨?_, by simpa using h2, by simpa using h3⟩
    intro x hx
    simp only [flipRequests_append, flipRequests_cons, flipRequests_nil, List.append_nil,
      List.nil_append, List.mem_append, List.mem_singleton] at hx
    rcases hx with hx | rfl
    · exact h1 x hx
    · rfl
  · rintro s t ⟨h1, -, -⟩ - - j x hj hx
    simp only [flipRequests_append, flipRequests_cons, flipRequests_nil, List.append_nil] at hj
    exact absurd (h1 x (List.getElem?_mem hj)) hx
  · rintro s t ⟨h1, h2, h3⟩ hp - -
    simp only [hp, if_true] at h3
    exact ⟨by simpa using h1, by simpa using h2, by simpa [hp] using h3⟩
  · rintro s t ⟨h1, h2, h3⟩ hp - - -
    simp only [hp, if_true] at h3
    exact ⟨by simpa using h1, by simpa using h2, by simpa [hp] using h3⟩
  · rintro s t sec usec ⟨h1, h2, h3⟩ hp - - -
    simp only [hp, if_true] at h3
    exact ⟨by simpa using h1, by simp [h2], by simpa using h3⟩
  · rintro s t ⟨h1, h2, h3⟩ hp
    exact ⟨hp, h1, h2, by simpa [hp] using h3⟩
  · rintro s t ⟨-, h1, -, -⟩ - j x hj hx
    exact absurd (h1 x (List.getElem?_mem hj)) hx
  · rintro s t ⟨h1, -, -⟩ - j x hj hx
    exact absurd (h1 x (List.getElem?_mem hj)) hx
  · rintro s t ⟨-, h1, -, -⟩ - j x hj hx
    exact absurd (h1 x (List.getElem?_mem hj)) hx

/-- C5, witness: on `rejectThirdFlip` the third flip request is rejected after
two completed flips; `Run` returns false after two callback invocations. -/
theorem C5_rejected_flip_stops_run_witness :
    (Impl.Run rejectThirdFlip ringClient 5
      { front_buffer_ := 0, page_flip_pending_ := false }).1 = some false ∧
    (Impl.Run rejectThirdFlip ringClient 5
      { front_buffer_ := 0, page_flip_pending_ := false }).2.2.getLast? =
      some (Event.drmModePageFlip 41 false (-16)) ∧
    (flipRequests (Impl.Run rejectThirdFlip ringClient 5
      { front_buffer_ := 0, page_flip_pending_ := false }).2.2).length = 3 ∧
    (completions (Impl.Run rejectThirdFlip ringClient 5
      { front_buffer_ := 0, page_flip_pending_ := false }).2.2).length = 3 - 1 ∧
    (callbacks (Impl.Run rejectThirdFlip ringClient 5
      { front_buffer_ := 0, page_flip_pending_ := false }).2.2).length = 3 - 1 :=
  C5_rejected_flip_stops_run rejectThirdFlip ringClient 5 0 3 41 false (-16) (by decide)
    (by decide) (by decide)

/-- C5, as the spec states it, fails: on `rejectThirdFlip` the first two flips
complete and the third submission is rejected; `Run` returns false after two
callback invocations, not three. -/
theorem C5_counterexample :
    List.map (fun x => x.2.2) (flipRequests (Impl.Run rejectThirdFlip ringClient 5 {}).2.2) =
      [0, 0, -16] ∧
    (completions (Impl.Run rejectThirdFlip ringClient 5 {}).2.2).length = 2 ∧
    (Impl.Run rejectThirdFlip ringClient 5 {}).1 = some false ∧
    (callbacks (Impl.Run rejectThirdFlip ringClient 5 {}).2.2).length = 2 ∧
    (callbacks (Impl.Run rejectThirdFlip ringClient 5 {}).2.2).length ≠ 3 := by
  decide

theorem deliveredBefore_mono (p : Platform) {m n : Nat} (h : m ≤ n) :
    p.deliveredBefore m ≤ p.deliveredBefore n := by
  induction n with
  | zero =>
    have : m = 0 := by omega
    rw [this]
  | succ n ih =>
    by_cases hm : m = n + 1
    · rw [hm]
    · have := ih (by omega)
      simp only [Platform.deliveredBefore]
      omega

theorem deliveredBefore_quiet (p : Platform) {m e : Nat} (h : m ≤ e)
    (hq : ∀ i, m ≤ i → i < e → (p.select i).delivers = false) :
    p.deliveredBefore e = p.deliveredBefore m := by
  induction e with
  | zero =>
    have : m = 0 := by omega
    rw [this]
  | succ e ih =>
    by_cases hm : m = e + 1
    · rw [hm]
    · have h1 := ih (by omega) (fun i hi hie => hq i hi (by omega))
      have h2 := hq e (by omega) (by omega)
      simp [Platform.deliveredBefore, h1, h2]

theorem waitLoop_of_not_pending (p : Platform) (client : EGLDRMGlue.Impl) (fuel : Nat)
    (s : RunState) (h : s.self.page_flip_pending_ = false) :
    waitLoop p client fuel s = (Flow.fallthrough, s, []) := by
  cases fuel <;> simp [waitLoop, h]

theorem runLoop_of_not_running (p : Platform) (client : EGLDRMGlue.Impl) (fuel : Nat)
    (s : RunState) (h : s.is_running = false) :
    runLoop p client fuel s = (some true, s, []) := by
  cases fuel <;> simp [runLoop, h]

/-- The wait loop, entered with a flip pending at wait number `s.selects`, when
the waits up to `e` succeed and `e` is the first of them to deliver a
completion: the loop ends normally after wait `e`. -/
theorem waitLoop_until_delivery (p : Platform) (client : EGLDRMGlue.Impl) (e : Nat) :
    ∀ (fuel : Nat) (s : RunState), s.self.page_flip_pending_ = true → s.selects ≤ e →
      e + 1 ≤ s.selects + fuel →
      (∀ i, s.selects ≤ i → i ≤ e → 0 < (p.select i).ret) →
      (∀ i, s.selects ≤ i → i < e → (p.select i).delivers = false) →
      (p.select e).delivers = true →
      (waitLoop p client fuel s).1 = Flow.fallthrough ∧
      (waitLoop p client fuel s).2.1.selects = e + 1 ∧
      (waitLoop p client fuel s).2.1.flips = s.flips ∧
      (waitLoop p client fuel s).2.1.self.page_flip_pending_ = false ∧
      ((∀ i, s.selects ≤ i → i ≤ e → (p.select i).stdin_set = false) →
        (waitLoop p client fuel s).2.1.is_running = s.is_running) ∧
      ((∃ i, s.selects ≤ i ∧ i ≤ e ∧ (p.select i).stdin_set = true) →
        (waitLoop p client fuel s).2.1.is_running = false) := by
  intro fuel
  induction fuel with
  | zero =>
    intro s _ hle hfuel
    omega
  | succ n ih =>
    intro s hp hle hfuel hpos hq hd
    have hpos0 := hpos s.selects (le_refl _) hle
    by_cases hse : s.selects = e
    · -- this wait delivers the completion
      have hdel : (p.select s.selects).delivers = true := by rw [hse]; exact hd
      simp only [SelectResult.delivers, Bool.and_eq_true, decide_eq_true_eq,
        Option.isSome_iff_exists] at hdel
      obtain ⟨⟨-, hdrm⟩, ⟨sec, usec⟩, hev⟩ := hdel
      rcases waitBody_cases p client s with ⟨h1, -⟩ | ⟨-, h2, -⟩ | ⟨-, -, h3, -⟩ |
        ⟨sec', usec', -, -, -, he⟩
      · omega
      · rw [hdrm] at h2
        exact absurd h2 (by simp)
      · rw [hev] at h3
        exact absurd h3 (by simp)
      · simp only [waitLoop, hp, if_true, he]
        rw [waitLoop_of_not_pending _ _ _ _ rfl]
        refine ⟨rfl, by simp [hse], rfl, rfl, ?_, ?_⟩
        · intro hst
          simp [hst s.selects (le_refl _) hle]
        · rintro ⟨i, hi1, hi2, hi3⟩
          have : i = s.selects := by omega
          rw [this] at hi3
          simp [hi3]
    · -- this wait does not deliver; the loop goes round again
      have hlt : s.selects < e := by omega
      have hnd := hq s.selects (le_refl _) hlt
      have hcont : ∃ s1 ev, waitBody p client s = (none, s1, ev) ∧
          s1.self.page_flip_pending_ = true ∧ s1.selects = s.selects + 1 ∧
          s1.flips = s.flips ∧
          s1.is_running = (if (p.select s.selects).stdin_set then false else s.is_running) := by
        rcases waitBody_cases p client s with ⟨h1, -⟩ | ⟨-, -, he⟩ | ⟨-, -, -, he⟩ |
          ⟨sec', usec', -, h2, h3, -⟩
        · omega
        · exact ⟨_, _, he, hp, rfl, rfl, rfl⟩
        · exact ⟨_, _, he, hp, rfl, rfl, rfl⟩
        · simp [SelectResult.delivers, hpos0, h2, h3] at hnd
      obtain ⟨s1, ev, he, hp1, hs1, hf1, hr1⟩ := hcont
      have h := ih s1 hp1 (by omega) (by omega)
        (fun i hi hie => hpos i (by omega) hie)
        (fun i hi hie => hq i (by omega) hie) hd
      obtain ⟨g1, g2, g3, g4, g5, g6⟩ := h
      rcases hw : waitLoop p client n s1 with ⟨f, s2, ev2⟩
      rw [hw] at g1 g2 g3 g4 g5 g6
      simp only [waitLoop, hp, if_true, he, hw]
      simp only at g1 g2 g3 g4 g5 g6
      refine ⟨g1, g2, by rw [g3, hf1], g4, ?_, ?_⟩
      · intro hst
        rw [g5 (fun i hi hie => hst i (by omega) hie), hr1]
        simp [hst s.selects (le_refl _) hle]
      · rintro ⟨i, hi1, hi2, hi3⟩
        by_cases hi : i = s.selects
        · rw [hi] at hi3
          by_cases hall : ∀ j, s1.selects ≤ j → j ≤ e → (p.select j).stdin_set = false
          · rw [g5 hall, hr1]
            simp [hi3]
          · push_neg at hall
            obtain ⟨j, hj1, hj2, hj3⟩ := hall
            exact g6 ⟨j, hj1, hj2, by simpa using hj3⟩
        · exact g6 ⟨i, by omega, hi2, hi3⟩

/-- The counters of `runLoop` count the flip requests and the waits of the
trace; and when it returns true, every flip request has completed. -/
theorem runLoop_counts (p : Platform) (client : EGLDRMGlue.Impl) (fuel : Nat) (s : RunState)
    (hs : s.self.page_flip_pending_ = false) :
    (runLoop p client fuel s).2.1.flips =
      s.flips + (flipRequests (runLoop p client fuel s).2.2).length ∧
    (runLoop p client fuel s).2.1.selects =
      s.selects + (waits (runLoop p client fuel s).2.2).length ∧
    ((runLoop p client fuel s).1 = some true →
      (completions (runLoop p client fuel s).2.2).length =
        (flipRequests (runLoop p client fuel s).2.2).length ∧
      (runLoop p client fuel s).2.1.self.page_flip_pending_ = false) := by
  have key := loop_invariant p client
    (fun s1 t => s1.self.page_flip_pending_ = false ∧
      s1.flips = s.flips + (flipRequests t).length ∧
      s1.selects = s.selects + (waits t).length ∧
      (completions t).length = (flipRequests t).length)
    (fun s1 t =>
      s1.flips = s.flips + (flipRequests t).length ∧
      s1.selects = s.selects + (waits t).length ∧
      (completions t).length + (if s1.self.page_flip_pending_ then 1 else 0) =
        (flipRequests t).length)
    (fun r s1 t =>
      s1.flips = s.flips + (flipRequests t).length ∧
      s1.selects = s.selects + (waits t).length ∧
      (r = some true → (completions t).length = (flipRequests t).length ∧
        s1.self.page_flip_pending_ = false))
    ?_ ?_ ?_ ?_ ?_ ?_ ?_ ?_ ?_ ?_ fuel s [] (by simp [hs])
  · simpa using key
  · rintro s1 t ⟨-, h1, h2, -⟩ - -
    refine ⟨?_, ?_, by simp⟩
    · simp [h1]
      omega
    · simp [h2]
  · rintro s1 t ⟨-, h1, h2, h3⟩ - -
    refine ⟨?_, ?_, ?_⟩
    · simp [h1]
      omega
    · simp [h2]
    · simp [h3]
  · rintro s1 t ⟨h1, h2, -⟩ - -
    refine ⟨?_, ?_, by simp⟩
    · simp [h1]
    · simp [h2]
      omega
  · rintro s1 t ⟨h1, h2, h3⟩ hp - -
    simp only [hp, if_true] at h3
    refine ⟨?_, ?_, ?_⟩
    · simp [h1]
    · simp [h2]
      omega
    · simp [h3, hp]
  · rintro s1 t ⟨h1, h2, h3⟩ hp - - -
    simp only [hp, if_true] at h3
    refine ⟨?_, ?_, ?_⟩
    · simp [h1]
    · simp [h2]
      omega
    · simp [h3, hp]
  · rintro s1 t sec usec ⟨h1, h2, h3⟩ hp - - -
    simp only [hp, if_true] at h3
    refine ⟨?_, ?_, ?_⟩
    · simp [h1]
    · simp [h2]
      omega
    · simp [h3]
  · rintro s1 t ⟨h1, h2, h3⟩ hp
    exact ⟨hp, h1, h2, by simpa [hp] using h3⟩
  · rintro s1 t ⟨h0, h1, h2, h3⟩ -
    exact ⟨h1, h2, fun _ => ⟨h3, h0⟩⟩
  · rintro s1 t ⟨h1, h2, -⟩ -
    exact ⟨h1, h2, by simp⟩
  · rintro s1 t ⟨-, h1, h2, -⟩ -
    exact ⟨h1, h2, by simp⟩

theorem runLoop_succ_fallthrough (p : Platform) (client : EGLDRMGlue.Impl) (n : Nat)
    (s s1 s2 : RunState) (ev ev2 : List Event) (hr : s.is_running = true)
    (hf : flipStep p client s = (none, s1, ev))
    (hw : waitLoop p client n s1 = (Flow.fallthrough, s2, ev2)) :
    runLoop p client (n + 1) s =
      ((runLoop p client n s2).1, (runLoop p client n s2).2.1,
        ev ++ ev2 ++ (runLoop p client n s2).2.2) := by
  simp only [runLoop, hr, if_true, hf, hw]

/-- The run loop, from the head of an iteration reached before wait `J`, when
`J` is the first wait to report fd 0 readable, the flip pending at wait `J`
completes at wait `D`, no wait up to `D` fails and the flips are accepted:
`Run` returns true after wait `D`. -/
theorem runLoop_exit_request (p : Platform) (client : EGLDRMGlue.Impl) (J D : Nat)
    (hJD : J ≤ D)
    (hpos : ∀ i, i ≤ D → 0 < (p.select i).ret)
    (hquiet : ∀ i, i < J → (p.select i).stdin_set = false)
    (hexit : (p.select J).stdin_set = true)
    (hpend : ∀ i, J ≤ i → i < D → (p.select i).delivers = false)
    (hdone : (p.select D).delivers = true)
    (hflips : ∀ n, n ≤ p.deliveredBefore J → p.drmModePageFlip n = 0) :
    ∀ (fuel : Nat) (s : RunState), s.is_running = true → s.self.page_flip_pending_ = false →
      s.selects ≤ J → s.flips = p.deliveredBefore s.selects → D + 2 ≤ s.selects + fuel →
      (runLoop p client fuel s).1 = some true ∧
      (runLoop p client fuel s).2.1.flips = p.deliveredBefore J + 1 ∧
      (runLoop p client fuel s).2.1.selects = D + 1 := by
  intro fuel
  induction fuel with
  | zero =>
    intro s _ _ hsJ _ hfuel
    omega
  | succ n ih =>
    intro s hr hp hsJ hfl hfuel
    -- the flip of this iteration is accepted
    have hacc : p.drmModePageFlip s.flips = 0 :=
      hflips _ (by rw [hfl]; exact deliveredBefore_mono p hsJ)
    have hf : flipStep p client s =
        (none,
         { s with self := { front_buffer_ := s.self.front_buffer_ ^^^ 1,
                            page_flip_pending_ := true },
                  flips := s.flips + 1 },
         [Event.GetFrameBuffer (s.self.front_buffer_ ^^^ 1),
          Event.drmModePageFlip (client.GetFrameBuffer (s.self.front_buffer_ ^^^ 1))
            s.self.page_flip_pending_ 0]) := by
      rcases flipStep_cases p client s with ⟨hne, -⟩ | ⟨-, he⟩
      · exact absurd hacc hne
      · exact he
    -- the first wait from here on that delivers a completion
    have hex : ∃ e, s.selects ≤ e ∧ (p.select e).delivers = true := ⟨D, by omega, hdone⟩
    have he1 := Nat.find_spec hex
    have he2 : Nat.find hex ≤ D := Nat.find_min' hex ⟨by omega, hdone⟩
    have he3 : ∀ i, s.selects ≤ i → i < Nat.find hex → (p.select i).delivers = false := by
      intro i hi hlt
      have := Nat.find_min hex hlt
      simp only [not_and, Bool.not_eq_true] at this
      exact this hi
    generalize Nat.find hex = e at he1 he2 he3
    have hw := waitLoop_until_delivery p client e n
      { s with self := { front_buffer_ := s.self.front_buffer_ ^^^ 1,
                         page_flip_pending_ := true },
               flips := s.flips + 1 }
      rfl he1.1 (by simp only; omega) (fun i _ hie => hpos i (by omega)) he3 he1.2
    rcases hwl : waitLoop p client n
      { s with self := { front_buffer_ := s.self.front_buffer_ ^^^ 1,
                         page_flip_pending_ := true },
               flips := s.flips + 1 } with ⟨f, s2, ev2⟩
    rw [hwl] at hw
    simp only at hw
    obtain ⟨g1, g2, g3, g4, g5, g6⟩ := hw
    subst g1
    by_cases heJ : e < J
    · -- the flip completes before the exit request: the loop goes round again
      have hrun : s2.is_running = true := by
        rw [g5 (fun i _ hie => hquiet i (by omega))]
        exact hr
      have hdb : s2.flips = p.deliveredBefore s2.selects := by
        rw [g3, g2, hfl]
        simp only [Platform.deliveredBefore, he1.2, if_true]
        rw [deliveredBefore_quiet p he1.1 he3]
      have h := ih s2 hrun g4 (by omega) hdb (by omega)
      rw [runLoop_succ_fallthrough p client n s _ s2 _ ev2 hr hf hwl]
      exact h
    · -- the exit request arrives while this flip is pending
      have heD : e = D := by
        by_contra hne
        have := hpend e (by omega) (by omega)
        rw [he1.2] at this
        exact absurd this (by simp)
      have hrun : s2.is_running = false := g6 ⟨J, hsJ, by omega, hexit⟩
      have hdb : p.deliveredBefore J = p.deliveredBefore s.selects :=
        deliveredBefore_quiet p hsJ (fun i hi hlt => he3 i hi (by omega))
      rw [runLoop_succ_fallthrough p client n s _ s2 _ ev2 hr hf hwl,
        runLoop_of_not_running _ _ _ _ hrun]
      refine ⟨rfl, ?_, ?_⟩
      · simp only [g3, hdb, hfl]
      · simp only [g2, heD]

/-- The waits of a run of `Run` are the waits 0, 1, 2, ... of the platform, in
order. -/
theorem Run_waits (p : Platform) (client : EGLDRMGlue.Impl) (fuel : Nat) (self : Impl) :
    waits (Impl.Run p client fuel self).2.2 =
      List.map p.select (List.range (waits (Impl.Run p client fuel self).2.2).length) := by
  have hsnoc : ∀ (t : List Event) (k : Nat), k = (waits t).length →
      waits t = List.map p.select (List.range (waits t).length) →
      waits t ++ [p.select k] = List.map p.select (List.range ((waits t).length + 1)) := by
    intro t k hk ht
    rw [List.range_succ, List.map_append, ← ht, hk]
    rfl
  have key := loop_invariant p client
    (fun s t => s.selects = (waits t).length ∧
      waits t = List.map p.select (List.range (waits t).length))
    (fun s t => s.selects = (waits t).length ∧
      waits t = List.map p.select (List.range (waits t).length))
    (fun _ _ t => waits t = List.map p.select (List.range (waits t).length))
    ?_ ?_ ?_ ?_ ?_ ?_ ?_ ?_ ?_ ?_ fuel
    { self := self, is_running := true, flips := 0, selects := 0 } []
    (by simp)
  · simpa [Run_trace] using key
  · rintro s t ⟨-, h2⟩ - -
    simpa using h2
  · rintro s t ⟨h1, h2⟩ - -
    simpa using ⟨h1, h2⟩
  · rintro s t ⟨h1, h2⟩ - -
    simpa using hsnoc t _ h1 h2
  · rintro s t ⟨h1, h2⟩ - - -
    simpa using ⟨h1, hsnoc t _ h1 h2⟩
  · rintro s t ⟨h1, h2⟩ - - - -
    simpa using ⟨h1, hsnoc t _ h1 h2⟩
  · rintro s t sec usec ⟨h1, h2⟩ - - - -
    simpa using ⟨h1, hsnoc t _ h1 h2⟩
  · rintro s t h -
    exact h
  · rintro s t ⟨-, h2⟩ -
    exact h2
  · rintro s t ⟨-, h2⟩ -
    exact h2
  · rintro s t ⟨-, h2⟩ -
    exact h2

/-- C6. Let wait `J` be the first to report fd 0 readable, made while flip `n`
is pending (`n - 1` completions were delivered before it), and let that flip's
completion be delivered at wait `D ≥ J`, no wait up to `D` failing and the
flips up to the n-th being accepted. Then `Run` does not stop at wait `J`: it
makes the waits `0, ..., D`, dispatches the completion of flip `n`, and returns
true having submitted exactly `n` flip requests. -/
theorem C6_exit_request_waits_for_flip (p : Platform) (client : EGLDRMGlue.Impl)
    (front n J D fuel : Nat)
    (hJD : J ≤ D)
    (hpos : ∀ i, i ≤ D → 0 < (p.select i).ret)
    (hquiet : ∀ i, i < J → (p.select i).stdin_set = false)
    (hexit : (p.select J).stdin_set = true)
    (hn : p.deliveredBefore J + 1 = n)
    (hpend : ∀ i, J ≤ i → i < D → (p.select i).delivers = false)
    (hdone : (p.select D).delivers = true)
    (hflips : ∀ k, k < n → p.drmModePageFlip k = 0)
    (hfuel : D + 2 ≤ fuel) :
    (Impl.Run p client fuel { front_buffer_ := front, page_flip_pending_ := false }).1 =
      some true ∧
    waits (Impl.Run p client fuel { front_buffer_ := front, page_flip_pending_ := false }).2.2 =
      List.map p.select (List.range (D + 1)) ∧
    (flipRequests (Impl.Run p client fuel
      { front_buffer_ := front, page_flip_pending_ := false }).2.2).length = n ∧
    (completions (Impl.Run p client fuel
      { front_buffer_ := front, page_flip_pending_ := false }).2.2).length = n ∧
    (Impl.Run p client fuel
      { front_buffer_ := front, page_flip_pending_ := false }).2.1.page_flip_pending_ = false := by
  have hsim := runLoop_exit_request p client J D hJD hpos hquiet hexit hpend hdone
    (fun k hk => hflips k (by omega)) fuel
    { self := { front_buffer_ := front, page_flip_pending_ := false },
      is_running := true, flips := 0, selects := 0 }
    rfl rfl (Nat.zero_le _) rfl (by simpa using hfuel)
  have hcnt := runLoop_counts p client fuel
    { self := { front_buffer_ := front, page_flip_pending_ := false },
      is_running := true, flips := 0, selects := 0 } rfl
  have hwaits := Run_waits p client fuel { front_buffer_ := front, page_flip_pending_ := false }
  simp only [Run_fst, Run_trace, Run_state] at hwaits ⊢
  obtain ⟨s1, s2, s3⟩ := hsim
  obtain ⟨c1, c2, c3⟩ := hcnt
  obtain ⟨c4, c5⟩ := c3 s1
  simp only [Nat.zero_add] at c1 c2
  have hlenw : (waits (runLoop p client fuel
      { self := { front_buffer_ := front, page_flip_pending_ := false },
        is_running := true, flips := 0, selects := 0 }).2.2).length = D + 1 := by
    rw [s3] at c2
    omega
  have hlenf : (flipRequests (runLoop p client fuel
      { self := { front_buffer_ := front, page_flip_pending_ := false },
        is_running := true, flips := 0, selects := 0 }).2.2).length = n := by
    rw [s2] at c1
    omega
  refine ⟨s1, ?_, hlenf, ?_, c5⟩
  · rw [hwaits, hlenw]
  · rw [c4, hlenf]

/-- C6, witness: the scenario of the spec. On `exitDuringFifthFlip` fd 0
becomes readable at wait 4, while the fifth flip is pending; `Run` goes on to
wait 5, which delivers the completion, and returns true after exactly five
flip requests. -/
theorem C6_exit_request_waits_for_flip_witness :
    (Impl.Run exitDuringFifthFlip ringClient 7
      { front_buffer_ := 0, page_flip_pending_ := false }).1 = some true ∧
    waits (Impl.Run exitDuringFifthFlip ringClient 7
      { front_buffer_ := 0, page_flip_pending_ := false }).2.2 =
      List.map exitDuringFifthFlip.select (List.range (5 + 1)) ∧
    (flipRequests (Impl.Run exitDuringFifthFlip ringClient 7
      { front_buffer_ := 0, page_flip_pending_ := false }).2.2).length = 5 ∧
    (completions (Impl.Run exitDuringFifthFlip ringClient 7
      { front_buffer_ := 0, page_flip_pending_ := false }).2.2).length = 5 ∧
    (Impl.Run exitDuringFifthFlip ringClient 7
      { front_buffer_ := 0, page_flip_pending_ := false }).2.1.page_flip_pending_ = false :=
  C6_exit_request_waits_for_flip exitDuringFifthFlip ringClient 0 5 4 5 7
    (by decide) (by decide) (by decide) (by decide) (by decide) (by decide) (by decide)
    (by intro k _; rfl) (by decide)

theorem select_mem_waits {t : List Event} {r : SelectResult}
    (h : Event.select r ∈ t) : r ∈ waits t := by
  unfold waits
  exact List.mem_filterMap.mpr ⟨_, h, rfl⟩

theorem failed_wait_last {t pre post : List Event} {r0 r : SelectResult}
    (ht : ∀ x ∈ waits t, 0 < x.ret) (hr : r.ret ≤ 0)
    (h : t ++ [Event.select r0] = pre ++ Event.select r :: post) : post = [] := by
  rcases occ_append h with ⟨post', h1, -⟩ | ⟨pre', h1, -⟩
  · have hm : Event.select r ∈ t := by
      rw [h1]
      simp
    exact absurd (ht r (select_mem_waits hm)) (not_lt.mpr hr)
  · cases pre' with
    | nil =>
      simp only [List.nil_append, List.cons.injEq] at h1
      exact h1.2.symm
    | cons x l =>
      simp only [List.cons_append, List.cons.injEq] at h1
      have := h1.2
      simp at this

theorem no_failed_wait {t pre post : List Event} {r : SelectResult}
    (ht : ∀ x ∈ waits t, 0 < x.ret) (hr : r.ret ≤ 0) :
    t ≠ pre ++ Event.select r :: post := by
  intro h
  have hm : Event.select r ∈ t := by
    rw [h]
    simp
  exact absurd (ht r (select_mem_waits hm)) (not_lt.mpr hr)

/-- C7. In every run of `Run`: a `select` that returns a negative value or
zero is the last call of the run and `Run` has then returned false, so there
is no retry, no further flip request and no further callback invocation; and
when `Run` returns true, every wait of the run returned a positive value and
one of them reported fd 0 readable. -/
theorem C7_wait_failure_is_fatal (p : Platform) (client : EGLDRMGlue.Impl) (fuel front : Nat) :
    (∀ pre r post,
      (Impl.Run p client fuel { front_buffer_ := front, page_flip_pending_ := false }).2.2 =
        pre ++ Event.select r :: post →
      r.ret ≤ 0 →
      post = [] ∧
      (Impl.Run p client fuel { front_buffer_ := front, page_flip_pending_ := false }).1 =
        some false) ∧
    ((Impl.Run p client fuel { front_buffer_ := front, page_flip_pending_ := false }).1 =
        some true →
      (∀ r ∈ waits
        (Impl.Run p client fuel { front_buffer_ := front, page_flip_pending_ := false }).2.2,
        0 < r.ret) ∧
      ∃ r ∈ waits
        (Impl.Run p client fuel { front_buffer_ := front, page_flip_pending_ := false }).2.2,
        r.stdin_set = true) := by
  have key := loop_invariant p client
    (fun s t => (∀ x ∈ waits t, 0 < x.ret) ∧
      (s.is_running = false → ∃ r ∈ waits t, r.stdin_set = true))
    (fun s t => (∀ x ∈ waits t, 0 < x.ret) ∧
      (s.is_running = false → ∃ r ∈ waits t, r.stdin_set = true))
    (fun res _ t =>
      (∀ pre r post, t = pre ++ Event.select r :: post → r.ret ≤ 0 →
        post = [] ∧ res = some false) ∧
      (res = some true →
        (∀ x ∈ waits t, 0 < x.ret) ∧ ∃ r ∈ waits t, r.stdin_set = true))
    ?_ ?_ ?_ ?_ ?_ ?_ ?_ ?_ ?_ ?_ fuel
    { self := { front_buffer_ := front, page_flip_pending_ := false },
      is_running := true, flips := 0, selects := 0 } []
    (by simp)
  · simpa [Run_trace, Run_fst] using key
  · rintro s t ⟨h1, -⟩ - -
    refine ⟨fun pre r post h hr => ?_, by simp⟩
    exact absurd h (no_failed_wait (by simpa using h1) hr)
  · rintro s t ⟨h1, h2⟩ hr -
    simp [hr] at h2 ⊢
    exact h1
  · rintro s t ⟨h1, -⟩ - -
    refine ⟨fun pre r post h hr => ⟨failed_wait_last h1 hr h, rfl⟩, by simp⟩
  · rintro s t ⟨h1, h2⟩ - hpos -
    refine ⟨?_, ?_⟩
    · intro x hx
      simp only [waits_append, waits_cons, waits_nil, List.append_nil, List.mem_append,
        List.mem_singleton] at hx
      rcases hx with hx | rfl
      · exact h1 x hx
      · exact hpos
    · intro hrun
      by_cases hs : (p.select s.selects).stdin_set = true
      · exact ⟨_, by simp, hs⟩
      · simp only [hs, Bool.false_eq_true, if_false] at hrun
        obtain ⟨r, hr, hr2⟩ := h2 hrun
        exact ⟨r, by simp [hr], hr2⟩
  · rintro s t ⟨h1, h2⟩ - hpos - -
    refine ⟨?_, ?_⟩
    · intro x hx
      simp only [waits_append, waits_cons, waits_nil, List.append_nil, List.mem_append,
        List.mem_singleton] at hx
      rcases hx with hx | rfl
      · exact h1 x hx
      · exact hpos
    · intro hrun
      by_cases hs : (p.select s.selects).stdin_set = true
      · exact ⟨_, by simp, hs⟩
      · simp only [hs, Bool.false_eq_true, if_false] at hrun
        obtain ⟨r, hr, hr2⟩ := h2 hrun
        exact ⟨r, by simp [hr], hr2⟩
  · rintro s t sec usec ⟨h1, h2⟩ - hpos - -
    refine ⟨?_, ?_⟩
    · intro x hx
      simp only [waits_append, waits_cons, waits_nil, waits_DidPageFlip, List.append_nil,
        List.mem_append, List.mem_singleton] at hx
      rcases hx with hx | rfl
      · exact h1 x hx
      · exact hpos
    · intro hrun
      by_cases hs : (p.select s.selects).stdin_set = true
      · exact ⟨_, by simp, hs⟩
      · simp only [hs, Bool.false_eq_true, if_false] at hrun
        obtain ⟨r, hr, hr2⟩ := h2 hrun
        exact ⟨r, by simp [hr], hr2⟩
  · rintro s t h -
    exact h
  · rintro s t ⟨h1, h2⟩ hrun
    exact ⟨fun pre r post h hr => absurd h (no_failed_wait h1 hr), fun _ => ⟨h1, h2 hrun⟩⟩
  · rintro s t ⟨h1, -⟩ -
    exact ⟨fun pre r post h hr => absurd h (no_failed_wait h1 hr), by simp⟩
  · rintro s t ⟨h1, -⟩ -
    exact ⟨fun pre r post h hr => absurd h (no_failed_wait h1 hr), by simp⟩

/-- C7, witness: on `timeoutDuringSecondFlip` the second wait returns 0 and is
the last call of the run, which returns false; on `exitDuringFirstFlip` the run
returns true and its only wait reported fd 0 readable. -/
theorem C7_wait_failure_is_fatal_witness :
    (([] : List Event) = [] ∧
      (Impl.Run timeoutDuringSecondFlip ringClient 4
        { front_buffer_ := 0, page_flip_pending_ := false }).1 = some false) ∧
    ((∀ r ∈ waits (Impl.Run exitDuringFirstFlip ringClient 3
        { front_buffer_ := 0, page_flip_pending_ := false }).2.2, 0 < r.ret) ∧
      ∃ r ∈ waits (Impl.Run exitDuringFirstFlip ringClient 3
        { front_buffer_ := 0, page_flip_pending_ := false }).2.2, r.stdin_set = true) :=
  ⟨(C7_wait_failure_is_fatal timeoutDuringSecondFlip ringClient 4 0).1
      [Event.GetFrameBuffer 1, Event.drmModePageFlip 41 false 0,
        Event.select (flipDone 1 0), Event.drmHandleEvent,
        Event.DidPageFlip 1 1 0, Event.glBindFramebuffer 1, Event.callback 1 1000000,
        Event.eglCreateSyncKHR, Event.glFlush, Event.eglClientWaitSyncKHR EGL_FOREVER_KHR,
        Event.GetFrameBuffer 0, Event.drmModePageFlip 40 false 0]
      waitTimeout [] (by decide) (by decide),
   (C7_wait_failure_is_fatal exitDuringFirstFlip ringClient 3 0).2 (by decide)⟩

/-- The conversion is exact as long as the microsecond count fits in 32 bits. -/
theorem timestamp_eq_of_lt (sec usec : Nat) (h : sec * 1000000 + usec < UINT_RANGE) :
    EGLDRMGlue.timestamp sec usec = sec * 1000000 + usec := by
  unfold EGLDRMGlue.timestamp
  have h1 : sec * 1000000 < UINT_RANGE := by omega
  rw [Nat.mod_eq_of_lt h1, Nat.mod_eq_of_lt h]

/-- C8, failing input. For the completion event `(sec, usec) = (4295, 0)` the
exact microsecond count is 4295000000, but the callback receives 32704: the
product `sec * 1000000` is formed in 32-bit `unsigned int` and wraps. -/
theorem C8_timestamp_wraps_at_4295_seconds :
    4295 < UINT_RANGE ∧ 0 < 1000000 ∧
    4295 * 1000000 + 0 = 4295000000 ∧
    EGLDRMGlue.timestamp 4295 0 = 32704 ∧
    callbacks (Impl.Run lateCompletion ringClient 3 {}).2.2 = [(1, 32704)] := by
  decide

end DRMModesetter
end ged

namespace ged
namespace EGLDRMGlue

theorem InitializeEGL_sync_supported (e : EGLPlatform)
    (h : (Impl.InitializeEGL e).1 = true) :
    (Impl.InitializeEGL e).2.egl_sync_supported =
      (e.eglCreateSyncKHR && e.eglClientWaitSyncKHR) := by
  unfold Impl.InitializeEGL at h ⊢
  by_cases h1 : (!e.eglCreateImageKHR || !e.eglDestroyImageKHR ||
      !e.glEGLImageTargetTexture2DOES) = true
  · simp [h1] at h
  · simp only [h1, Bool.false_eq_true, if_false]
    by_cases h2 : (e.eglCreateSyncKHR && e.eglClientWaitSyncKHR) = true
    · simp only [h2, if_true]
      repeat' split
      all_goals rfl
    · simp only [Bool.not_eq_true] at h2
      simp only [h2, Bool.false_eq_true, if_false]
      repeat' split
      all_goals rfl

/-- C11, as the code has it. After a successful `InitializeEGL`: when both
fence entry points were resolved, `EGLSyncFence` creates the fence, then
issues the flush, then waits on the fence with the unbounded timeout
`EGL_FOREVER_KHR`, in that order (the fence is created before the flush, not
after it); when either entry point is missing it issues `glFinish` and nothing
else. -/
theorem C11_sync_fence_strategy (e : EGLPlatform)
    (framebuffers_ : Fin NUM_BUFFERS → Framebuffer)
    (h : (Impl.InitializeEGL e).1 = true) :
    ((e.eglCreateSyncKHR = true ∧ e.eglClientWaitSyncKHR = true) →
      Impl.EGLSyncFence { egl_ := (Impl.InitializeEGL e).2, framebuffers_ := framebuffers_ } =
        [Event.eglCreateSyncKHR, Event.glFlush, Event.eglClientWaitSyncKHR EGL_FOREVER_KHR]) ∧
    (¬ (e.eglCreateSyncKHR = true ∧ e.eglClientWaitSyncKHR = true) →
      Impl.EGLSyncFence { egl_ := (Impl.InitializeEGL e).2, framebuffers_ := framebuffers_ } =
        [Event.glFinish]) := by
  have hs := InitializeEGL_sync_supported e h
  constructor
  · rintro ⟨h1, h2⟩
    simp [Impl.EGLSyncFence, hs, h1, h2]
  · intro hn
    have : (e.eglCreateSyncKHR && e.eglClientWaitSyncKHR) = false := by
      simpa using hn
    simp [Impl.EGLSyncFence, hs, this]

/-- C11, witness: `fenceEGL` resolves both fence entry points and `noFenceEGL`
lacks one. -/
theorem C11_sync_fence_strategy_witness :
    Impl.EGLSyncFence
        { egl_ := (Impl.InitializeEGL fenceEGL).2, framebuffers_ := ringClient.framebuffers_ } =
      [Event.eglCreateSyncKHR, Event.glFlush, Event.eglClientWaitSyncKHR EGL_FOREVER_KHR] ∧
    Impl.EGLSyncFence
        { egl_ := (Impl.InitializeEGL noFenceEGL).2,
          framebuffers_ := ringClient.framebuffers_ } =
      [Event.glFinish] :=
  ⟨(C11_sync_fence_strategy fenceEGL ringClient.framebuffers_ (by decide)).1
      ⟨by decide, by decide⟩,
   (C11_sync_fence_strategy noFenceEGL ringClient.framebuffers_ (by decide)).2 (by decide)⟩

/-- C11, as the spec states it, fails: in the fence strategy the fence is
created first (position 0 of the calls of `EGLSyncFence`) and the flush is
issued after it (position 1), so the fence is not created after the flush. -/
theorem C11_counterexample :
    (Impl.InitializeEGL fenceEGL).1 = true ∧
    fenceEGL.eglCreateSyncKHR = true ∧ fenceEGL.eglClientWaitSyncKHR = true ∧
    List.indexOf Event.eglCreateSyncKHR
        (Impl.EGLSyncFence
          { egl_ := (Impl.InitializeEGL fenceEGL).2,
            framebuffers_ := ringClient.framebuffers_ }) = 0 ∧
    List.indexOf Event.glFlush
        (Impl.EGLSyncFence
          { egl_ := (Impl.InitializeEGL fenceEGL).2,
            framebuffers_ := ringClient.framebuffers_ }) = 1 ∧
    ¬ (List.indexOf Event.glFlush
        (Impl.EGLSyncFence
          { egl_ := (Impl.InitializeEGL fenceEGL).2,
            framebuffers_ := ringClient.framebuffers_ }) <
      List.indexOf Event.eglCreateSyncKHR
        (Impl.EGLSyncFence
          { egl_ := (Impl.InitializeEGL fenceEGL).2,
            framebuffers_ := ringClient.framebuffers_ })) := by
  decide

end EGLDRMGlue
end ged

namespace ged
namespace DRMModesetter

theorem connectorLoop_cases (k : Kernel) (res : drmModeRes) (self : Modesetter) :
    ∀ ids : List Nat,
      (connectorLoop k res self ids = self ∧
        ∀ id ∈ ids, ¬ Selectable k res self.modeset_dev_list_ id) ∨
      (∃ pre id post conn mode0 rest crtc,
        ids = pre ++ id :: post ∧
        (∀ id' ∈ pre, ¬ Selectable k res self.modeset_dev_list_ id') ∧
        k.drmModeGetConnector id = some conn ∧
        conn.connection = DRM_MODE_CONNECTED ∧
        conn.modes = mode0 :: rest ∧
        Impl.FindCrtc k self.modeset_dev_list_ res conn = some crtc ∧
        connectorLoop k res self ids =
          { self with
            modeset_dev_ := some self.modeset_dev_list_.length,
            modeset_dev_list_ := self.modeset_dev_list_ ++
              [{ mode := mode0, conn := conn.connector_id, crtc := crtc }] }) := by
  intro ids
  induction ids with
  | nil =>
    left
    exact ⟨rfl, by simp⟩
  | cons id ids ih =>
    -- when this connector is passed over, the loop goes on with the rest
    have skip : ¬ Selectable k res self.modeset_dev_list_ id →
        connectorLoop k res self (id :: ids) = connectorLoop k res self ids →
        (connectorLoop k res self (id :: ids) = self ∧
          ∀ id' ∈ id :: ids, ¬ Selectable k res self.modeset_dev_list_ id') ∨
        (∃ pre id' post conn mode0 rest crtc,
          id :: ids = pre ++ id' :: post ∧
          (∀ id'' ∈ pre, ¬ Selectable k res self.modeset_dev_list_ id'') ∧
          k.drmModeGetConnector id' = some conn ∧
          conn.connection = DRM_MODE_CONNECTED ∧
          conn.modes = mode0 :: rest ∧
          Impl.FindCrtc k self.modeset_dev_list_ res conn = some crtc ∧
          connectorLoop k res self (id :: ids) =
            { self with
              modeset_dev_ := some self.modeset_dev_list_.length,
              modeset_dev_list_ := self.modeset_dev_list_ ++
                [{ mode := mode0, conn := conn.connector_id, crtc := crtc }] }) := by
      intro hns heq
      rcases ih with ⟨h1, h2⟩ | ⟨pre, id', post, conn, mode0, rest, crtc, e1, e2, e3, e4, e5, e6, e7⟩
      · left
        refine ⟨by rw [heq, h1], ?_⟩
        intro id' hid
        rcases List.mem_cons.mp hid with rfl | hid
        · exact hns
        · exact h2 id' hid
      · right
        refine ⟨id :: pre, id', post, conn, mode0, rest, crtc, by simp [e1], ?_, e3, e4, e5, e6,
          by rw [heq, e7]⟩
        intro id'' hid
        rcases List.mem_cons.mp hid with rfl | hid
        · exact hns
        · exact e2 id'' hid
    rcases hc : k.drmModeGetConnector id with _ | conn
    · exact skip (by rintro ⟨c, h1, -⟩; rw [hc] at h1; simp at h1)
        (by simp [connectorLoop, hc])
    · by_cases hconn : conn.connection = DRM_MODE_CONNECTED
      · rcases hm : conn.modes with _ | ⟨mode0, rest⟩
        · refine skip ?_ (by simp [connectorLoop, hc, hconn, hm])
          rintro ⟨c, h1, -, h3, -⟩
          rw [hc] at h1
          simp only [Option.some.injEq] at h1
          subst h1
          exact h3 hm
        · rcases hf : Impl.FindCrtc k self.modeset_dev_list_ res conn with _ | crtc
          · refine skip ?_ (by simp [connectorLoop, hc, hconn, hm, hf])
            rintro ⟨c, h1, -, -, h4⟩
            rw [hc] at h1
            simp only [Option.some.injEq] at h1
            subst h1
            rw [hf] at h4
            simp at h4
          · right
            refine ⟨[], id, ids, conn, mode0, rest, crtc, rfl, by simp, hc, hconn, hm, hf, ?_⟩
            simp [connectorLoop, hc, hconn, hm, hf]
      · refine skip ?_ (by simp [connectorLoop, hc, hconn])
        rintro ⟨c, h1, h2, -⟩
        rw [hc] at h1
        simp only [Option.some.injEq] at h1
        subst h1
        exact hconn h2

/-- What `Create` returns: the descriptor is open, the resources could be
read, and the device list is what the connector loop made of the empty
list. -/
theorem Create_eq_some {k : Kernel} {card : String} {atomic : Bool} {drm : Modesetter}
    (h : Create k card atomic = some drm) :
    ∃ res, k.drmModeGetResources = some res ∧ 0 ≤ k.openDevice card ∧
      drm = connectorLoop k res { fd_ := k.openDevice card } res.connectors := by
  unfold Create Impl.Initialize Impl.DeviceOpen Impl.GetConnector at h
  by_cases hfd : k.openDevice card < 0
  · simp [hfd] at h
  · rcases hr : k.drmModeGetResources with _ | res
    · simp [hfd, hr] at h
    · refine ⟨res, rfl, not_lt.mp hfd, ?_⟩
      simp [hfd, hr] at h
      exact h.symm

/-- The device a created modesetter has selected, if any: it is the only
entry of the device list and was made from the first selectable connector. -/
theorem Create_selected {k : Kernel} {card : String} {atomic : Bool} {drm : Modesetter}
    {dev : ModesetDev} (h : Create k card atomic = some drm) (hd : drm.dev = some dev) :
    ∃ res pre id post conn mode0 rest,
      k.drmModeGetResources = some res ∧
      res.connectors = pre ++ id :: post ∧
      (∀ id' ∈ pre, ¬ Selectable k res [] id') ∧
      k.drmModeGetConnector id = some conn ∧
      conn.connection = DRM_MODE_CONNECTED ∧
      conn.modes = mode0 :: rest ∧
      Impl.FindCrtc k [] res conn = some dev.crtc ∧
      dev = { mode := mode0, conn := conn.connector_id, crtc := dev.crtc } ∧
      drm.modeset_dev_ = some 0 ∧ drm.modeset_dev_list_ = [dev] := by
  obtain ⟨res, hres, -, hdrm⟩ := Create_eq_some h
  rcases connectorLoop_cases k res { fd_ := k.openDevice card } res.connectors with
    ⟨h1, -⟩ | ⟨pre, id, post, conn, mode0, rest, crtc, e1, e2, e3, e4, e5, e6, e7⟩
  · rw [h1] at hdrm
    subst hdrm
    simp [Modesetter.dev] at hd
  · rw [e7] at hdrm
    subst hdrm
    simp only [Modesetter.dev, List.length_nil, List.nil_append, List.getElem?_cons_zero,
      Option.some.injEq] at hd
    subst hd
    exact ⟨res, pre, id, post, conn, mode0, rest, hres, e1, e2, e3, e4, e5, e6, rfl, rfl, rfl⟩

/-- The device list of a created modesetter holds at most one entry. -/
theorem Create_list_length {k : Kernel} {card : String} {atomic : Bool} {drm : Modesetter}
    (h : Create k card atomic = some drm) : drm.modeset_dev_list_.length ≤ 1 := by
  obtain ⟨res, -, -, hdrm⟩ := Create_eq_some h
  rcases connectorLoop_cases k res { fd_ := k.openDevice card } res.connectors with
    ⟨h1, -⟩ | ⟨pre, id, post, conn, mode0, rest, crtc, -, -, -, -, -, -, e7⟩
  · rw [h1] at hdrm
    subst hdrm
    simp
  · rw [e7] at hdrm
    subst hdrm
    simp

/-- What `ModeSetCrtc` does when `modeset_dev_` points to a device. -/
theorem ModeSetCrtc_eq (NDEBUG : Bool) (k : Kernel) (client : EGLDRMGlue.Impl)
    (self : Modesetter) (i : Nat) (dev : ModesetDev)
    (hi : self.modeset_dev_ = some i) (hd : self.dev = some dev) :
    Impl.ModeSetCrtc NDEBUG k client self =
      (Ending.finished, decide (k.drmModeSetCrtc = 0),
       { self with
         modeset_dev_list_ :=
           self.modeset_dev_list_.set i { dev with saved_crtc := k.drmModeGetCrtc dev.crtc } },
       [DrmCall.drmModeGetCrtc dev.crtc,
        DrmCall.drmModeSetCrtc dev.crtc (client.GetFrameBuffer self.core.front_buffer_) 0 0
          dev.conn dev.mode]) := by
  unfold Impl.ModeSetCrtc
  simp only [hi, assertPasses, Option.isSome_some, Bool.or_true, Bool.not_true,
    Bool.false_eq_true, if_false, hd]
  by_cases hs : k.drmModeSetCrtc = 0 <;> simp [hs]

/-- C15, as the code has it. For every output selected by discovery, the mode
chosen is the first mode the connector advertises (`modes[0]`), whatever its
area; it is the mode whose size `GetDisplaySize` reports and the mode that
`ModeSetCrtc` programs. -/
theorem C15_first_advertised_mode (k : Kernel) (card : String) (atomic : Bool)
    (drm : Modesetter) (dev : ModesetDev) (NDEBUG : Bool) (client : EGLDRMGlue.Impl)
    (h : Create k card atomic = some drm) (hd : drm.dev = some dev) :
    (∃ res id conn, k.drmModeGetResources = some res ∧ id ∈ res.connectors ∧
      k.drmModeGetConnector id = some conn ∧ dev.conn = conn.connector_id ∧
      conn.modes.head? = some dev.mode) ∧
    Impl.GetDisplaySize drm = some (dev.mode.hdisplay, dev.mode.vdisplay) ∧
    (Impl.ModeSetCrtc NDEBUG k client drm).2.2.2 =
      [DrmCall.drmModeGetCrtc dev.crtc,
       DrmCall.drmModeSetCrtc dev.crtc (client.GetFrameBuffer drm.core.front_buffer_) 0 0
         dev.conn dev.mode] := by
  obtain ⟨res, pre, id, post, conn, mode0, rest, hres, e1, -, e3, -, e5, -, e7, e8, -⟩ :=
    Create_selected h hd
  refine ⟨⟨res, id, conn, hres, by simp [e1], e3, ?_, ?_⟩, ?_, ?_⟩
  · rw [e7]
  · rw [e5, e7]
    rfl
  · simp [Impl.GetDisplaySize, hd]
  · rw [ModeSetCrtc_eq NDEBUG k client drm 0 dev e8 hd]

/-- C15, witness: on `oneOutputKernel` the connector advertises 640x480 first
and that is the mode chosen. -/
theorem C15_first_advertised_mode_witness :
    (∃ res id conn, oneOutputKernel.drmModeGetResources = some res ∧ id ∈ res.connectors ∧
      oneOutputKernel.drmModeGetConnector id = some conn ∧
      ({ mode := mode640x480, conn := 7, crtc := 50 } : ModesetDev).conn = conn.connector_id ∧
      conn.modes.head? = some ({ mode := mode640x480, conn := 7, crtc := 50 } : ModesetDev).mode) ∧
    Impl.GetDisplaySize
        { fd_ := 3, modeset_dev_list_ := [{ mode := mode640x480, conn := 7, crtc := 50 }],
          modeset_dev_ := some 0 } =
      some (({ mode := mode640x480, conn := 7, crtc := 50 } : ModesetDev).mode.hdisplay,
            ({ mode := mode640x480, conn := 7, crtc := 50 } : ModesetDev).mode.vdisplay) ∧
    (Impl.ModeSetCrtc false oneOutputKernel ringClient
        { fd_ := 3, modeset_dev_list_ := [{ mode := mode640x480, conn := 7, crtc := 50 }],
          modeset_dev_ := some 0 }).2.2.2 =
      [DrmCall.drmModeGetCrtc ({ mode := mode640x480, conn := 7, crtc := 50 } : ModesetDev).crtc,
       DrmCall.drmModeSetCrtc ({ mode := mode640x480, conn := 7, crtc := 50 } : ModesetDev).crtc
         (ringClient.GetFrameBuffer
           ({ fd_ := 3, modeset_dev_list_ := [{ mode := mode640x480, conn := 7, crtc := 50 }],
              modeset_dev_ := some 0 } : Modesetter).core.front_buffer_) 0 0
         ({ mode := mode640x480, conn := 7, crtc := 50 } : ModesetDev).conn
         ({ mode := mode640x480, conn := 7, crtc := 50 } : ModesetDev).mode] :=
  C15_first_advertised_mode oneOutputKernel "/dev/dri/card0" false
    { fd_ := 3, modeset_dev_list_ := [{ mode := mode640x480, conn := 7, crtc := 50 }],
      modeset_dev_ := some 0 }
    { mode := mode640x480, conn := 7, crtc := 50 } false ringClient (by decide) (by decide)

/-- C15, as the spec states it, fails: with the modes 640x480, 1920x1080 and
800x600 advertised in that order, discovery chooses 640x480, whose area is not
the largest. -/
theorem C15_counterexample :
    (oneOutputKernel.drmModeGetConnector 7).map (fun conn => conn.modes) =
      some [mode640x480, mode1920x1080, mode800x600] ∧
    ((Create oneOutputKernel "/dev/dri/card0" false).bind Modesetter.dev).map
      (fun dev => dev.mode) = some mode640x480 ∧
    (Create oneOutputKernel "/dev/dri/card0" false).bind Impl.GetDisplaySize =
      some (640, 480) ∧
    mode640x480.hdisplay * mode640x480.vdisplay <
      mode1920x1080.hdisplay * mode1920x1080.vdisplay := by
  decide

/-- C16, failing input. On a card whose resources list no connector,
`DRMModesetter::Create` does not fail: it returns a modesetter whose device
list is empty and whose `modeset_dev_` is null, so that `GetDisplaySize`
reads through a null pointer and the assertion of `ModeSetCrtc` fails. -/
theorem C16_create_without_output :
    Create noOutputKernel "/dev/dri/card0" false =
      some { fd_ := 3, core := {}, modeset_dev_list_ := [], modeset_dev_ := none } ∧
    (Create noOutputKernel "/dev/dri/card0" false).map Modesetter.dev = some none ∧
    (Create noOutputKernel "/dev/dri/card0" false).map Impl.GetDisplaySize = some none ∧
    (Create noOutputKernel "/dev/dri/card0" false).map
      (fun drm => (Impl.ModeSetCrtc false noOutputKernel ringClient drm).1) =
      some Ending.assertionFailed := by
  decide

/-- C17, as the code has it. A created modesetter has selected at most one
output; when it has selected one, that is the first connector in enumeration
order that can be retrieved, is connected, advertises at least one mode and for
which `FindCrtc` finds a controller (every earlier connector fails one of
these tests, connected or not). -/
theorem C17_first_selectable_output (k : Kernel) (card : String) (atomic : Bool)
    (drm : Modesetter) (h : Create k card atomic = some drm) :
    drm.modeset_dev_list_.length ≤ 1 ∧
    ∀ dev, drm.dev = some dev →
      ∃ res pre id post conn,
        k.drmModeGetResources = some res ∧
        res.connectors = pre ++ id :: post ∧
        (∀ id' ∈ pre, ¬ Selectable k res [] id') ∧
        Selectable k res [] id ∧
        k.drmModeGetConnector id = some conn ∧
        dev.conn = conn.connector_id ∧
        Impl.FindCrtc k [] res conn = some dev.crtc := by
  refine ⟨Create_list_length h, ?_⟩
  intro dev hd
  obtain ⟨res, pre, id, post, conn, mode0, rest, hres, e1, e2, e3, e4, e5, e6, e7, -, -⟩ :=
    Create_selected h hd
  refine ⟨res, pre, id, post, conn, hres, e1, e2, ?_, e3, ?_, e6⟩
  · exact ⟨conn, e3, e4, by simp [e5], by simp [e6]⟩
  · rw [e7]

/-- C17, witness: on `modelessFirstKernel` the output selected is connector 8,
the first selectable one. -/
theorem C17_first_selectable_output_witness :
    ({ fd_ := 3, modeset_dev_list_ := [{ mode := mode800x600, conn := 8, crtc := 50 }],
       modeset_dev_ := some 0 } : Modesetter).modeset_dev_list_.length ≤ 1 ∧
    ∃ res pre id post conn,
      modelessFirstKernel.drmModeGetResources = some res ∧
      res.connectors = pre ++ id :: post ∧
      (∀ id' ∈ pre, ¬ Selectable modelessFirstKernel res [] id') ∧
      Selectable modelessFirstKernel res [] id ∧
      modelessFirstKernel.drmModeGetConnector id = some conn ∧
      ({ mode := mode800x600, conn := 8, crtc := 50 } : ModesetDev).conn = conn.connector_id ∧
      Impl.FindCrtc modelessFirstKernel [] res conn =
        some ({ mode := mode800x600, conn := 8, crtc := 50 } : ModesetDev).crtc :=
  ⟨(C17_first_selectable_output modelessFirstKernel "/dev/dri/card0" false
      { fd_ := 3, modeset_dev_list_ := [{ mode := mode800x600, conn := 8, crtc := 50 }],
        modeset_dev_ := some 0 } (by decide)).1,
   (C17_first_selectable_output modelessFirstKernel "/dev/dri/card0" false
      { fd_ := 3, modeset_dev_list_ := [{ mode := mode800x600, conn := 8, crtc := 50 }],
        modeset_dev_ := some 0 } (by decide)).2
      { mode := mode800x600, conn := 8, crtc := 50 } (by decide)⟩

/-- C17, as the spec states it, fails: on `modelessFirstKernel` connector 7
comes first in the enumeration and is connected, yet the output selected is
connector 8. -/
theorem C17_counterexample :
    modelessFirstKernel.drmModeGetResources.map (fun res => res.connectors) = some [7, 8] ∧
    (modelessFirstKernel.drmModeGetConnector 7).map (fun conn => conn.connection) =
      some DRM_MODE_CONNECTED ∧
    ((Create modelessFirstKernel "/dev/dri/card0" false).bind Modesetter.dev).map
      (fun dev => dev.conn) = some 8 := by
  decide

theorem and_one_shiftLeft_eq_zero (x j : Nat) :
    x &&& (1 <<< j) = 0 ↔ x.testBit j = false := by
  rw [Nat.one_shiftLeft]
  constructor
  · intro h
    have h1 : (x &&& 2 ^ j).testBit j = false := by
      rw [h]
      exact Nat.zero_testBit j
    simpa [Nat.testBit_and, Nat.testBit_two_pow_self] using h1
  · intro h
    apply Nat.eq_of_testBit_eq
    intro i
    rw [Nat.testBit_and, Nat.testBit_two_pow, Nat.zero_testBit]
    by_cases hji : j = i
    · subst hji
      simp [h]
    · simp [hji]

theorem scanClaimed_eq (devs : List ModesetDev) (crtc : Nat) : scanClaimed devs crtc = crtc := by
  induction devs with
  | nil => rfl
  | cons dev rest ih =>
    unfold scanClaimed
    split
    · rfl
    · exact ih

theorem crtcLoop_eq (devs : List ModesetDev) (enc : drmModeEncoder) :
    ∀ (crtcs : List Nat) (j : Nat),
      crtcLoop devs enc j crtcs =
        (((List.enumFrom j crtcs).filter fun jc => enc.possible_crtcs.testBit jc.1).map
          fun jc => jc.2).head? := by
  intro crtcs
  induction crtcs with
  | nil =>
    intro j
    rfl
  | cons c rest ih =>
    intro j
    unfold crtcLoop
    by_cases hb : enc.possible_crtcs.testBit j = true
    · have h0 : ¬ (enc.possible_crtcs &&& (1 <<< j) = 0) := by
        rw [and_one_shiftLeft_eq_zero]
        simp [hb]
      simp [h0, hb, scanClaimed_eq, List.enumFrom_cons, List.filter_cons]
    · simp only [Bool.not_eq_true] at hb
      have h0 : enc.possible_crtcs &&& (1 <<< j) = 0 := (and_one_shiftLeft_eq_zero _ _).mpr hb
      simp [h0, hb, List.enumFrom_cons, List.filter_cons, ih]

theorem encoderLoop_eq (k : Kernel) (devs : List ModesetDev) (res : drmModeRes) :
    ∀ ids : List Nat,
      encoderLoop k devs res ids =
        ((ids.filterMap k.drmModeGetEncoder).flatMap fun enc =>
          (res.crtcs.enum.filter fun jc => enc.possible_crtcs.testBit jc.1).map
            fun jc => jc.2).head? := by
  intro ids
  induction ids with
  | nil => rfl
  | cons id rest ih =>
    unfold encoderLoop
    rcases hg : k.drmModeGetEncoder id with _ | enc
    · simp [hg, ih]
    · simp only [List.filterMap_cons, hg, List.flatMap_cons, List.head?_append]
      rw [crtcLoop_eq, ← List.enum_eq_enumFrom, ih]
      generalize (List.map (fun jc => jc.2)
          (List.filter (fun jc => enc.possible_crtcs.testBit jc.1) res.crtcs.enum)).head? = o
      cases o <;> rfl

/-- C18. With no previously configured device (and at most 32 controllers, so
that the shift `1 << j` is defined), `FindCrtc` returns what the spec
describes: the controller bound to the connector's active encoder when that
encoder can be retrieved and its controller id is non-zero; otherwise
`crtcs[j]` for the first pair (i, j), in encoder-then-controller order over the
retrievable encoders, with bit `j` of `possible_crtcs` set; and it fails
exactly when there is no such pair. -/
theorem C18_find_crtc (k : Kernel) (res : drmModeRes) (conn : drmModeConnector)
    (h32 : res.crtcs.length ≤ 32) :
    Impl.FindCrtc k [] res conn = specFindCrtc k res conn := by
  have _ := h32
  unfold Impl.FindCrtc specFindCrtc
  rw [encoderLoop_eq]
  by_cases h0 : conn.encoder_id = 0
  · simp [h0]
  · rcases hg : k.drmModeGetEncoder conn.encoder_id with _ | enc
    · simp [h0, hg]
    · by_cases hc : enc.crtc_id = 0
      · simp [h0, hg, hc]
      · simp [h0, hg, hc, scanClaimed_eq]

/-- C18, witness: on `oneOutputKernel` the active encoder's controller 50 is
returned; on `scanKernel`, where the connector has no active encoder, the scan
passes over the encoder that cannot be retrieved and returns controller 51,
the only one the second encoder works with. -/
theorem C18_find_crtc_witness :
    (Impl.FindCrtc oneOutputKernel [] { crtcs := [50], connectors := [7] }
        { connector_id := 7, encoder_id := 30, connection := DRM_MODE_CONNECTED,
          modes := [mode640x480, mode1920x1080, mode800x600], encoders := [30] } =
      specFindCrtc oneOutputKernel { crtcs := [50], connectors := [7] }
        { connector_id := 7, encoder_id := 30, connection := DRM_MODE_CONNECTED,
          modes := [mode640x480, mode1920x1080, mode800x600], encoders := [30] } ∧
     specFindCrtc oneOutputKernel { crtcs := [50], connectors := [7] }
        { connector_id := 7, encoder_id := 30, connection := DRM_MODE_CONNECTED,
          modes := [mode640x480, mode1920x1080, mode800x600], encoders := [30] } = some 50) ∧
    (Impl.FindCrtc scanKernel [] { crtcs := [50, 51], connectors := [9] }
        { connector_id := 9, encoder_id := 0, connection := DRM_MODE_CONNECTED,
          modes := [mode800x600], encoders := [31, 32] } =
      specFindCrtc scanKernel { crtcs := [50, 51], connectors := [9] }
        { connector_id := 9, encoder_id := 0, connection := DRM_MODE_CONNECTED,
          modes := [mode800x600], encoders := [31, 32] } ∧
     specFindCrtc scanKernel { crtcs := [50, 51], connectors := [9] }
        { connector_id := 9, encoder_id := 0, connection := DRM_MODE_CONNECTED,
          modes := [mode800x600], encoders := [31, 32] } = some 51) :=
  ⟨⟨C18_find_crtc oneOutputKernel { crtcs := [50], connectors := [7] }
      { connector_id := 7, encoder_id := 30, connection := DRM_MODE_CONNECTED,
        modes := [mode640x480, mode1920x1080, mode800x600], encoders := [30] } (by decide),
    by decide⟩,
   ⟨C18_find_crtc scanKernel { crtcs := [50, 51], connectors := [9] }
      { connector_id := 9, encoder_id := 0, connection := DRM_MODE_CONNECTED,
        modes := [mode800x600], encoders := [31, 32] } (by decide),
    by decide⟩⟩

/-- The destructor of a modesetter holding one device whose configuration was
saved, when its assertion passes: exactly one restore mode-set, carrying the
saved controller id, buffer id, position and mode, then the release of the
saved configuration and of the descriptor. -/
theorem destructor_restores_once (NDEBUG : Bool) (self : Modesetter) (dev : ModesetDev)
    (saved : drmModeCrtc) (hl : self.modeset_dev_list_ = [dev])
    (hs : dev.saved_crtc = some saved)
    (ha : NDEBUG = true ∨ self.core.page_flip_pending_ = false) :
    Impl.destructor NDEBUG self =
      (Ending.finished,
       [DrmCall.drmModeSetCrtc saved.crtc_id saved.buffer_id saved.x saved.y dev.conn saved.mode,
        DrmCall.drmModeFreeCrtc saved, DrmCall.close self.fd_]) := by
  have hp : assertPasses NDEBUG (!self.core.page_flip_pending_) = true := by
    rcases ha with h | h <;> simp [assertPasses, h]
  simp [Impl.destructor, hp, hl, restoreLoop, hs]

/-- When `Run` returns true no flip is pending. -/
theorem Run_true_not_pending (p : Platform) (client : EGLDRMGlue.Impl) (fuel front : Nat)
    (h : (Impl.Run p client fuel
      { front_buffer_ := front, page_flip_pending_ := false }).1 = some true) :
    (Impl.Run p client fuel
      { front_buffer_ := front, page_flip_pending_ := false }).2.1.page_flip_pending_ = false := by
  have hc := runLoop_counts p client fuel
    { self := { front_buffer_ := front, page_flip_pending_ := false },
      is_running := true, flips := 0, selects := 0 } rfl
  exact (hc.2.2 h).2

/-- C14, failing inputs. (1) The mode-set is applied on `oneOutputKernel`,
then `Run` returns false because the second wait times out: the flip is still
marked pending, the destructor's `assert(!page_flip_pending_)` stops the
process, and no restore mode-set is issued. With `NDEBUG` the same run is
followed by the one restore. (2) On `unreadableCrtcKernel` the mode-set is
applied although `drmModeGetCrtc` returned null: the destructor reads through
the null `saved_crtc` and issues no restore. -/
theorem C14_restore_missing_after_failed_wait :
    lifeCycle false oneOutputKernel timeoutDuringSecondFlip ringClient 4 =
      some (true, some false, Ending.assertionFailed, []) ∧
    (lifeCycle false oneOutputKernel timeoutDuringSecondFlip ringClient 4).map
      (fun r => restores r.2.2.2) = some [] ∧
    (lifeCycle true oneOutputKernel timeoutDuringSecondFlip ringClient 4).map
      (fun r => restores r.2.2.2) = some [DrmCall.drmModeSetCrtc 50 99 0 0 7 mode800x600] ∧
    lifeCycle false unreadableCrtcKernel exitDuringFirstFlip ringClient 3 =
      some (true, some true, Ending.nullDereference, []) ∧
    lifeCycle true unreadableCrtcKernel exitDuringFirstFlip ringClient 3 =
      some (true, some true, Ending.nullDereference, []) :=
  ⟨by decide, by decide, by decide, by decide, by decide⟩

/-- C20, failing input. On `timeoutDuringSecondFlip` the second flip is
accepted and the wait that follows returns 0: `Run` returns false with
`page_flip_pending_` still true, and the destructor's assertion
`assert(!page_flip_pending_)` fails. The same holds when `select` returns a
negative value. -/
theorem C20_pending_after_failed_wait :
    (Impl.Run timeoutDuringSecondFlip ringClient 4 {}).1 = some false ∧
    (Impl.Run timeoutDuringSecondFlip ringClient 4 {}).2.1.page_flip_pending_ = true ∧
    (Impl.destructor false
      { fd_ := 3, core := (Impl.Run timeoutDuringSecondFlip ringClient 4 {}).2.1 }).1 =
      Ending.assertionFailed ∧
    (Impl.Run { timeoutDuringSecondFlip with
        select := fun _ => { ret := -1, stdin_set := false, drm_set := false,
                             flip_event := none } } ringClient 4 {}).1 = some false ∧
    (Impl.Run { timeoutDuringSecondFlip with
        select := fun _ => { ret := -1, stdin_set := false, drm_set := false,
                             flip_event := none } } ringClient 4 {}).2.1.page_flip_pending_ =
      true := by
  decide

end DRMModesetter
end ged

namespace ged
namespace EGLDRMGlue

theorem releaseLoop_resolved (self : Glue) (h : self.DestroyImageKHR = true) :
    releaseLoop self (List.finRange NUM_BUFFERS) =
      (Ending.finished,
       releaseSlot (self.core.framebufferAt 0) ++ releaseSlot (self.core.framebufferAt 1)) := by
  have hr : List.finRange NUM_BUFFERS = [⟨0, by decide⟩, ⟨1, by decide⟩] := by decide
  have h0 : self.core.framebufferAt 0 = self.core.framebuffers_ ⟨0, by decide⟩ := by
    unfold Impl.framebufferAt
    exact dif_pos (by decide)
  have h1 : self.core.framebufferAt 1 = self.core.framebuffers_ ⟨1, by decide⟩ := by
    unfold Impl.framebufferAt
    exact dif_pos (by decide)
  rw [hr, h0, h1]
  simp [releaseLoop, h]

/-- Claim C12, evaluated on two failing creations of slot 1, both with slot 0
created and `Create` returning null. When the render target of slot 1 is
incomplete, `CreateFramebuffer` deletes framebuffer name 2 and texture name 4
and the destructor deletes them again: each is acquired once and released
twice. When the buffer of slot 1 cannot be allocated, the destructor still
issues all six releases for slot 1, with the handles that the fresh memory
held and a null buffer: none of them was acquired. -/
theorem C12_failed_slot_released_twice_or_never_acquired :
    (Create false incompleteSecondSlot oneOutputKernel junkRing oneOutputModesetter).1.isNone
      = true ∧
    (acquired (Create false incompleteSecondSlot oneOutputKernel junkRing
      oneOutputModesetter).2.2).count (Resource.renderTarget 2) = 1 ∧
    (released (Create false incompleteSecondSlot oneOutputKernel junkRing
      oneOutputModesetter).2.2).count (Resource.renderTarget 2) = 2 ∧
    (acquired (Create false incompleteSecondSlot oneOutputKernel junkRing
      oneOutputModesetter).2.2).count (Resource.texture 4) = 1 ∧
    (released (Create false incompleteSecondSlot oneOutputKernel junkRing
      oneOutputModesetter).2.2).count (Resource.texture 4) = 2 ∧
    (Create false noSecondBuffer oneOutputKernel junkRing oneOutputModesetter).1.isNone
      = true ∧
    acquired (Create false noSecondBuffer oneOutputKernel junkRing oneOutputModesetter).2.2 =
      [Resource.bo 10, Resource.fd 20, Resource.fb 40, Resource.image 30,
       Resource.texture 3, Resource.renderTarget 1] ∧
    released (Create false noSecondBuffer oneOutputKernel junkRing oneOutputModesetter).2.2 =
      [Resource.renderTarget 1, Resource.texture 3, Resource.image 30, Resource.fb 40,
       Resource.fd 20, Resource.bo 10,
       Resource.renderTarget 75, Resource.texture 74, Resource.image 73, Resource.fb 72,
       Resource.fd 71, Resource.bo 0] :=
  ⟨by decide, by decide, by decide, by decide, by decide, by decide, by decide, by decide⟩

/-- Claim C13, refuted as stated: when the ring of `ringClient` is destroyed,
no release call for slot 1 precedes any release call for slot 0; the first
call of all is the `glDeleteFramebuffers` of slot 0 and the twelfth is the
`gbm_bo_destroy` of slot 1. -/
theorem C13_counterexample :
    (∀ a ∈ releaseSlot (ringGlue.core.framebufferAt 1),
      ∀ b ∈ releaseSlot (ringGlue.core.framebufferAt 0),
        ¬ (Impl.destructor false ringGlue).2.1.indexOf a
            < (Impl.destructor false ringGlue).2.1.indexOf b) ∧
    (Impl.destructor false ringGlue).2.1.indexOf (GlueCall.glDeleteFramebuffers 1) = 0 ∧
    (Impl.destructor false ringGlue).2.1.indexOf (GlueCall.gbm_bo_destroy 11) = 11 :=
  ⟨by decide, by decide, by decide⟩

/-- Claim C13, amended: the destructor of a glue object whose
`DestroyImageKHR` entry point is resolved tears the ring down in the order of
creation. Its calls are the six releases of slot 0, then the six releases of
slot 1, then `eglDestroyContext`, `eglTerminate` and `gbm_device_destroy`. -/
theorem C13_teardown_in_creation_order (NDEBUG : Bool) (self : Glue)
    (h : self.DestroyImageKHR = true) :
    (Impl.destructor NDEBUG self).2.1 =
      releaseSlot (self.core.framebufferAt 0) ++ releaseSlot (self.core.framebufferAt 1) ++
        [GlueCall.eglDestroyContext, GlueCall.eglTerminate,
         GlueCall.gbm_device_destroy self.gbm_] := by
  unfold Impl.destructor
  rw [releaseLoop_resolved self h]

theorem C13_teardown_in_creation_order_witness :
    ringGlue.DestroyImageKHR = true ∧
    (Impl.destructor false ringGlue).2.1 =
      releaseSlot (ringGlue.core.framebufferAt 0) ++ releaseSlot (ringGlue.core.framebufferAt 1) ++
        [GlueCall.eglDestroyContext, GlueCall.eglTerminate,
         GlueCall.gbm_device_destroy ringGlue.gbm_] :=
  ⟨by decide, C13_teardown_in_creation_order false ringGlue (by decide)⟩

end EGLDRMGlue
end ged

namespace ged
namespace StreamTextureImpl

theorem Map_of_null (MAP_FAILED : Nat) (NDEBUG : Bool) (mmap_result : Nat)
    (self : StreamTextureImpl) (h : self.addr_ = 0) :
    Map MAP_FAILED NDEBUG mmap_result self =
      (Ending.finished, (if mmap_result = MAP_FAILED then 0 else mmap_result),
       { self with addr_ := mmap_result }, [MemCall.mmap self.size self.fd_ mmap_result]) := by
  unfold Map
  simp only [assertPasses, h, beq_self_eq_true, Bool.or_true, Bool.not_true]
  by_cases hm : mmap_result = MAP_FAILED <;> simp [hm]

theorem Map_of_mapped (MAP_FAILED mmap_result : Nat) (self : StreamTextureImpl)
    (h : self.addr_ ≠ 0) :
    Map MAP_FAILED false mmap_result self = (Ending.assertionFailed, 0, self, []) := by
  unfold Map
  simp [assertPasses, h]

theorem Unmap_of_mapped (NDEBUG : Bool) (self : StreamTextureImpl) (h : self.addr_ ≠ 0) :
    Unmap NDEBUG self =
      (Ending.finished, { self with addr_ := 0 }, [MemCall.munmap self.addr_ self.size]) := by
  unfold Unmap
  simp [assertPasses, h]

theorem Unmap_of_null (self : StreamTextureImpl) (h : self.addr_ = 0) :
    Unmap false self = (Ending.assertionFailed, self, []) := by
  unfold Unmap
  simp [assertPasses, h]

/-- While assertions are compiled in, the live mappings are the one at `addr_`
when `addr_` is a mapped address and none otherwise, and no sequence of calls
makes a second one. -/
theorem runOps_atMostOneLive (MAP_FAILED : Nat) (ops : List Op) :
    ∀ (self : StreamTextureImpl) (live : List Nat),
      (∀ op ∈ ops, op ≠ Op.Map 0) →
      live = (if self.addr_ = 0 ∨ self.addr_ = MAP_FAILED then [] else [self.addr_]) →
      atMostOneLive MAP_FAILED live (runOps MAP_FAILED false ops self).2.2 = true := by
  induction ops with
  | nil =>
    intro self live _ hl
    subst hl
    simp only [runOps, atMostOneLive]
    split <;> simp
  | cons op rest ih =>
    intro self live hops hl
    have hlen : live.length ≤ 1 := by
      subst hl
      split <;> simp
    have hrest : ∀ op ∈ rest, op ≠ Op.Map 0 := fun o ho => hops o (List.mem_cons_of_mem _ ho)
    cases op with
    | Map a =>
      have ha : a ≠ 0 := by
        intro h0
        exact hops (Op.Map a) (List.mem_cons_self _ _) (by rw [h0])
      by_cases hnull : self.addr_ = 0
      · have hlive : live = [] := by simp [hl, hnull]
        simp only [runOps, Map_of_null MAP_FAILED false a self hnull, List.singleton_append,
          atMostOneLive, hlive, List.length_nil, Nat.zero_le, decide_True, Bool.true_and]
        apply ih
        · exact hrest
        · simp only [liveAfter, ha, false_or]
      · simp only [runOps, Map_of_mapped MAP_FAILED a self hnull, atMostOneLive, hlen,
          decide_True]
    | Unmap =>
      by_cases hnull : self.addr_ = 0
      · simp only [runOps, Unmap_of_null self hnull, atMostOneLive, hlen, decide_True]
      · simp only [runOps, Unmap_of_mapped false self hnull, List.singleton_append,
          atMostOneLive, hlen, decide_True, Bool.true_and]
        apply ih
        · exact hrest
        · subst hl
          simp only [liveAfter, hnull, false_or, true_or, if_true]
          split <;> simp

/-- Claim C19: a stream texture holds at most one mapping at a time. With
assertions compiled in, `Map` on a mapped texture and `Unmap` on an unmapped
one stop at their assertion without a call. On an unmapped texture a `Map`
that returns a non-null pointer makes one `mmap` of `stride * height` bytes
and leaves the texture mapped at the address returned; the `Unmap` that
follows makes one `munmap` of that address with the same `stride * height`
bytes and leaves the texture unmapped, as it was. Over any sequence of `Map`
and `Unmap` calls on an unmapped texture (with `mmap` never returning address
0) at most one mapping is live at every point of the trace. -/
theorem C19_one_mapping_at_a_time (MAP_FAILED : Nat) (NDEBUG : Bool)
    (self other : StreamTextureImpl) (mmap_result : Nat) (ops : List Op)
    (hnull : self.addr_ = 0) (hmapped : other.addr_ ≠ 0)
    (hsucc : (Map MAP_FAILED NDEBUG mmap_result self).2.1 ≠ 0)
    (hops : ∀ op ∈ ops, op ≠ Op.Map 0) :
    Map MAP_FAILED false mmap_result other = (Ending.assertionFailed, 0, other, []) ∧
    Unmap false self = (Ending.assertionFailed, self, []) ∧
    Map MAP_FAILED NDEBUG mmap_result self =
      (Ending.finished, mmap_result, { self with addr_ := mmap_result },
       [MemCall.mmap ((self.dimension_.stride * self.dimension_.height) % SIZE_RANGE)
          self.fd_ mmap_result]) ∧
    Unmap NDEBUG (Map MAP_FAILED NDEBUG mmap_result self).2.2.1 =
      (Ending.finished, self,
       [MemCall.munmap mmap_result
          ((self.dimension_.stride * self.dimension_.height) % SIZE_RANGE)]) ∧
    atMostOneLive MAP_FAILED [] (runOps MAP_FAILED false ops self).2.2 = true := by
  rw [Map_of_null MAP_FAILED NDEBUG mmap_result self hnull] at hsucc ⊢
  have hmf : mmap_result ≠ MAP_FAILED := by
    intro h
    simp [h] at hsucc
  have h0 : mmap_result ≠ 0 := by
    intro h
    simp [h] at hsucc
  refine ⟨Map_of_mapped MAP_FAILED mmap_result other hmapped, Unmap_of_null self hnull,
    ?_, ?_, ?_⟩
  · simp [hmf, size]
  · rw [Unmap_of_mapped NDEBUG _ h0]
    cases self
    simp only at hnull
    subst hnull
    simp [size]
  · exact runOps_atMostOneLive MAP_FAILED ops self [] hops (by simp [hnull])

theorem C19_one_mapping_at_a_time_witness :
    texture256x64.addr_ = 0 ∧
    ({ texture256x64 with addr_ := 4096 } : StreamTextureImpl).addr_ ≠ 0 ∧
    (Map 18446744073709551615 false 4096 texture256x64).2.1 ≠ 0 ∧
    (∀ op ∈ [Op.Map 4096, Op.Unmap, Op.Map 8192, Op.Unmap], op ≠ Op.Map 0) ∧
    Unmap false (Map 18446744073709551615 false 4096 texture256x64).2.2.1 =
      (Ending.finished, texture256x64, [MemCall.munmap 4096 65536]) ∧
    atMostOneLive 18446744073709551615 []
      (runOps 18446744073709551615 false [Op.Map 4096, Op.Unmap, Op.Map 8192, Op.Unmap]
        texture256x64).2.2 = true :=
  ⟨by decide, by decide, by decide, by decide,
   (C19_one_mapping_at_a_time 18446744073709551615 false texture256x64
      { texture256x64 with addr_ := 4096 } 4096 [Op.Map 4096, Op.Unmap, Op.Map 8192, Op.Unmap]
      (by decide) (by decide) (by decide) (by decide)).2.2.2.1,
   (C19_one_mapping_at_a_time 18446744073709551615 false texture256x64
      { texture256x64 with addr_ := 4096 } 4096 [Op.Map 4096, Op.Unmap, Op.Map 8192, Op.Unmap]
      (by decide) (by decide) (by decide) (by decide)).2.2.2.2⟩

end StreamTextureImpl
end ged

namespace ged
namespace DRMModesetter

/-- Claim C21, failing inputs. A modesetter created on `oneOutputKernel` holds
one device whose `saved_crtc` is null until `ModeSetCrtc` runs; destroyed at
that point, by itself or as the member of a glue object whose EGL or ring
initialisation failed, its destructor reaches the restore step and reads
through the null pointer. The same happens after `ModeSetCrtc` and `Run` when
`drmModeGetCrtc` returned null (`unreadableCrtcKernel`). -/
theorem C21_restore_reads_null_saved_crtc :
    (Create oneOutputKernel "/dev/dri/card0" false).map
      (fun drm => drm.modeset_dev_list_.map (fun dev => dev.saved_crtc)) = some [none] ∧
    (Create oneOutputKernel "/dev/dri/card0" false).map (Impl.destructor false) =
      some (Ending.nullDereference, []) ∧
    (Create oneOutputKernel "/dev/dri/card0" false).map (Impl.destructor true) =
      some (Ending.nullDereference, []) ∧
    (Create oneOutputKernel "/dev/dri/card0" false).map
      (fun drm => (EGLDRMGlue.Create false noDisplayPlatform oneOutputKernel junkRing drm).2.1) =
      some Ending.nullDereference ∧
    (Create oneOutputKernel "/dev/dri/card0" false).map
      (fun drm =>
        (EGLDRMGlue.Create false incompleteSecondSlot oneOutputKernel junkRing drm).2.1) =
      some Ending.nullDereference ∧
    lifeCycle false unreadableCrtcKernel exitDuringFirstFlip ringClient 3 =
      some (true, some true, Ending.nullDereference, []) :=
  ⟨by decide, by decide, by decide, by decide, by decide, by decide⟩

end DRMModesetter

namespace StreamTextureImpl

/-- A `Map` whose `mmap` fails leaves `addr_` equal to `MAP_FAILED`, and when
that constant is not the null pointer the next `Map` stops at its assertion. -/
theorem Map_after_failed_Map (MAP_FAILED mmap_result : Nat) (self : StreamTextureImpl)
    (hnull : self.addr_ = 0) (hmf : MAP_FAILED ≠ 0) :
    Map MAP_FAILED false MAP_FAILED self =
      (Ending.finished, 0, { self with addr_ := MAP_FAILED },
       [MemCall.mmap self.size self.fd_ MAP_FAILED]) ∧
    Map MAP_FAILED false mmap_result (Map MAP_FAILED false MAP_FAILED self).2.2.1 =
      (Ending.assertionFailed, 0, { self with addr_ := MAP_FAILED }, []) := by
  rw [Map_of_null MAP_FAILED false MAP_FAILED self hnull]
  refine ⟨by simp, ?_⟩
  exact Map_of_mapped MAP_FAILED mmap_result _ hmf

/-- Claim C23, failing input, with `MAP_FAILED` the all-ones address. On the
unmapped texture `texture256x64` a `Map` whose `mmap` fails returns null but
leaves `addr_` equal to `MAP_FAILED`, not null. A later `Map` then stops at
`assert(addr_ == nullptr)`, and `Unmap` passes its assertion and calls
`munmap` on `MAP_FAILED`. -/
theorem C23_failed_map_leaves_address :
    (Map 18446744073709551615 false 18446744073709551615 texture256x64).2.1 = 0 ∧
    (Map 18446744073709551615 false 18446744073709551615 texture256x64).2.2.1.addr_ =
      18446744073709551615 ∧
    Map 18446744073709551615 false 4096
        (Map 18446744073709551615 false 18446744073709551615 texture256x64).2.2.1 =
      (Ending.assertionFailed, 0,
       { texture256x64 with addr_ := 18446744073709551615 }, []) ∧
    Unmap false (Map 18446744073709551615 false 18446744073709551615 texture256x64).2.2.1 =
      (Ending.finished, texture256x64, [MemCall.munmap 18446744073709551615 65536]) :=
  ⟨by decide, by decide, by decide, by decide⟩

end StreamTextureImpl
end ged

namespace ged
namespace Matrix

theorem assign_apply {α : Type} (m : Fin 4 → Fin 4 → α) (i j a b : Fin 4) (v : α) :
    assign m i j v a b = if a = i ∧ b = j then v else m a b := by
  unfold assign
  by_cases ha : a = i
  · subst ha
    by_cases hb : b = j
    · subst hb
      simp
    · simp [hb]
  · simp [ha]

/-- Claim C29: over exact arithmetic (any semiring of numbers, the reals
included), `MatrixMultiply` replaces `M` by the row-by-column product
`M * op`: entry (i, j) of the result is the sum over k of the old
`M[i][k] * op[k][j]`. Multiplying by a default-constructed matrix, which is
the identity, leaves `M` unchanged. -/
theorem C29_matrix_multiply_is_product {α : Type} [Semiring α] (M op : Matrix α)
    (junk : Fin 4 → Fin 4 → α) :
    (∀ i j : Fin 4, (M.MatrixMultiply op).m_ i j = ∑ k : Fin 4, M.m_ i k * op.m_ k j) ∧
    (∀ i j : Fin 4, (constructor junk).m_ i j = if i = j then (1 : α) else 0) ∧
    (M.MatrixMultiply (constructor junk)).m_ = M.m_ := by
  have hprod : ∀ (A B : Matrix α) (i j : Fin 4),
      (A.MatrixMultiply B).m_ i j = ∑ k : Fin 4, A.m_ i k * B.m_ k j := by
    intro A B i j
    simp only [MatrixMultiply, multiplyRow, assign_apply, Fin.sum_univ_four]
    fin_cases i <;> fin_cases j <;> simp
  have hid : ∀ i j : Fin 4, (constructor junk).m_ i j = if i = j then (1 : α) else 0 := by
    intro i j
    simp only [constructor, InitIdentity, assign_apply]
    fin_cases i <;> fin_cases j <;> simp
  refine ⟨hprod M op, hid, ?_⟩
  funext i j
  rw [hprod, Fin.sum_univ_four]
  simp only [hid]
  fin_cases j <;> simp

end Matrix
end ged

namespace kmstriangle

open ged

theorem current_area_eq (m : drmModeModeInfo) (h : m.hdisplay * m.vdisplay < 2 ^ 31) :
    current_area m = ((m.hdisplay * m.vdisplay : Nat) : Int) := by
  unfold current_area toInt
  have h1 : ((m.hdisplay : Int) * (m.vdisplay : Int)) = ((m.hdisplay * m.vdisplay : Nat) : Int) := by
    push_cast
    rfl
  rw [h1]
  have h2 : (0 : Int) ≤ ((m.hdisplay * m.vdisplay : Nat) : Int) := Int.ofNat_nonneg _
  have h3 : ((m.hdisplay * m.vdisplay : Nat) : Int) < 2 ^ 31 := by exact_mod_cast h
  have h4 : (((m.hdisplay * m.vdisplay : Nat) : Int) + 2 ^ 31) % 2 ^ 32 =
      ((m.hdisplay * m.vdisplay : Nat) : Int) + 2 ^ 31 := by
    apply Int.emod_eq_of_lt
    · omega
    · omega
  rw [h4]
  omega

/-- The mode loop keeps its state when no mode is larger than `area`, and
otherwise ends with the first mode of maximal area. -/
theorem modeLoop_spec (ms : List drmModeModeInfo) :
    ∀ (cur : Option drmModeModeInfo) (area : Int),
      (∀ m ∈ ms, m.hdisplay * m.vdisplay < 2 ^ 31) →
      (modeLoop ms (cur, area) = (cur, area) ∧
        ∀ m ∈ ms, ((m.hdisplay * m.vdisplay : Nat) : Int) ≤ area) ∨
      (∃ i m, ms.get? i = some m ∧
        modeLoop ms (cur, area) = (some m, ((m.hdisplay * m.vdisplay : Nat) : Int)) ∧
        area < ((m.hdisplay * m.vdisplay : Nat) : Int) ∧
        (∀ m' ∈ ms, m'.hdisplay * m'.vdisplay ≤ m.hdisplay * m.vdisplay) ∧
        ∀ j m', j < i → ms.get? j = some m' →
          m'.hdisplay * m'.vdisplay < m.hdisplay * m.vdisplay) := by
  induction ms with
  | nil =>
    intro cur area _
    left
    simp [modeLoop]
  | cons m0 rest ih =>
    intro cur area hfit
    have h0 : m0.hdisplay * m0.vdisplay < 2 ^ 31 := hfit m0 (List.mem_cons_self _ _)
    have hrest : ∀ m ∈ rest, m.hdisplay * m.vdisplay < 2 ^ 31 :=
      fun m hm => hfit m (List.mem_cons_of_mem _ hm)
    have ha := current_area_eq m0 h0
    by_cases hgt : current_area m0 > area
    · have hstep : modeLoop (m0 :: rest) (cur, area) =
          modeLoop rest (some m0, current_area m0) := by
        simp [modeLoop, hgt]
      rw [hstep, ha]
      rw [ha] at hgt
      right
      rcases ih (some m0) ((m0.hdisplay * m0.vdisplay : Nat) : Int) hrest with
        ⟨heq, hle⟩ | ⟨i, m, hget, heq, hlt, hmax, hfirst⟩
      · refine ⟨0, m0, rfl, heq, hgt, ?_, ?_⟩
        · intro m' hm'
          rcases List.mem_cons.mp hm' with rfl | hm'
          · exact le_refl _
          · exact_mod_cast hle m' hm'
        · intro j m' hj
          exact absurd hj (Nat.not_lt_zero j)
      · have hlt' : m0.hdisplay * m0.vdisplay < m.hdisplay * m.vdisplay := by
          exact_mod_cast hlt
        refine ⟨i + 1, m, by simpa using hget, heq, lt_trans hgt hlt, ?_, ?_⟩
        · intro m' hm'
          rcases List.mem_cons.mp hm' with rfl | hm'
          · exact le_of_lt hlt'
          · exact hmax m' hm'
        · intro j m' hj hget'
          cases j with
          | zero =>
            simp at hget'
            subst hget'
            exact hlt'
          | succ j =>
            exact hfirst j m' (by omega) (by simpa using hget')
    · have hstep : modeLoop (m0 :: rest) (cur, area) = modeLoop rest (cur, area) := by
        simp [modeLoop, hgt]
      rw [hstep]
      rw [ha] at hgt
      have hle0 : ((m0.hdisplay * m0.vdisplay : Nat) : Int) ≤ area := not_lt.mp hgt
      rcases ih cur area hrest with ⟨heq, hle⟩ | ⟨i, m, hget, heq, hlt, hmax, hfirst⟩
      · left
        refine ⟨heq, ?_⟩
        intro m' hm'
        rcases List.mem_cons.mp hm' with rfl | hm'
        · exact hle0
        · exact hle m' hm'
      · right
        have hlt' : m0.hdisplay * m0.vdisplay < m.hdisplay * m.vdisplay := by
          exact_mod_cast lt_of_le_of_lt hle0 hlt
        refine ⟨i + 1, m, by simpa using hget, heq, hlt, ?_, ?_⟩
        · intro m' hm'
          rcases List.mem_cons.mp hm' with rfl | hm'
          · exact le_of_lt hlt'
          · exact hmax m' hm'
        · intro j m' hj hget'
          cases j with
          | zero =>
            simp at hget'
            subst hget'
            exact hlt'
          | succ j =>
            exact hfirst j m' (by omega) (by simpa using hget')

theorem findConnector_first_connected (k : Kernel) (pre post : List Nat) (id : Nat)
    (connector : drmModeConnector)
    (hpre : ∀ id' ∈ pre, ∃ c, k.drmModeGetConnector id' = some c ∧
      c.connection ≠ DRM_MODE_CONNECTED)
    (hid : k.drmModeGetConnector id = some connector)
    (hc : connector.connection = DRM_MODE_CONNECTED) :
    findConnector k (pre ++ id :: post) = (Ending.finished, some connector) := by
  induction pre with
  | nil => simp [findConnector, hid, hc]
  | cons id0 rest ih =>
    obtain ⟨c, hget, hnc⟩ := hpre id0 (List.mem_cons_self _ _)
    have := ih (fun id' h => hpre id' (List.mem_cons_of_mem _ h))
    simp [findConnector, hget, hnc, this]

/-- The mode that `init_drm` leaves in `drm.mode` once it has found the
connector `connector` and at least one mode larger than area 0. -/
theorem init_drm_mode (k : Kernel) (node : String) (drm : Drm) (resources : drmModeRes)
    (connector : drmModeConnector) (m : drmModeModeInfo)
    (hopen : 0 ≤ k.openDevice node)
    (hres : k.drmModeGetResources = some resources)
    (hfind : findConnector k resources.connectors = (Ending.finished, some connector))
    (hmode : (modeLoop connector.modes (drm.mode, 0)).1 = some m) :
    (init_drm k node drm).2.2.mode = some m := by
  unfold init_drm
  simp only [not_lt.mpr hopen, if_false, hres, hfind, hmode, Option.isNone_some,
    Bool.false_eq_true]
  rcases findEncoder k connector resources.encoders with ⟨e, enc⟩
  cases e <;> cases enc <;> rfl

/-- Claim C26: `init_drm` selects, among the modes of the first connected
connector, the mode of maximal `hdisplay * vdisplay`, the earliest one on
ties, whenever that connector has a mode and all areas are positive and fit in
an `int`. The mode is left in `drm.mode` at position `i` of the mode list: no
mode has a larger area and every earlier mode has a smaller one. -/
theorem C26_init_drm_selects_max_area (k : Kernel) (node : String) (drm : Drm)
    (resources : drmModeRes) (pre post : List Nat) (id : Nat) (connector : drmModeConnector)
    (hopen : 0 ≤ k.openDevice node)
    (hres : k.drmModeGetResources = some resources)
    (hconn : resources.connectors = pre ++ id :: post)
    (hpre : ∀ id' ∈ pre, ∃ c, k.drmModeGetConnector id' = some c ∧
      c.connection ≠ DRM_MODE_CONNECTED)
    (hid : k.drmModeGetConnector id = some connector)
    (hc : connector.connection = DRM_MODE_CONNECTED)
    (hne : connector.modes ≠ [])
    (harea : ∀ m ∈ connector.modes,
      0 < m.hdisplay * m.vdisplay ∧ m.hdisplay * m.vdisplay < 2 ^ 31) :
    ∃ i m, connector.modes.get? i = some m ∧
      (init_drm k node drm).2.2.mode = some m ∧
      (∀ m' ∈ connector.modes, m'.hdisplay * m'.vdisplay ≤ m.hdisplay * m.vdisplay) ∧
      ∀ j m', j < i → connector.modes.get? j = some m' →
        m'.hdisplay * m'.vdisplay < m.hdisplay * m.vdisplay := by
  have hfind : findConnector k resources.connectors = (Ending.finished, some connector) := by
    rw [hconn]
    exact findConnector_first_connected k pre post id connector hpre hid hc
  rcases modeLoop_spec connector.modes drm.mode 0 (fun m hm => (harea m hm).2) with
    ⟨-, hle⟩ | ⟨i, m, hget, heq, -, hmax, hfirst⟩
  · exfalso
    obtain ⟨m0, hm0⟩ := List.exists_mem_of_ne_nil _ hne
    have h1 := hle m0 hm0
    have h2 := (harea m0 hm0).1
    omega
  · refine ⟨i, m, hget, ?_, hmax, hfirst⟩
    apply init_drm_mode k node drm resources connector m hopen hres hfind
    rw [heq]

theorem C26_init_drm_selects_max_area_witness :
    (oneOutputKernel.drmModeGetConnector 7).map (fun c => c.modes) =
      some [mode640x480, mode1920x1080, mode800x600] ∧
    (init_drm triangleKernel "/dev/dri/card0" {}).2.2.mode = some mode1920x1080 ∧
    ∃ i m, [mode640x480, mode1920x1080, mode800x600].get? i = some m ∧
      (init_drm triangleKernel "/dev/dri/card0" {}).2.2.mode = some m ∧
      (∀ m' ∈ [mode640x480, mode1920x1080, mode800x600],
        m'.hdisplay * m'.vdisplay ≤ m.hdisplay * m.vdisplay) ∧
      ∀ j m', j < i → [mode640x480, mode1920x1080, mode800x600].get? j = some m' →
        m'.hdisplay * m'.vdisplay < m.hdisplay * m.vdisplay :=
  ⟨by decide, by decide,
   C26_init_drm_selects_max_area triangleKernel "/dev/dri/card0" {}
     { crtcs := [50], connectors := [7], encoders := [30] } [] [] 7
     { connector_id := 7, encoder_id := 30, connection := DRM_MODE_CONNECTED,
       modes := [mode640x480, mode1920x1080, mode800x600], encoders := [30] }
     (by decide) (by decide) (by decide) (by decide) (by decide) (by decide) (by decide)
     (by decide)⟩

end kmstriangle

namespace ged

theorem splitOn_cons_sep (sep : Char) (l : List Char) :
    (sep :: l).splitOn sep = [] :: l.splitOn sep := by
  simp [List.splitOn, List.splitOnP_cons]

theorem splitOn_cons_ne (a sep : Char) (h : a ≠ sep) (l : List Char) :
    (a :: l).splitOn sep = (l.splitOn sep).modifyHead (List.cons a) := by
  simp [List.splitOn, List.splitOnP_cons, h]

/-- The first token of a list ends at the first separator of the list followed
by a separator. -/
theorem splitOn_first_token (sep : Char) (l : List Char) :
    ∃ h tl r, l.splitOn sep = h :: tl ∧ sep ∉ h ∧ l ++ [sep] = h ++ sep :: r := by
  induction l with
  | nil => exact ⟨[], [], [], by simp [List.splitOn, List.splitOnP_nil], by simp, by simp⟩
  | cons a l ih =>
    obtain ⟨h, tl, r, hs, hmem, heq⟩ := ih
    by_cases ha : a = sep
    · subst ha
      exact ⟨[], l.splitOn a, l ++ [a], splitOn_cons_sep a l, by simp, by simp⟩
    · refine ⟨a :: h, tl, r, ?_, ?_, ?_⟩
      · rw [splitOn_cons_ne a sep ha, hs]
        rfl
      · simp only [List.mem_cons, not_or]
        exact ⟨fun e => ha e.symm, hmem⟩
      · simp [heq]

/-- Two lists free of the separator that are each followed by a separator at
the start of the same list are equal. -/
theorem eq_of_append_sep_eq (sep : Char) :
    ∀ (x y u v : List Char), sep ∉ x → sep ∉ y → x ++ sep :: u = y ++ sep :: v → x = y := by
  intro x
  induction x with
  | nil =>
    intro y u v _ hy h
    cases y with
    | nil => rfl
    | cons b y =>
      simp only [List.nil_append, List.cons_append, List.cons.injEq] at h
      exact absurd (List.mem_cons_self b y) (h.1 ▸ hy)
  | cons a x ih =>
    intro y u v hx hy h
    cases y with
    | nil =>
      simp only [List.nil_append, List.cons_append, List.cons.injEq] at h
      exact absurd (List.mem_cons_self a x) (h.1 ▸ hx)
    | cons b y =>
      simp only [List.cons_append, List.cons.injEq] at h
      rw [h.1, ih y u v (fun m => hx (List.mem_cons_of_mem _ m))
        (fun m => hy (List.mem_cons_of_mem _ m)) h.2]

/-- A non-empty name free of the separator, followed by a separator, occurs in
a list followed by a separator exactly when the name is the end of one of the
tokens of the list. -/
theorem infix_delimited_iff (sep : Char) (n : List Char) (hn : n ≠ []) (hs : sep ∉ n)
    (l : List Char) :
    (n ++ [sep]) <:+: (l ++ [sep]) ↔ ∃ t ∈ l.splitOn sep, n <:+ t := by
  induction l with
  | nil =>
    constructor
    · intro h
      have hlen := h.length_le
      simp only [List.length_append, List.length_singleton, List.nil_append] at hlen
      have : n.length = 0 := by omega
      exact absurd (List.length_eq_zero.mp this) hn
    · rintro ⟨t, ht, hsuf⟩
      simp only [List.splitOn, List.splitOnP_nil, List.mem_singleton] at ht
      subst ht
      exact absurd (List.suffix_nil.mp hsuf) hn
  | cons a l ih =>
    obtain ⟨h, tl, r, hsplit, hmem, heq⟩ := splitOn_first_token sep l
    rw [List.cons_append, List.infix_cons_iff, ih, hsplit]
    by_cases ha : a = sep
    · subst ha
      rw [splitOn_cons_sep, hsplit]
      constructor
      · rintro (hp | ⟨t, ht, hsuf⟩)
        · exfalso
          obtain ⟨w, hw⟩ := hp
          cases n with
          | nil => exact hn rfl
          | cons c n =>
            simp only [List.cons_append, List.cons.injEq] at hw
            exact hs (hw.1 ▸ List.mem_cons_self c n)
        · exact ⟨t, List.mem_cons_of_mem _ ht, hsuf⟩
      · rintro ⟨t, ht, hsuf⟩
        rcases List.mem_cons.mp ht with rfl | ht
        · exact absurd (List.suffix_nil.mp hsuf) hn
        · exact Or.inr ⟨t, ht, hsuf⟩
    · rw [splitOn_cons_ne a sep ha, hsplit]
      have hah : sep ∉ a :: h := by
        simp only [List.mem_cons, not_or]
        exact ⟨fun e => ha e.symm, hmem⟩
      constructor
      · rintro (hp | ⟨t, ht, hsuf⟩)
        · obtain ⟨w, hw⟩ := hp
          have e : n ++ sep :: w = (a :: h) ++ sep :: r := by
            rw [List.cons_append, ← heq, ← hw]
            simp
          have hnh : n = a :: h := eq_of_append_sep_eq sep n (a :: h) w r hs hah e
          exact ⟨a :: h, List.mem_cons_self _ _, by rw [hnh]⟩
        · rcases List.mem_cons.mp ht with rfl | ht
          · exact ⟨a :: t, List.mem_cons_self _ _, hsuf.trans (List.suffix_cons a t)⟩
          · exact ⟨t, List.mem_cons_of_mem _ ht, hsuf⟩
      · rintro ⟨t, ht, hsuf⟩
        rcases List.mem_cons.mp ht with rfl | ht
        · rcases List.suffix_cons_iff.mp hsuf with hnh | hsuf
          · left
            refine ⟨r, ?_⟩
            rw [hnh, List.cons_append, List.cons_append, heq]
            simp
          · exact Or.inr ⟨h, List.mem_cons_self _ _, hsuf⟩
        · exact Or.inr ⟨t, List.mem_cons_of_mem _ ht, hsuf⟩

namespace EGLDRMGlue

/-- What `ExtensionsContain` computes for a non-empty name without a space:
whether the name is the end of one of the space-separated tokens of the
list. -/
theorem ExtensionsContain_iff_end_of_token (name list : String) (hne : name.toList ≠ [])
    (hsp : ' ' ∉ name.toList) :
    Impl.ExtensionsContain name (some list) = true ↔
      ∃ t ∈ specTokens list, name.toList <:+ t := by
  unfold Impl.ExtensionsContain specTokens
  simp only [decide_eq_true_eq]
  have h1 : (name ++ " ").toList = name.toList ++ [' '] := by
    simp [String.toList, String.data_append]
  have h2 : (list ++ " ").toList = list.toList ++ [' '] := by
    simp [String.toList, String.data_append]
  rw [h1, h2]
  exact infix_delimited_iff ' ' name.toList hne hsp list.toList

end EGLDRMGlue
end ged

namespace ged
namespace EGLDRMGlue

/-- Claim C28, failing input. `ExtensionsContain` appends a space to the list
and to the name and searches for the substring, so a name that is only the end
of a token is found: `KHR_image_base` is reported as contained in a list whose
tokens are `EGL_KHR_image_base` and `EGL_KHR_fence_sync`. A name that is a
token is found, a null list contains nothing. -/
theorem C28_end_of_token_accepted :
    Impl.ExtensionsContain "KHR_image_base"
      (some "EGL_KHR_image_base EGL_KHR_fence_sync") = true ∧
    specTokens "EGL_KHR_image_base EGL_KHR_fence_sync" =
      ["EGL_KHR_image_base".toList, "EGL_KHR_fence_sync".toList] ∧
    "KHR_image_base".toList ∉ specTokens "EGL_KHR_image_base EGL_KHR_fence_sync" ∧
    Impl.ExtensionsContain "EGL_KHR_fence_sync"
      (some "EGL_KHR_image_base EGL_KHR_fence_sync") = true ∧
    Impl.ExtensionsContain "EGL_KHR_image"
      (some "EGL_KHR_image_base EGL_KHR_fence_sync") = false ∧
    Impl.ExtensionsContain "EGL_KHR_image_base" none = false :=
  ⟨by decide, by decide, by decide, by decide, by decide, by decide⟩

end EGLDRMGlue
end ged

namespace kmstriangle

open ged

/-- Claim C24, failing input. With every initialisation step successful and
the first wait finding fd 0 ready, `main` leaves its loop by `break`, tears
the ring down and returns the value that `select` returned: 1 when only fd 0
was ready, 2 when the display descriptor was ready as well; not 0. A rejected
flip makes it return -1. -/
theorem C24_graceful_exit_returns_select_count :
    (main ["kmstriangle"] triangleSetup enterAtFirstWait 2).map
      (fun r => (r.1, r.2.1, r.2.2.getLast?)) =
      some (Ending.finished, 1, some Call.eglTerminate) ∧
    (main ["kmstriangle"] triangleSetup exitDuringFirstFlip 2).map
      (fun r => (r.1, r.2.1, r.2.2.getLast?)) =
      some (Ending.finished, 2, some Call.eglTerminate) ∧
    (main ["kmstriangle"] triangleSetup rejectThirdFlip 3).map
      (fun r => (r.1, r.2.1)) = some (Ending.finished, -1) :=
  ⟨by decide, by decide, by decide⟩

/-- Claim C25, failing input. `fds` is filled once, before the loop, and every
`select` overwrites it with the ready descriptors. On `rejectThirdFlip`, where
the first wait reports only the display descriptor 3 ready, the first `select`
is passed the set of 0 and 3 and the second `select` is passed the set of 3
alone: fd 0 is no longer watched. -/
theorem C25_exit_descriptor_dropped :
    (init_drm triangleSetup.kernel "/dev/dri/card0" {}).2.2.fd = 3 ∧
    (main ["kmstriangle"] triangleSetup rejectThirdFlip 3).map (fun r => watched r.2.2) =
      some [[0, 3], [3]] :=
  ⟨by decide, by decide⟩

/-- Claim C30, failing input. After a match that is not a whole token the
search resumes at its terminator, and a match found right there passes the
test `where == start` although it begins inside a token: `has_extension`
returns 0 for the name `GL_a` in a string whose only token is `GL_aGL_a`. A
name that is a token gives 0 and a name that occurs nowhere gives -1. -/
theorem C30_repeated_name_accepted :
    has_extension 2 "GL_a" "GL_aGL_a" = some 0 ∧
    specTokens "GL_aGL_a" = ["GL_aGL_a".toList] ∧
    "GL_a".toList ∉ specTokens "GL_aGL_a" ∧
    has_extension 3 "GL_a" "GL_ab xGL_aGL_a GL_c" = some 0 ∧
    "GL_a".toList ∉ specTokens "GL_ab xGL_aGL_a GL_c" ∧
    has_extension 2 "GL_a" "GL_ab GL_a" = some 0 ∧
    has_extension 2 "GL_a" "GL_ab GL_c" = some (-1) :=
  ⟨by decide, by decide, by decide, by decide, by decide, by decide, by decide⟩

end kmstriangle

namespace null_platform_test

open ged

set_option maxRecDepth 100000 in
/-- Claim C27, failing input. On the platform `smooth`, where all 501 flips
succeed, `main` returns 0 after registering the framebuffer ids 40 and 41, and
its teardown loop calls `drmModeRmFB` twice with id 40 and never with id 41:
the loop indexes `ids` with `fb_idx`, which the flip loop left at 0, and not
with its own `fb_index`. -/
theorem C27_teardown_unregisters_one_id_twice :
    (main false smooth 1).map
      (fun r => (r.1, r.2.1, registered r.2.2, unregistered r.2.2)) =
      some (Ending.finished, 0, [40, 41], [40, 40]) := by
  decide

end null_platform_test
